import Mathlib

/-!
# gst-launch-remote: the control protocol handler and the diagnostic registry

A shallow embedding of `src/gst-launch-remote/gst-launch-remote.c`.

* C strings are lists of characters (the bytes before the NUL terminator).  The
  handler only ever inspects ASCII characters, for which bytes and code points
  coincide.
* Pointers to engine objects (pipelines, sockets, connections) are `Nat`
  identities, a nullable pointer is an `Option`.
* The media engine and the I/O layer are not part of the repository: what they
  answer is read from an `Engine` record of oracle functions, what is asked of
  them is recorded as a list of `Effect`s, in program order.
* A dereference of a null pointer is a `Fault`; functions that can fault return
  `Except Fault _`.
* Reference counting, memory release and the logging macros (`GST_DEBUG`,
  `GST_ERROR`, ...) are left out; `long` has 64 bits.
-/

namespace LaunchRemote

/-! ## C library and GLib string helpers -/

/-- ISSPACE of the C locale: blank, form feed, newline, carriage return, tab, vertical tab. -/
def ISSPACE (c : Char) : Bool :=
  c == ' ' || c == '\x0c' || c == '\n' || c == '\r' || c == '\t' || c == '\x0b'

/-- GLib `g_str_has_prefix (str, prefix)`. -/
def g_str_has_prefix (str pfx : List Char) : Bool :=
  pfx.isPrefixOf str

/-- C `strchr (s, c)` together with the later `*colon = 0`: the characters before the
first `c` and the characters after it, or `none` when `c` does not occur. -/
def strchr (c : Char) : List Char → Option (List Char × List Char)
  | [] => none
  | x :: xs =>
    if x = c then some ([], xs)
    else match strchr c xs with
      | none => none
      | some (before, after) => some (x :: before, after)

/-- The digit loop of `strtol`/`strtoull` in base 10: the value accumulated over the
longest prefix of decimal digits (added to `acc`) and the unread rest. -/
def scan_digits : Nat → List Char → Nat × List Char
  | acc, [] => (acc, [])
  | acc, c :: cs =>
    if c.isDigit then scan_digits (acc * 10 + (c.toNat - '0'.toNat)) cs
    else (acc, c :: cs)

/-- The common front of `strtol`, `g_ascii_strtoll` and `g_ascii_strtoull` in base 10:
skip white space, read an optional sign, read decimal digits.  The result is
`(negative, magnitude, rest)`; when no digit was read there is no conversion, the
magnitude is 0 and `rest` is the whole input. -/
def parse_long_long (nptr : List Char) : Bool × Nat × List Char :=
  let s := nptr.dropWhile ISSPACE
  match s with
  | [] => (false, 0, nptr)
  | c :: cs =>
    let negative := c == '-'
    let s1 := if c == '-' || c == '+' then cs else c :: cs
    let r := scan_digits 0 s1
    if r.2.length == s1.length then (false, 0, nptr)
    else (negative, r.1, r.2)

def G_MAXUINT64 : Nat := 2 ^ 64 - 1

def G_MAXINT64 : Int := 2 ^ 63 - 1

def G_MININT64 : Int := -(2 ^ 63)

/-- GLib `g_ascii_strtoull (nptr, &endptr, 10)`: the `guint64` value and the text at
`endptr`.  An overflowing magnitude saturates to `G_MAXUINT64`; a leading minus sign
negates the result modulo 2^64. -/
def g_ascii_strtoull (nptr : List Char) : Nat × List Char :=
  let p := parse_long_long nptr
  let m := if p.2.1 > G_MAXUINT64 then G_MAXUINT64 else p.2.1
  (if p.1 then (2 ^ 64 - m) % 2 ^ 64 else m, p.2.2)

/-- GLib `g_ascii_strtoll (nptr, NULL, 10)`: the `gint64` value, saturated to the
`gint64` range. -/
def g_ascii_strtoll (nptr : List Char) : Int :=
  let p := parse_long_long nptr
  let v : Int := if p.1 then -(p.2.1 : Int) else (p.2.1 : Int)
  if v > G_MAXINT64 then G_MAXINT64 else if v < G_MININT64 then G_MININT64 else v

/-- C `strtol (nptr, NULL, 10)` with a 64-bit `long`: the value saturated to the
range of `long`. -/
def strtol (nptr : List Char) : Int :=
  g_ascii_strtoll nptr

/-- Conversion of an integer to `gint` (32 bits, two's complement wrap-around). -/
def to_gint (v : Int) : Int :=
  (v + 2 ^ 31) % 2 ^ 32 - 2 ^ 31

/-- Conversion of a `gint` to `guint64` (sign extension, i.e. reduction modulo 2^64). -/
def to_guint64 (v : Int) : Nat :=
  (v % 2 ^ 64).toNat

/-- The loop of GLib `g_strsplit` for a one-character delimiter: `budget` further
pieces may be cut off before the remainder becomes the last piece. -/
def g_strsplit_loop (delim : Char) : Nat → List Char → List (List Char)
  | 0, remainder => [remainder]
  | budget + 1, remainder =>
    match strchr delim remainder with
    | none => [remainder]
    | some (before, after) => before :: g_strsplit_loop delim budget after

/-- GLib `g_strsplit (string, delimiter, max_tokens)` for a one-character delimiter
and `max_tokens >= 1`: at most `max_tokens` pieces, the last one holding the
remainder; the empty string splits into the empty vector. -/
def g_strsplit (string : List Char) (delim : Char) (max_tokens : Nat) : List (List Char) :=
  if string = [] then [] else g_strsplit_loop delim (max_tokens - 1) string

/-- printf `%u`. -/
def fmt_u (n : Nat) : List Char :=
  Nat.toDigits 10 n

/-- printf `%0<w>u`: zero padded to width `w`. -/
def fmt_0u (w n : Nat) : List Char :=
  List.replicate (w - (fmt_u n).length) '0' ++ fmt_u n

/-! ## Engine objects, session and registry state -/

/-- GStreamer `GstState`, in the order of its numeric values 0..4. -/
inductive GstState
  | VOID_PENDING
  | NULL
  | READY
  | PAUSED
  | PLAYING
  deriving DecidableEq, Repr

/-- The numeric value of a `GstState`, which `>=` compares. -/
def GstState.toNat : GstState → Nat
  | .VOID_PENDING => 0
  | .NULL => 1
  | .READY => 2
  | .PAUSED => 3
  | .PLAYING => 4

/-- GStreamer `gst_element_state_get_name`. -/
def gst_element_state_get_name : GstState → List Char
  | .VOID_PENDING => "VOID_PENDING".toList
  | .NULL => "NULL".toList
  | .READY => "READY".toList
  | .PAUSED => "PAUSED".toList
  | .PLAYING => "PLAYING".toList

/-- GStreamer `GstStateChangeReturn`. -/
inductive GstStateChangeReturn
  | FAILURE
  | SUCCESS
  | ASYNC
  | NO_PREROLL
  deriving DecidableEq, Repr

/-- The socket address object `g_inet_socket_address_new_from_string` returns. -/
structure GSocketAddress where
  address : List Char
  port : Nat
  deriving DecidableEq, Repr

def GST_CLOCK_TIME_NONE : Nat := 2 ^ 64 - 1

def GST_SECOND : Nat := 1000000000

def GST_MSECOND : Nat := 1000000

def GST_LEVEL_DEBUG : Nat := 5

/-- The four values `GST_TIME_ARGS (t)` passes to `GST_TIME_FORMAT`
(`%u:%02u:%02u.%09u`), printed. -/
def GST_TIME_FORMAT (t : Nat) : List Char :=
  if t ≠ GST_CLOCK_TIME_NONE then
    fmt_u (t / (GST_SECOND * 60 * 60) % 2 ^ 32) ++ ":".toList
      ++ fmt_0u 2 (t / (GST_SECOND * 60) % 60) ++ ":".toList
      ++ fmt_0u 2 (t / GST_SECOND % 60) ++ ".".toList
      ++ fmt_0u 9 (t % GST_SECOND)
  else
    "99:99:99.999999999".toList

/-- GStreamer `gst_util_uint64_scale (val, num, 1)`: `val * num`, or `G_MAXUINT64` on
overflow. -/
def gst_util_uint64_scale (val num : Nat) : Nat :=
  if val * num > G_MAXUINT64 then G_MAXUINT64 else val * num

/-- What the media engine and the I/O layer answer.  None of this is code of the
repository; every field is the return value of the library call of the same name. -/
structure Engine where
  /-- The pipeline built from a description (or NULL) and the error message, if any. -/
  gst_parse_launch : List Char → Option Nat × Option (List Char)
  gst_element_set_state : Nat → GstState → GstStateChangeReturn
  /-- Success of a flushing seek of a pipeline to a position in nanoseconds. -/
  gst_element_seek_simple : Nat → Nat → Bool
  /-- The `gint64` duration of a pipeline, `none` when the query fails. -/
  gst_element_query_duration : Nat → Option Int
  gst_element_query_position : Nat → Option Int
  /-- The field `current_state` of a pipeline, which `GST_STATE` reads. -/
  GST_STATE : Nat → GstState
  /-- The address parsed from a host string and a port, NULL when the host does not parse. -/
  g_inet_socket_address_new_from_string : List Char → Nat → Option GSocketAddress
  /-- The clock built for a remote address and a `gint` port (or NULL). -/
  gst_net_client_clock_new : List Char → Int → Option Nat
  /-- Success of writing the given bytes to the connection's output stream. -/
  g_output_stream_write_all : List Char → Bool

/-- What the program asks of the engine, the connection and the application. -/
inductive Effect
  /-- `g_output_stream_write_all (self->ostream, data, ...)`. -/
  | write (data : List Char)
  /-- `g_data_input_stream_read_line_async`: the next line is awaited. -/
  | read_line_async
  /-- The application callback `set_message`. -/
  | set_message (message : List Char)
  | parse_launch (description : List Char)
  | element_set_state (pipeline : Nat) (state : GstState)
  /-- The bus watch and the signal connections of lines 718-738. -/
  | bus_connect (pipeline : Nat)
  | use_clock (pipeline : Nat) (clock : Nat)
  | set_base_time (pipeline : Nat) (time : Nat)
  | set_start_time (pipeline : Nat) (time : Nat)
  | seek_simple (pipeline : Nat) (position : Nat)
  /-- The application callback `initialized`. -/
  | initialized
  /-- The application callback `set_current_position`, with its two `gint` arguments. -/
  | set_current_position (position duration : Int)
  /-- `gst_video_overlay_expose` on a video sink. -/
  | overlay_expose (video_sink : Nat)
  /-- `gst_video_overlay_set_window_handle` on a video sink. -/
  | overlay_set_window_handle (video_sink : Nat) (handle : Nat)
  /-- The connection of `notify_caps_cb` to the sink pad of a video sink. -/
  | connect_notify_caps (video_sink : Nat)
  deriving DecidableEq, Repr

/-- The payloads written to the connection, in order. -/
def writes : List Effect → List (List Char)
  | [] => []
  | .write d :: es => d :: writes es
  | _ :: es => writes es

/-- The callbacks of `GstLaunchRemoteAppContext`: `true` when the pointer is set. -/
structure GstLaunchRemoteAppContext where
  set_message : Bool
  set_current_position : Bool
  initialized : Bool
  media_size_changed : Bool
  deriving DecidableEq, Repr

/-- The struct `GstLaunchRemote` (the session). -/
structure GstLaunchRemote where
  main_loop : Option Nat
  window_handle : Nat
  initialized : Bool
  pipeline_string : Option (List Char)
  pipeline : Option Nat
  video_sink : Option Nat
  target_state : GstState
  is_live : Bool
  net_clock : Option Nat
  base_time : Nat
  service : Option Nat
  connection : Option Nat
  distream : Option Nat
  ostream : Option Nat
  debug_socket : Option Nat
  app_context : GstLaunchRemoteAppContext
  deriving DecidableEq, Repr

/-- The struct `DebugSocket`: a registered diagnostic sink; it is armed when its
address is set. -/
structure DebugSocket where
  socket : Nat
  address : Option GSocketAddress
  deriving DecidableEq, Repr

/-- The process-wide state: the list `debug_sockets` and GStreamer's debug switch
(`gst_debug_set_active`) and default threshold. -/
structure Globals where
  debug_sockets : List DebugSocket
  debug_active : Bool
  default_threshold : Nat
  deriving DecidableEq, Repr

/-- A null pointer was dereferenced. -/
inductive Fault
  | null_dereference
  deriving DecidableEq, Repr

/-- A datagram handed to `g_socket_send_message`. -/
structure Datagram where
  socket : Nat
  address : GSocketAddress
  payload : List Char
  deriving DecidableEq, Repr

/-! ## The diagnostic registry -/

/-- The function `send_debug`: one datagram `prefix: message\n` to every sink of the
list whose address is set, in list order.  The result of the send is ignored. -/
def send_debug (g : Globals) (pfx message : List Char) : List Datagram :=
  g.debug_sockets.filterMap fun s =>
    match s.address with
    | none => none
    | some a => some ⟨s.socket, a, pfx ++ ": ".toList ++ message ++ "\n".toList⟩

/-- The function `gst_launch_remote_init` (run once per process): debugging is
switched off. -/
def gst_launch_remote_init (g : Globals) : Globals :=
  { g with debug_active := false }

/-- Lines 785-794 of `gst_launch_remote_main`: the session's sink is prepended to
`debug_sockets`, unarmed. -/
def register_debug_socket (g : Globals) (socket : Nat) : Globals :=
  { g with debug_sockets := ⟨socket, none⟩ :: g.debug_sockets }

/-- The loop of lines 848-858: the first sink of the session's socket is unlinked. -/
def remove_debug_socket (socket : Nat) : List DebugSocket → List DebugSocket
  | [] => []
  | s :: l => if s.socket = socket then l else s :: remove_debug_socket socket l

/-- Lines 844-862 of `gst_launch_remote_main`: at teardown the session's sink is
removed from `debug_sockets`. -/
def unregister_debug_socket (g : Globals) (debug_socket : Option Nat) : Globals :=
  match debug_socket with
  | none => g
  | some socket => { g with debug_sockets := remove_debug_socket socket g.debug_sockets }

/-- The loop of lines 536-546: the first sink whose socket is the session's gets the
address; `none` when the session has no sink in the list (`ok` stays FALSE). -/
def arm_debug_socket (debug_socket : Option Nat) (addr : GSocketAddress) :
    List DebugSocket → Option (List DebugSocket)
  | [] => none
  | s :: l =>
    if some s.socket = debug_socket then some ({ s with address := some addr } :: l)
    else match arm_debug_socket debug_socket addr l with
      | none => none
      | some l1 => some (s :: l1)

/-- The loop of lines 556-566: every sink whose socket is the session's loses its
address. -/
def disarm_debug_socket (debug_socket : Option Nat) (l : List DebugSocket) : List DebugSocket :=
  l.map fun s => if some s.socket = debug_socket then { s with address := none } else s

/-- The value of `all_disabled` after the loop of lines 556-566: no sink of the list
has an address. -/
def all_disabled (l : List DebugSocket) : Bool :=
  l.all fun s => s.address.isNone

/-- Lines 533-548 of `read_line_cb`: the session's sink is armed toward `addr`,
debugging is switched on and the default threshold raised; `none` when the session has
no sink in the list, in which case nothing is changed. -/
def debug_arm (g : Globals) (debug_socket : Option Nat) (addr : GSocketAddress) :
    Option Globals :=
  match arm_debug_socket debug_socket addr g.debug_sockets with
  | none => none
  | some l => some { debug_sockets := l, debug_active := true,
                     default_threshold := GST_LEVEL_DEBUG }

/-- Lines 552-570 of `read_line_cb`: the session's sink is disarmed; debugging stays on
exactly when some sink is still armed, and then the default threshold is raised. -/
def debug_disarm (g : Globals) (debug_socket : Option Nat) : Globals :=
  let l := disarm_debug_socket debug_socket g.debug_sockets
  { debug_sockets := l, debug_active := !all_disabled l,
    default_threshold := if all_disabled l then g.default_threshold else GST_LEVEL_DEBUG }

/-! ## Lifecycle operations -/

/-- The function `set_message`: the formatted text goes to the application callback
when there is one. -/
def set_message (self : GstLaunchRemote) (message : List Char) : List Effect :=
  if self.app_context.set_message then [.set_message message] else []

/-- GStreamer `gst_element_set_state` on a nullable element: on NULL the call fails
its precondition check and returns `GST_STATE_CHANGE_FAILURE`. -/
def gst_element_set_state (env : Engine) (pipeline : Option Nat) (s : GstState) :
    GstStateChangeReturn × List Effect :=
  match pipeline with
  | none => (.FAILURE, [])
  | some p => (env.gst_element_set_state p s, [.element_set_state p s])

/-- The function `gst_launch_remote_set_pipeline`. -/
def gst_launch_remote_set_pipeline (env : Engine) (self : GstLaunchRemote)
    (pipeline_string : Option (List Char)) : GstLaunchRemote × List Effect :=
  let teardown : GstLaunchRemote × List Effect :=
    match self.pipeline with
    | some p => ({ self with pipeline := none, video_sink := none },
        [.element_set_state p .NULL])
    | none => (self, [])
  let self1 := { teardown.1 with pipeline_string := none, target_state := .NULL }
  match pipeline_string with
  | none => (self1, teardown.2)
  | some str =>
    let built := env.gst_parse_launch str
    let self2 := { self1 with pipeline_string := some str, pipeline := built.1 }
    match built.2 with
    | some message =>
      (self2, teardown.2 ++ [.parse_launch str]
        ++ set_message self2 ("Unable to build pipeline '".toList ++ str ++ "': ".toList
            ++ message))
    | none =>
      match self2.pipeline with
      | none => (self2, teardown.2 ++ [.parse_launch str])
      | some p =>
        (self2, teardown.2 ++ [.parse_launch str, .bus_connect p]
          ++ (match self2.net_clock with
              | some c => [.use_clock p c]
              | none => [])
          ++ (if self2.base_time ≠ GST_CLOCK_TIME_NONE then
                [.set_base_time p self2.base_time, .set_start_time p GST_CLOCK_TIME_NONE]
              else []))

/-- The common body of `gst_launch_remote_play` and `gst_launch_remote_pause`, which
differ in the requested state and its name only. -/
def set_target_state (env : Engine) (self : GstLaunchRemote) (target : GstState)
    (name : List Char) : GstLaunchRemote × List Effect :=
  match self.pipeline_string with
  | none => (self, [])
  | some str =>
    let built : GstLaunchRemote × List Effect :=
      match self.pipeline with
      | none => gst_launch_remote_set_pipeline env self (some str)
      | some _ => (self, [])
    let self1 := { built.1 with target_state := target }
    let ret := gst_element_set_state env self1.pipeline target
    let self2 := { self1 with is_live := decide (ret.1 = .NO_PREROLL) }
    (self2, built.2 ++ ret.2 ++
      (if ret.1 = .FAILURE then
        set_message self2 ("Failed to set pipeline to ".toList ++ name)
       else []))

/-- The function `gst_launch_remote_play`. -/
def gst_launch_remote_play (env : Engine) (self : GstLaunchRemote) :
    GstLaunchRemote × List Effect :=
  set_target_state env self .PLAYING "PLAYING".toList

/-- The function `gst_launch_remote_pause`. -/
def gst_launch_remote_pause (env : Engine) (self : GstLaunchRemote) :
    GstLaunchRemote × List Effect :=
  set_target_state env self .PAUSED "PAUSED".toList

/-- The function `gst_launch_remote_seek`; `position_ms` is the `gint` argument. -/
def gst_launch_remote_seek (env : Engine) (self : GstLaunchRemote) (position_ms : Int) :
    GstLaunchRemote × List Effect :=
  match self.pipeline with
  | none => (self, [])
  | some p =>
    let position := gst_util_uint64_scale (to_guint64 position_ms) GST_MSECOND
    (self, [.seek_simple p position] ++
      (if env.gst_element_seek_simple p position then [] else
        set_message self "Seeking failed".toList))

/-- The function `handle_eof`: the connection is released. -/
def handle_eof (self : GstLaunchRemote) : GstLaunchRemote :=
  { self with connection := none }

/-! ## The command handler -/

/-- The state after a step of the handler and what it asked of its environment. -/
structure Outcome where
  globals : Globals
  self : GstLaunchRemote
  effects : List Effect
  deriving DecidableEq, Repr

/-- The result of the command dispatch (lines 516-636 of `read_line_cb`): the flag
`ok` and the outcome so far. -/
structure Dispatch where
  ok : Bool
  globals : Globals
  self : GstLaunchRemote
  effects : List Effect
  deriving DecidableEq, Repr

/-- The status line of `+STAT` (line 629). -/
def stat_line (position duration : Nat) (s : GstState) : List Char :=
  GST_TIME_FORMAT position ++ " / ".toList ++ GST_TIME_FORMAT duration ++ " @ ".toList
    ++ gst_element_state_get_name s ++ "\n".toList

/-- The branch `+DEBUG ` of `read_line_cb` (lines 519-550). -/
def command_debug_on (env : Engine) (g : Globals) (self : GstLaunchRemote)
    (line : List Char) : Dispatch :=
  let address := line.drop 7
  match strchr ':' address with
  | none => ⟨false, g, self, []⟩
  | some (host, after) =>
    let port := to_gint (strtol after)
    if port > 0 then
      match env.g_inet_socket_address_new_from_string host port.toNat with
      | none => ⟨false, g, self, []⟩
      | some addr =>
        match debug_arm g self.debug_socket addr with
        | none => ⟨false, g, self, []⟩
        | some g1 => ⟨true, g1, self, []⟩
    else ⟨false, g, self, []⟩

/-- The branch `-DEBUG` of `read_line_cb` (lines 551-570). -/
def command_debug_off (g : Globals) (self : GstLaunchRemote) : Dispatch :=
  ⟨true, debug_disarm g self.debug_socket, self, []⟩

/-- The branch `+SEEK ` of `read_line_cb` (lines 575-584). -/
def command_seek (env : Engine) (g : Globals) (self : GstLaunchRemote)
    (line : List Char) : Dispatch :=
  let parsed := g_ascii_strtoull (line.drop 6)
  if parsed.2 = [] then
    let r := gst_launch_remote_seek env self (to_gint parsed.1)
    ⟨true, g, r.1, r.2⟩
  else ⟨false, g, self, []⟩

/-- The branch `+NETCLOCK ` of `read_line_cb` (lines 585-604). -/
def command_netclock (env : Engine) (g : Globals) (self : GstLaunchRemote)
    (line : List Char) : Dispatch :=
  let command :=
    if (line.drop 9).head? = none then [] else g_strsplit (line.drop 10) ' ' 2
  match command with
  | host :: port_string :: _ =>
    let port := g_ascii_strtoll port_string
    ⟨true, g, { self with net_clock := env.gst_net_client_clock_new host (to_gint port) }, []⟩
  | _ => ⟨true, g, { self with net_clock := none }, []⟩

/-- The branch `+BASETIME ` of `read_line_cb` (lines 605-619). -/
def command_basetime (g : Globals) (self : GstLaunchRemote) (line : List Char) : Dispatch :=
  let parsed := g_ascii_strtoull (line.drop 10)
  if parsed.2 ≠ [] then
    ⟨false, g, { self with base_time := GST_CLOCK_TIME_NONE }, []⟩
  else
    ⟨true, g, { self with base_time := parsed.1 },
     match self.pipeline with
     | some p => [.set_base_time p parsed.1, .set_start_time p GST_CLOCK_TIME_NONE]
     | none => []⟩

/-- The branch `+STAT` of `read_line_cb` (lines 620-631).  `GST_STATE (self->pipeline)`
reads a field of the pipeline: without a pipeline it dereferences NULL. -/
def command_stat (env : Engine) (g : Globals) (self : GstLaunchRemote) :
    Except Fault Dispatch :=
  match self.pipeline with
  | none => .error .null_dereference
  | some p =>
    let duration := match env.gst_element_query_duration p with
      | some d => to_guint64 d
      | none => GST_CLOCK_TIME_NONE
    let position := match env.gst_element_query_position p with
      | some d => to_guint64 d
      | none => GST_CLOCK_TIME_NONE
    .ok ⟨true, g, self, [.write (stat_line position duration (env.GST_STATE p))]⟩

/-- The `if`/`else if` chain of `read_line_cb` (lines 516-636), in source order. -/
def read_line_cb_dispatch (env : Engine) (g : Globals) (self : GstLaunchRemote)
    (line : List Char) : Except Fault Dispatch :=
  if g_str_has_prefix line "+DEBUG ".toList then
    .ok (command_debug_on env g self line)
  else if g_str_has_prefix line "-DEBUG".toList then
    .ok (command_debug_off g self)
  else if g_str_has_prefix line "+PLAY".toList then
    .ok ⟨true, g, (gst_launch_remote_play env self).1, (gst_launch_remote_play env self).2⟩
  else if g_str_has_prefix line "+PAUSE".toList then
    .ok ⟨true, g, (gst_launch_remote_pause env self).1, (gst_launch_remote_pause env self).2⟩
  else if g_str_has_prefix line "+SEEK ".toList then
    .ok (command_seek env g self line)
  else if g_str_has_prefix line "+NETCLOCK ".toList then
    .ok (command_netclock env g self line)
  else if g_str_has_prefix line "+BASETIME ".toList then
    .ok (command_basetime g self line)
  else if g_str_has_prefix line "+STAT".toList then
    command_stat env g self
  else if ! g_str_has_prefix line "+".toList && ! g_str_has_prefix line "-".toList then
    .ok ⟨true, g, (gst_launch_remote_set_pipeline env self (some line)).1,
         (gst_launch_remote_set_pipeline env self (some line)).2⟩
  else .ok ⟨false, g, self, []⟩

/-- Lines 638-658 of `read_line_cb`: the acknowledgement is written; when that write
fails the connection is released (`handle_eof`), otherwise the next line is awaited. -/
def acknowledge (env : Engine) (d : Dispatch) : Outcome :=
  let outline := if d.ok then "OK\n".toList else "NOK\n".toList
  if env.g_output_stream_write_all outline then
    ⟨d.globals, d.self, d.effects ++ [.write outline, .read_line_async]⟩
  else
    ⟨d.globals, handle_eof d.self, d.effects ++ [.write outline]⟩

/-- The function `read_line_cb`.  `line` is what `g_data_input_stream_read_line_finish`
returned: `none` at end of stream or on a read error. -/
def read_line_cb (env : Engine) (g : Globals) (self : GstLaunchRemote)
    (line : Option (List Char)) : Except Fault Outcome :=
  match line with
  | none => .ok ⟨g, handle_eof self, []⟩
  | some l =>
    match read_line_cb_dispatch env g self l with
    | .error e => .error e
    | .ok d => .ok (acknowledge env d)

/-- The function `eos_cb`: the reaction to end-of-stream tears the pipeline down. -/
def eos_cb (env : Engine) (self : GstLaunchRemote) : GstLaunchRemote × List Effect :=
  ({ self with target_state := .NULL, pipeline := none, video_sink := none },
    (gst_element_set_state env self.pipeline .NULL).2)

/-! ## Connections, the window handle, engine events and the timer -/

/-- The function `incoming_cb`: `connection` is the new connection, `distream` and
`ostream` the stream objects the library returns for it.  The first component is the
function's return value: FALSE when a connection is already stored. -/
def incoming_cb (self : GstLaunchRemote) (connection distream ostream : Nat) :
    Bool × GstLaunchRemote × List Effect :=
  match self.connection with
  | some _ => (false, self, [])
  | none =>
    (true, { self with connection := some connection, distream := some distream,
                       ostream := some ostream }, [.read_line_async])

/-- The function `check_initialization_complete`. -/
def check_initialization_complete (self : GstLaunchRemote) : GstLaunchRemote × List Effect :=
  if !self.initialized && self.window_handle != 0 && self.main_loop.isSome then
    ({ self with initialized := true },
      if self.app_context.initialized then [.initialized] else [])
  else (self, [])

/-- The function `gst_launch_remote_set_window_handle`; the null handle is 0. -/
def gst_launch_remote_set_window_handle (env : Engine) (self : GstLaunchRemote)
    (handle : Nat) : GstLaunchRemote × List Effect :=
  if self.window_handle ≠ 0 ∧ self.window_handle = handle then
    (self, match self.video_sink with
      | some v => [.overlay_expose v]
      | none => [])
  else
    let self1 := if self.window_handle ≠ 0 then { self with initialized := false } else self
    let self2 := { self1 with window_handle := handle }
    let torn : GstLaunchRemote × List Effect :=
      if self2.window_handle = 0 then
        match self2.video_sink with
        | some v =>
          ({ self2 with pipeline := none, video_sink := none },
            [.overlay_set_window_handle v 0] ++ (gst_element_set_state env self2.pipeline .NULL).2)
        | none => (self2, [])
      else (self2, [])
    ((check_initialization_complete torn.1).1, torn.2 ++ (check_initialization_complete torn.1).2)

/-- The function `error_cb`; `src` is the name of the element the message comes from
and `message` the text of the error. -/
def error_cb (env : Engine) (self : GstLaunchRemote) (src message : List Char) :
    GstLaunchRemote × List Effect :=
  ({ self with target_state := .NULL, pipeline := none, video_sink := none },
    set_message self ("Error received from element ".toList ++ src ++ ": ".toList ++ message)
      ++ (gst_element_set_state env self.pipeline .NULL).2)

/-- printf `%d`. -/
def fmt_d (n : Int) : List Char :=
  if n < 0 then '-' :: fmt_u (-n).toNat else fmt_u n.toNat

/-- The function `buffering_cb`; `percent` is what `gst_message_parse_buffering` reads
from the message. -/
def buffering_cb (env : Engine) (self : GstLaunchRemote) (percent : Int) :
    GstLaunchRemote × List Effect :=
  if self.is_live then (self, [])
  else if percent < 100 ∧ self.target_state.toNat ≥ GstState.PAUSED.toNat then
    (self, (gst_element_set_state env self.pipeline .PAUSED).2
      ++ set_message self ("Buffering ".toList ++ fmt_d percent ++ "%".toList))
  else if self.target_state.toNat ≥ GstState.PLAYING.toNat then
    (self, (gst_element_set_state env self.pipeline .PLAYING).2)
  else if self.target_state.toNat ≥ GstState.PAUSED.toNat then
    (self, set_message self "Buffering complete".toList)
  else (self, [])

/-- The function `clock_lost_cb`. -/
def clock_lost_cb (env : Engine) (self : GstLaunchRemote) : GstLaunchRemote × List Effect :=
  if self.target_state.toNat ≥ GstState.PLAYING.toNat then
    (self, (gst_element_set_state env self.pipeline .PAUSED).2
      ++ (gst_element_set_state env self.pipeline .PLAYING).2)
  else (self, [])

/-- The function `sync_message_cb`: `prepare_window` tells whether the message is the
overlay's prepare-window-handle message, `element` is its source and `has_pad` whether
the element has a pad named `sink` or `video_sink`. -/
def sync_message_cb (self : GstLaunchRemote) (prepare_window : Bool) (element : Nat)
    (has_pad : Bool) : GstLaunchRemote × List Effect :=
  if prepare_window then
    ({ self with video_sink := some element },
      (if has_pad then [.connect_notify_caps element] else [])
        ++ [.overlay_set_window_handle element self.window_handle])
  else (self, [])

/-- The function `update_position_cb`.  The first component is the return value (TRUE
keeps the timer).  A failed query leaves -1 (`GST_CLOCK_TIME_NONE`) in its `gint64`;
the quotients are converted to the `gint` parameters of the callback. -/
def update_position_cb (env : Engine) (self : GstLaunchRemote) :
    Bool × GstLaunchRemote × List Effect :=
  if !self.app_context.set_current_position then (true, self, [])
  else
    let answers : Int × Int :=
      match self.pipeline with
      | some p =>
        (max ((env.gst_element_query_position p).getD (-1)) 0,
         max ((env.gst_element_query_duration p).getD (-1)) 0)
      | none => (0, 0)
    (true, self, [.set_current_position (to_gint (Int.tdiv answers.1 (GST_MSECOND : Int)))
      (to_gint (Int.tdiv answers.2 (GST_MSECOND : Int)))])

/-- The loop of `send_debug` with the result of every `g_socket_send_message` made
explicit (`sent` tells whether a send succeeds): the result is dropped and the loop
goes on.  Each datagram handed over is listed with that result. -/
def send_debug_loop (sent : Datagram → Bool) (data : List Char) :
    List DebugSocket → List (Datagram × Bool)
  | [] => []
  | s :: l =>
    match s.address with
    | none => send_debug_loop sent data l
    | some a => (⟨s.socket, a, data⟩, sent ⟨s.socket, a, data⟩) :: send_debug_loop sent data l

/-- The operations on a session: the calls of its API, the callbacks of the
connection, the reactions to the engine's bus messages and the timer.  The reactions
that only call application callbacks (`state_changed_cb`, `notify_caps_cb`) are left
out. -/
inductive SessionOp
  | set_window_handle (handle : Nat)
  | play
  | pause
  | seek (position_ms : Int)
  | line (line : Option (List Char))
  | incoming (connection distream ostream : Nat)
  | error (src message : List Char)
  | eos
  | buffering (percent : Int)
  | clock_lost
  | sync_message (prepare_window : Bool) (element : Nat) (has_pad : Bool)
  | position_tick

/-- One operation on a session, with the engine's answers at that moment. -/
def session_step (env : Engine) (g : Globals) (self : GstLaunchRemote) :
    SessionOp → Except Fault Outcome
  | .set_window_handle h =>
    .ok ⟨g, (gst_launch_remote_set_window_handle env self h).1,
      (gst_launch_remote_set_window_handle env self h).2⟩
  | .play => .ok ⟨g, (gst_launch_remote_play env self).1, (gst_launch_remote_play env self).2⟩
  | .pause => .ok ⟨g, (gst_launch_remote_pause env self).1, (gst_launch_remote_pause env self).2⟩
  | .seek ms =>
    .ok ⟨g, (gst_launch_remote_seek env self ms).1, (gst_launch_remote_seek env self ms).2⟩
  | .line l => read_line_cb env g self l
  | .incoming c d o => .ok ⟨g, (incoming_cb self c d o).2.1, (incoming_cb self c d o).2.2⟩
  | .error src m => .ok ⟨g, (error_cb env self src m).1, (error_cb env self src m).2⟩
  | .eos => .ok ⟨g, (eos_cb env self).1, (eos_cb env self).2⟩
  | .buffering p => .ok ⟨g, (buffering_cb env self p).1, (buffering_cb env self p).2⟩
  | .clock_lost => .ok ⟨g, (clock_lost_cb env self).1, (clock_lost_cb env self).2⟩
  | .sync_message w e p => .ok ⟨g, (sync_message_cb self w e p).1, (sync_message_cb self w e p).2⟩
  | .position_tick =>
    .ok ⟨g, (update_position_cb env self).2.1, (update_position_cb env self).2.2⟩

/-- A sequence of operations, each with the engine's answers at its moment; the effects
are collected in order.  A fault ends the run. -/
def session_run (g : Globals) (self : GstLaunchRemote) :
    List (Engine × SessionOp) → Except Fault Outcome
  | [] => .ok ⟨g, self, []⟩
  | (env, op) :: ops =>
    match session_step env g self op with
    | .error e => .error e
    | .ok o1 =>
      match session_run o1.globals o1.self ops with
      | .error e => .error e
      | .ok o2 => .ok ⟨o2.globals, o2.self, o1.effects ++ o2.effects⟩

/-! ## Escaping of log messages

Here a string is a list of bytes (numbers below 256); reading at or past its end reads
the NUL terminator.  The masks and shifts of the C code are written arithmetically:
`x & 0x1f` is `x % 32`, `(x & 0xc0) != 0x80` is `x / 64 ≠ 2`, `(wc << 6) | (x & 0x3f)` is
`wc * 64 + x % 64`, and `(c & 0xFFFFF800) != 0xD800` is `c / 0x800 ≠ 0x1b`. -/

/-- The value `(gunichar) -1` of GLib's decoder: a malformed sequence. -/
def malformed_sequence : Nat := 2 ^ 32 - 1

/-- The value `(gunichar) -2` of GLib's decoder: a sequence cut off by the end of the
string. -/
def partial_sequence : Nat := 2 ^ 32 - 2

/-- GLib `UNICODE_VALID`: below 0x110000 and no surrogate. -/
def UNICODE_VALID (c : Nat) : Bool :=
  decide (c < 0x110000) && decide (c / 0x800 ≠ 0x1b)

/-- The loop over the continuation bytes in GLib `g_utf8_get_char_extended`: `n` bytes
are still to be read, the next one at index `i`; a byte that is no continuation byte
ends the function with `malformed_sequence`, or with `partial_sequence` when it is the
terminator. -/
def continuation_loop (p : List Nat) : Nat → Nat → Nat → Nat
  | 0, _, wc => wc
  | n + 1, i, wc =>
    if p.getD i 0 / 64 ≠ 2 then
      if p.getD i 0 ≠ 0 then malformed_sequence else partial_sequence
    else continuation_loop p n (i + 1) (wc * 64 + p.getD i 0 % 64)

/-- The end of GLib `g_utf8_get_char_extended`: a value returned from inside the loop
is passed on, a value below `min_code` (an overlong form) is malformed. -/
def check_min_code (wc min_code : Nat) : Nat :=
  if wc = malformed_sequence ∨ wc = partial_sequence then wc
  else if wc < min_code then malformed_sequence
  else wc

/-- GLib `g_utf8_get_char_extended (p, -1)`; `p` holds the bytes from the pointer on. -/
def g_utf8_get_char_extended (p : List Nat) : Nat :=
  let wc := p.getD 0 0
  if wc < 0x80 then wc
  else if wc < 0xc0 then malformed_sequence
  else if wc < 0xe0 then check_min_code (continuation_loop p 1 1 (wc % 32)) 0x80
  else if wc < 0xf0 then check_min_code (continuation_loop p 2 1 (wc % 16)) 0x800
  else if wc < 0xf8 then check_min_code (continuation_loop p 3 1 (wc % 8)) 0x10000
  else if wc < 0xfc then check_min_code (continuation_loop p 4 1 (wc % 4)) 0x200000
  else if wc < 0xfe then check_min_code (continuation_loop p 5 1 (wc % 2)) 0x4000000
  else malformed_sequence

/-- GLib `g_utf8_get_char_validated (p, -1)`: the code point at `p`, or
`malformed_sequence`, or `partial_sequence`. -/
def g_utf8_get_char_validated (p : List Nat) : Nat :=
  let result := g_utf8_get_char_extended p
  if result ≥ 2 ^ 31 then result
  else if !UNICODE_VALID result then malformed_sequence
  else result

/-- GLib's table `g_utf8_skip`, which `g_utf8_next_char` adds to the pointer: the length
the first byte announces. -/
def g_utf8_skip (b : Nat) : Nat :=
  if b < 0xc0 then 1
  else if b < 0xe0 then 2
  else if b < 0xf0 then 3
  else if b < 0xf8 then 4
  else if b < 0xfc then 5
  else if b < 0xfe then 6
  else 1

/-- The macro `CHAR_IS_SAFE`. -/
def CHAR_IS_SAFE (wc : Nat) : Bool :=
  !((decide (wc < 0x20) && wc != 9 && wc != 10 && wc != 13) || wc == 0x7f ||
    (decide (wc ≥ 0x80) && decide (wc < 0xa0)))

/-- printf `%x`: lowercase hexadecimal. -/
def fmt_x (n : Nat) : List Char :=
  Nat.toDigits 16 n

/-- printf `%0<w>x`: lowercase hexadecimal, zero padded to width `w`. -/
def fmt_0x (w n : Nat) : List Char :=
  List.replicate (w - (fmt_x n).length) '0' ++ fmt_x n

/-- The bytes of an ASCII text. -/
def ascii_bytes (text : List Char) : List Nat :=
  text.map Char.toNat

/-- GLib `g_string_erase (string, pos, len)` for `len >= 0`: the precondition checks
leave the string as it is. -/
def g_string_erase (string : List Nat) (pos len : Nat) : List Nat :=
  if pos + len ≤ string.length then string.take pos ++ string.drop (pos + len) else string

/-- GLib `g_string_insert (string, pos, val)`. -/
def g_string_insert (string : List Nat) (pos : Nat) (val : List Nat) : List Nat :=
  if pos ≤ string.length then string.take pos ++ val ++ string.drop pos else string

/-- The `while` loop of `escape_string`: `string` is the content of the `GString`, `p`
the offset of the pointer `p` in it, the first argument bounds the number of
iterations (`none` when it is used up). -/
def escape_string_loop : Nat → List Nat → Nat → Option (List Nat)
  | 0, _, _ => none
  | fuel + 1, string, p =>
    if p < string.length then
      let wc := g_utf8_get_char_validated (string.drop p)
      if wc = malformed_sequence ∨ wc = partial_sequence then
        let tmp := ascii_bytes ("\\x".toList ++ fmt_0x 2 (string.getD p 0))
        escape_string_loop fuel (g_string_insert (g_string_erase string p 1) p tmp) (p + 4)
      else
        let safe : Bool :=
          if wc = 13 then decide (string.getD (p + 1) 0 = 10) else CHAR_IS_SAFE wc
        if !safe then
          let tmp := ascii_bytes ("\\u".toList ++ fmt_0x 4 wc)
          escape_string_loop fuel
            (g_string_insert (g_string_erase string p (g_utf8_skip (string.getD p 0))) p tmp)
            (p + 6)
        else escape_string_loop fuel string (p + g_utf8_skip (string.getD p 0))
    else some string

/-- The function `escape_string`, with one iteration more than the string has bytes. -/
def escape_string (string : List Nat) : Option (List Nat) :=
  escape_string_loop (string.length + 1) string 0

/-! ## Reference notions the statements use -/

/-- The prefixes the dispatch of `read_line_cb` tests for, in source order. -/
def recognised_prefixes : List (List Char) :=
  ["+DEBUG ".toList, "-DEBUG".toList, "+PLAY".toList, "+PAUSE".toList, "+SEEK ".toList,
   "+NETCLOCK ".toList, "+BASETIME ".toList, "+STAT".toList]

/-- The number a string of decimal digits denotes. -/
def digits_value (ds : List Char) : Nat :=
  ds.foldl (fun acc c => acc * 10 + (c.toNat - '0'.toNat)) 0

/-- A well-formed unsigned decimal integer: a non-empty string of decimal digits. -/
def well_formed_unsigned (arg : List Char) : Prop :=
  arg ≠ [] ∧ ∀ c ∈ arg, c.isDigit = true

/-- The arguments `g_ascii_strtoull` reads to their end: the empty string, and optional
white space, then an optional sign, then at least one decimal digit. -/
def read_to_end (arg : List Char) : Prop :=
  arg = [] ∨ ∃ ws sign ds, arg = ws ++ sign ++ ds ∧ (∀ c ∈ ws, ISSPACE c = true) ∧
    (sign = [] ∨ sign = ['+'] ∨ sign = ['-']) ∧ well_formed_unsigned ds

/-- A sink of the list is armed. -/
def some_armed (l : List DebugSocket) : Prop :=
  ∃ s ∈ l, s.address ≠ none

/-- The invariant of the registry: debugging is switched on exactly when a sink is
armed. -/
def registry_invariant (g : Globals) : Prop :=
  g.debug_active = true ↔ some_armed g.debug_sockets

/-- The ready flag is set only while a window handle is stored. -/
def ready_invariant (self : GstLaunchRemote) : Prop :=
  self.initialized = true → self.window_handle ≠ 0

/-- A session without a pipeline handle has no video sink either. -/
def surface_invariant (self : GstLaunchRemote) : Prop :=
  self.pipeline = none → self.video_sink = none

/-- The number of invocations of the `initialized` callback among some effects. -/
def ready_calls : List Effect → Nat
  | [] => 0
  | .initialized :: es => ready_calls es + 1
  | _ :: es => ready_calls es

/-- A step leaves the ready flag and the stored window handle as they were and does
not invoke the `initialized` callback. -/
def ready_untouched (before after : GstLaunchRemote) (effects : List Effect) : Prop :=
  after.initialized = before.initialized ∧ after.window_handle = before.window_handle ∧
    ready_calls effects = 0

/-- The number of `set_window_handle` operations in a sequence. -/
def window_changes : List (Engine × SessionOp) → Nat
  | [] => 0
  | (_, .set_window_handle _) :: ops => window_changes ops + 1
  | _ :: ops => window_changes ops

/-- The number of announcing operations in a sequence: the `set_window_handle`
operations whose handle is non-null and differs from the handle stored before them;
`stored` is the handle stored at the start. -/
def announcements (stored : Nat) : List (Engine × SessionOp) → Nat
  | [] => 0
  | (_, .set_window_handle h) :: ops =>
    (if h ≠ 0 ∧ h ≠ stored then 1 else 0) + announcements h ops
  | _ :: ops => announcements stored ops

/-- The reaction to a buffering event in the words of the specification, as the state
to request from the engine and the text to report: nothing for a live source;
otherwise below 100% with a target of at least Paused, Paused and the progress; at
100% with a target of at least Playing, Playing and no text; at 100% with the target
exactly Paused, no request and the completion text; nothing in every other case. -/
def buffering_reaction (live : Bool) (percent : Int) (target : GstState) :
    Option GstState × Option (List Char) :=
  if live then (none, none)
  else if percent < 100 ∧ target.toNat ≥ GstState.PAUSED.toNat then
    (some .PAUSED, some ("Buffering ".toList ++ fmt_d percent ++ "%".toList))
  else if percent ≥ 100 ∧ target.toNat ≥ GstState.PLAYING.toNat then
    (some .PLAYING, none)
  else if percent ≥ 100 ∧ target = .PAUSED then
    (none, some "Buffering complete".toList)
  else (none, none)

/-- The sinks of a registry that are armed, in registry order. -/
def armed_sinks (l : List DebugSocket) : List DebugSocket :=
  l.filter fun s => s.address.isSome

/-- A byte string: every element is below 256. -/
def is_bytes (s : List Nat) : Prop :=
  ∀ b ∈ s, b < 256

/-- A Unicode scalar value: below 0x110000 and no surrogate. -/
def unicode_scalar (c : Nat) : Prop :=
  c < 0x110000 ∧ ¬ (0xD800 ≤ c ∧ c ≤ 0xDFFF)

/-- The UTF-8 encoding of a code point, as the Unicode standard defines it. -/
def utf8_encode (c : Nat) : List Nat :=
  if c < 0x80 then [c]
  else if c < 0x800 then [0xC0 + c / 64, 0x80 + c % 64]
  else if c < 0x10000 then [0xE0 + c / 4096, 0x80 + c / 64 % 64, 0x80 + c % 64]
  else [0xF0 + c / 262144, 0x80 + c / 4096 % 64, 0x80 + c / 64 % 64, 0x80 + c % 64]

/-- The UTF-8 encoding of a sequence of code points. -/
def utf8_string : List Nat → List Nat
  | [] => []
  | c :: cs => utf8_encode c ++ utf8_string cs

/-- An unsafe code point: a C0 control other than tab, newline and carriage return, DEL,
or a C1 control. -/
def unsafe_code_point (c : Nat) : Prop :=
  (c < 0x20 ∧ c ≠ 9 ∧ c ≠ 10 ∧ c ≠ 13) ∨ c = 0x7f ∨ (0x80 ≤ c ∧ c ≤ 0x9f)

/-- The ASCII code of the lowercase hexadecimal digit `d`. -/
def hex_digit (d : Nat) : Nat :=
  if d < 10 then 48 + d else 87 + d

/-- The four characters backslash, `x` and the two lowercase hexadecimal digits of the
byte `b`. -/
def x_escape (b : Nat) : List Nat :=
  [92, 120, hex_digit (b / 16), hex_digit (b % 16)]

/-- The six characters backslash, `u` and the four lowercase hexadecimal digits of the
code point `c`. -/
def u_escape (c : Nat) : List Nat :=
  [92, 117, hex_digit (c / 4096), hex_digit (c / 256 % 16), hex_digit (c / 16 % 16),
    hex_digit (c % 16)]

/-- The byte string begins with the encoding of a Unicode scalar value. -/
def starts_with_character (s : List Nat) : Prop :=
  ∃ c r, unicode_scalar c ∧ s = utf8_encode c ++ r

/-- The escaping a description prescribes, read from left to right; `replaced c rest`
says whether the code point `c`, followed by the bytes `rest`, is to be replaced.  A
byte that begins no encoding of a scalar value becomes its `x_escape`, a replaced code
point its `u_escape`, and every other code point stays. -/
inductive EscapeOf (replaced : Nat → List Nat → Prop) : List Nat → List Nat → Prop
  | nil : EscapeOf replaced [] []
  | keep (c : Nat) (rest out : List Nat) : unicode_scalar c → ¬ replaced c rest →
      EscapeOf replaced rest out → EscapeOf replaced (utf8_encode c ++ rest) (utf8_encode c ++ out)
  | code_point (c : Nat) (rest out : List Nat) : unicode_scalar c → replaced c rest →
      EscapeOf replaced rest out → EscapeOf replaced (utf8_encode c ++ rest) (u_escape c ++ out)
  | byte (b : Nat) (rest out : List Nat) : ¬ starts_with_character (b :: rest) →
      EscapeOf replaced rest out → EscapeOf replaced (b :: rest) (x_escape b ++ out)

/-- The code points a description replaces that names the unsafe ones only. -/
def replaced_as_stated (c : Nat) (_rest : List Nat) : Prop :=
  unsafe_code_point c

/-- The code points the code replaces: the unsafe ones, and a carriage return that no
newline follows. -/
def replaced_by_code (c : Nat) (rest : List Nat) : Prop :=
  unsafe_code_point c ∨ (c = 13 ∧ rest.head? ≠ some 10)

/-- Every carriage return of the code point sequence is followed by a newline. -/
def cr_before_lf : List Nat → Prop
  | [] => True
  | c :: cs => (c = 13 → cs.head? = some 10) ∧ cr_before_lf cs

/-- Scalar values only, none of them unsafe. -/
def safe_code_points (cs : List Nat) : Prop :=
  ∀ c ∈ cs, unicode_scalar c ∧ ¬ unsafe_code_point c

/-- Valid UTF-8 with safe code points only. -/
def safe_text (s : List Nat) : Prop :=
  ∃ cs, safe_code_points cs ∧ s = utf8_string cs

/-- Valid UTF-8 with safe code points only, in which a newline follows every carriage
return. -/
def clean_text (s : List Nat) : Prop :=
  ∃ cs, safe_code_points cs ∧ cr_before_lf cs ∧ s = utf8_string cs

/-! ## A sample environment -/

/-- An engine that builds every description but `bad`, and parses the host `127.0.0.1`
and the host `::1`. -/
def sample_engine : Engine where
  gst_parse_launch := fun s =>
    if s = "bad".toList then (none, some "no element".toList) else (some 7, none)
  gst_element_set_state := fun _ _ => .SUCCESS
  gst_element_seek_simple := fun _ _ => true
  gst_element_query_duration := fun _ => some 5000000000
  gst_element_query_position := fun _ => none
  GST_STATE := fun _ => .PLAYING
  g_inet_socket_address_new_from_string := fun h p =>
    if h = "127.0.0.1".toList ∨ h = "::1".toList then some ⟨h, p % 65536⟩ else none
  gst_net_client_clock_new := fun _ _ => some 3
  g_output_stream_write_all := fun _ => true

/-- A session with an open connection, a registered sink (socket 10), a pipeline
description and no pipeline handle. -/
def sample_session : GstLaunchRemote :=
  { main_loop := some 1, window_handle := 0, initialized := false,
    pipeline_string := some "fakesrc ! fakesink".toList, pipeline := none, video_sink := none,
    target_state := .NULL, is_live := false, net_clock := some 9, base_time := 5,
    service := some 1, connection := some 1, distream := some 1, ostream := some 1,
    debug_socket := some 10, app_context := ⟨true, true, true, true⟩ }

/-- A registry with the sinks of two sessions, none armed. -/
def sample_globals : Globals :=
  { debug_sockets := [⟨10, none⟩, ⟨11, none⟩], debug_active := false, default_threshold := 0 }

/-- The sample engine, but every state change fails. -/
def failing_engine : Engine :=
  { sample_engine with gst_element_set_state := fun _ _ => .FAILURE }

/-- The sample engine, but the position it answers is 2^31 milliseconds. -/
def late_engine : Engine :=
  { sample_engine with gst_element_query_position := fun _ => some 2147483648000000 }

/-- A session with a running loop, no window handle yet, and a pipeline that has not
announced a video sink. -/
def fresh_session : GstLaunchRemote :=
  { sample_session with pipeline := some 4, connection := none }

/-! ## General facts -/

theorem writes_append (a b : List Effect) : writes (a ++ b) = writes a ++ writes b := by
  induction a with
  | nil => rfl
  | cons e es ih => cases e <;> simp [writes, ih]

theorem writes_set_message (self : GstLaunchRemote) (m : List Char) :
    writes (set_message self m) = [] := by
  unfold set_message
  split <;> rfl

theorem writes_element_set_state (env : Engine) (p : Option Nat) (s : GstState) :
    writes (gst_element_set_state env p s).2 = [] := by
  cases p <;> rfl

theorem writes_set_pipeline (env : Engine) (self : GstLaunchRemote)
    (ps : Option (List Char)) :
    writes (gst_launch_remote_set_pipeline env self ps).2 = [] := by
  unfold gst_launch_remote_set_pipeline
  cases self.pipeline <;> cases ps <;> simp only [] <;> try rfl
  all_goals
    split
    · simp [writes_append, writes_set_message, writes]
    · split
      · simp [writes_append, writes]
      · split <;> split <;> simp [writes_append, writes]

theorem writes_set_target_state (env : Engine) (self : GstLaunchRemote) (t : GstState)
    (name : List Char) : writes (set_target_state env self t name).2 = [] := by
  unfold set_target_state
  cases self.pipeline_string with
  | none => rfl
  | some str =>
    cases self.pipeline <;>
      simp only [writes_append, writes_set_pipeline, writes_element_set_state] <;>
      split <;> simp [writes_set_message, writes]

theorem writes_seek (env : Engine) (self : GstLaunchRemote) (ms : Int) :
    writes (gst_launch_remote_seek env self ms).2 = [] := by
  unfold gst_launch_remote_seek
  cases self.pipeline with
  | none => rfl
  | some p => simp only [writes_append]; split <;> simp [writes_set_message, writes]

theorem writes_acknowledge (env : Engine) (d : Dispatch) :
    writes (acknowledge env d).effects
      = writes d.effects ++ [if d.ok then "OK\n".toList else "NOK\n".toList] := by
  unfold acknowledge
  dsimp only
  split <;> split <;> simp [writes_append, writes]

theorem acknowledge_globals (env : Engine) (d : Dispatch) :
    (acknowledge env d).globals = d.globals := by
  unfold acknowledge
  dsimp only
  split <;> split <;> simp_all

theorem acknowledge_self (env : Engine) (d : Dispatch) :
    (acknowledge env d).self
      = if env.g_output_stream_write_all (if d.ok then "OK\n".toList else "NOK\n".toList)
        then d.self else handle_eof d.self := by
  unfold acknowledge
  dsimp only
  split <;> split <;> simp_all

theorem writes_command_debug_on (env : Engine) (g : Globals) (self : GstLaunchRemote)
    (line : List Char) : writes (command_debug_on env g self line).effects = [] := by
  unfold command_debug_on
  dsimp only
  split
  · rfl
  · split
    · split
      · rfl
      · split <;> rfl
    · rfl

theorem writes_command_seek (env : Engine) (g : Globals) (self : GstLaunchRemote)
    (line : List Char) : writes (command_seek env g self line).effects = [] := by
  unfold command_seek
  dsimp only
  split
  · exact writes_seek env self _
  · rfl

theorem writes_command_netclock (env : Engine) (g : Globals) (self : GstLaunchRemote)
    (line : List Char) : writes (command_netclock env g self line).effects = [] := by
  unfold command_netclock
  dsimp only
  split <;> rfl

theorem writes_command_basetime (g : Globals) (self : GstLaunchRemote)
    (line : List Char) : writes (command_basetime g self line).effects = [] := by
  unfold command_basetime
  dsimp only
  split
  · rfl
  · cases self.pipeline <;> rfl

/-- What the dispatch writes itself: nothing, or the status line of a `+STAT` line. -/
theorem writes_dispatch (env : Engine) (g : Globals) (self : GstLaunchRemote)
    (line : List Char) (d : Dispatch) (h : read_line_cb_dispatch env g self line = .ok d) :
    writes d.effects = [] ∨
      ( g_str_has_prefix line "+STAT".toList = true ∧ ∃ st, writes d.effects = [st]) := by
  unfold read_line_cb_dispatch at h
  split at h
  · injection h with h; subst h; exact Or.inl (writes_command_debug_on env g self line)
  split at h
  · injection h with h; subst h; exact Or.inl rfl
  split at h
  · injection h with h; subst h; exact Or.inl (writes_set_target_state env self _ _)
  split at h
  · injection h with h; subst h; exact Or.inl (writes_set_target_state env self _ _)
  split at h
  · injection h with h; subst h; exact Or.inl (writes_command_seek env g self line)
  split at h
  · injection h with h; subst h; exact Or.inl (writes_command_netclock env g self line)
  split at h
  · injection h with h; subst h; exact Or.inl (writes_command_basetime g self line)
  split at h
  · rename_i hstat
    unfold command_stat at h
    split at h
    · cases h
    · injection h with h; subst h; exact Or.inr ⟨hstat, _, rfl⟩
  split at h
  · injection h with h; subst h; exact Or.inl (writes_set_pipeline env self _)
  · injection h with h; subst h; exact Or.inl rfl

/-! ## The acknowledgement (C1) and `+STAT` without a pipeline (C7) -/

/-- Wherever `read_line_cb` returns for a received line, it has written exactly one
acknowledgement, `OK\n` or `NOK\n`, as the last thing written, preceded at most by the
one status line of a `+STAT` line. -/
theorem read_line_cb_writes (env : Engine) (g : Globals) (self : GstLaunchRemote)
    (line : List Char) (out : Outcome) (h : read_line_cb env g self (some line) = .ok out) :
    ∃ ack, (ack = "OK\n".toList ∨ ack = "NOK\n".toList) ∧
      (writes out.effects = [ack] ∨
        ( g_str_has_prefix line "+STAT".toList = true ∧ ∃ st, writes out.effects = [st, ack])) := by
  unfold read_line_cb at h
  dsimp only at h
  split at h
  · cases h
  · rename_i d hd
    injection h with h
    subst h
    refine ⟨if d.ok then "OK\n".toList else "NOK\n".toList, ?_, ?_⟩
    · cases d.ok <;> simp
    · rw [writes_acknowledge]
      rcases writes_dispatch env g self line d hd with h0 | ⟨hs, st, h1⟩
      · left; rw [h0]; rfl
      · right; exact ⟨hs, st, by rw [h1]; rfl⟩

/-- The dispatch returns for every line but a `+STAT` line received without a pipeline. -/
theorem dispatch_returns (env : Engine) (g : Globals) (self : GstLaunchRemote)
    (line : List Char)
    (h : self.pipeline ≠ none ∨ g_str_has_prefix line "+STAT".toList = false) :
    ∃ d, read_line_cb_dispatch env g self line = .ok d := by
  unfold read_line_cb_dispatch
  split
  · exact ⟨_, rfl⟩
  split
  · exact ⟨_, rfl⟩
  split
  · exact ⟨_, rfl⟩
  split
  · exact ⟨_, rfl⟩
  split
  · exact ⟨_, rfl⟩
  split
  · exact ⟨_, rfl⟩
  split
  · exact ⟨_, rfl⟩
  split
  · rename_i hstat
    rcases h with h | h
    · unfold command_stat
      cases hp : self.pipeline with
      | none => exact absurd hp h
      | some p => exact ⟨_, rfl⟩
    · rw [h] at hstat
      cases hstat
  split
  · exact ⟨_, rfl⟩
  · exact ⟨_, rfl⟩

/-- The handler returns for every line but a `+STAT` line received without a pipeline. -/
theorem read_line_cb_returns (env : Engine) (g : Globals) (self : GstLaunchRemote)
    (line : List Char)
    (h : self.pipeline ≠ none ∨ g_str_has_prefix line "+STAT".toList = false) :
    ∃ out, read_line_cb env g self (some line) = .ok out := by
  obtain ⟨d, hd⟩ := dispatch_returns env g self line h
  exact ⟨acknowledge env d, by simp only [read_line_cb, hd]⟩

/-- C1 (code defect): a `+STAT` line (any line with that prefix) received in a session
without a pipeline handle makes `read_line_cb` dereference the null pipeline
(`GST_STATE (self->pipeline)`, line 627) before anything is written: the handler
faults and writes neither a status line nor an acknowledgement. -/
theorem stat_without_pipeline_writes_nothing (env : Engine) (g : Globals)
    (self : GstLaunchRemote) (rest : List Char) :
    read_line_cb env g { self with pipeline := none } (some ("+STAT".toList ++ rest))
      = .error .null_dereference := by
  simp [read_line_cb, read_line_cb_dispatch, g_str_has_prefix, List.isPrefixOf, command_stat]

/-- C7 (code defect): after the end-of-stream teardown (`eos_cb`) of any session, a
`+STAT` command does not complete: `read_line_cb` dereferences the null pipeline and
writes no status line and no `OK`. -/
theorem stat_after_eos_faults (env1 env2 : Engine) (g : Globals) (self : GstLaunchRemote) :
    (eos_cb env1 self).1.pipeline = none ∧
    read_line_cb env2 g (eos_cb env1 self).1 (some "+STAT".toList)
      = .error .null_dereference := by
  simp [read_line_cb, read_line_cb_dispatch, g_str_has_prefix, List.isPrefixOf, command_stat,
    eos_cb]

/-! ## Pipeline descriptions (C2) and unrecognised commands (C3) -/

theorem has_prefix_head (line p : List Char) (c : Char)
    (h : g_str_has_prefix line (c :: p) = true) : line.head? = some c := by
  cases line with
  | nil => simp [ g_str_has_prefix] at h
  | cons x xs =>
    simp [ g_str_has_prefix, List.isPrefixOf] at h
    simp [h.1]

/-- A line that starts with neither `+` nor `-` reaches the `setPipeline` branch. -/
theorem dispatch_description (env : Engine) (g : Globals) (self : GstLaunchRemote)
    (line : List Char) (hplus : line.head? ≠ some '+') (hminus : line.head? ≠ some '-') :
    read_line_cb_dispatch env g self line
      = .ok ⟨true, g, (gst_launch_remote_set_pipeline env self (some line)).1,
          (gst_launch_remote_set_pipeline env self (some line)).2⟩ := by
  have np : ∀ p, g_str_has_prefix line ('+' :: p) = false := fun p => by
    cases hp : g_str_has_prefix line ('+' :: p) with
    | false => rfl
    | true => exact absurd (has_prefix_head line p '+' hp) hplus
  have nm : ∀ p, g_str_has_prefix line ('-' :: p) = false := fun p => by
    cases hp : g_str_has_prefix line ('-' :: p) with
    | false => rfl
    | true => exact absurd (has_prefix_head line p '-' hp) hminus
  unfold read_line_cb_dispatch
  simp [np, nm]

theorem acknowledge_effects (env : Engine) (d : Dispatch) :
    ∃ tail, (acknowledge env d).effects = d.effects ++ tail := by
  unfold acknowledge
  dsimp only
  split <;> split <;> exact ⟨_, rfl⟩

theorem acknowledge_self_cases (env : Engine) (d : Dispatch) :
    (acknowledge env d).self = d.self ∨ (acknowledge env d).self = handle_eof d.self := by
  unfold acknowledge
  dsimp only
  split <;> split <;> simp

theorem acknowledge_self_eof (env : Engine) (d : Dispatch) :
    handle_eof (acknowledge env d).self = handle_eof d.self := by
  rcases acknowledge_self_cases env d with h | h <;> (rw [h]; try rfl)

theorem acknowledge_self_written (env : Engine) (d : Dispatch)
    (hw : env.g_output_stream_write_all (if d.ok then "OK\n".toList else "NOK\n".toList) = true) :
    (acknowledge env d).self = d.self := by
  rw [acknowledge_self, if_pos hw]

theorem set_pipeline_some (env : Engine) (self : GstLaunchRemote) (line : List Char) :
    (gst_launch_remote_set_pipeline env self (some line)).1
      = { self with
          pipeline_string := some line
          pipeline := (env.gst_parse_launch line).1
          video_sink := if self.pipeline = none then self.video_sink else none
          target_state := .NULL } := by
  unfold gst_launch_remote_set_pipeline
  cases hp : self.pipeline <;> dsimp only <;> split <;> try split
  all_goals simp_all

theorem set_pipeline_reports_failure (env : Engine) (self : GstLaunchRemote)
    (line message : List Char) (hm : (env.gst_parse_launch line).2 = some message)
    (hcb : self.app_context.set_message = true) :
    Effect.set_message ("Unable to build pipeline '".toList ++ line ++ "': ".toList
      ++ message) ∈ (gst_launch_remote_set_pipeline env self (some line)).2 := by
  unfold gst_launch_remote_set_pipeline
  cases hp : self.pipeline <;> simp [hm, set_message, hcb]

/-- C2: for every line that starts with neither `+` nor `-` (the empty line included),
every engine and every session state, `read_line_cb` returns, its effects begin with
those of `gst_launch_remote_set_pipeline` called with exactly that line, the session
is the one `gst_launch_remote_set_pipeline` leaves (the description stored is the line,
the pipeline is what the engine built), the only thing written is the acknowledgement
`OK\n`, also when the engine fails to build the description, in which case the
failure goes to the message callback. -/
theorem description_line_sets_pipeline (env : Engine) (g : Globals) (self : GstLaunchRemote)
    (line : List Char) (hplus : line.head? ≠ some '+') (hminus : line.head? ≠ some '-') :
    ∃ out, read_line_cb env g self (some line) = .ok out ∧
      out.globals = g ∧
      writes out.effects = ["OK\n".toList] ∧
      (∃ tail, out.effects = (gst_launch_remote_set_pipeline env self (some line)).2 ++ tail) ∧
      handle_eof out.self = handle_eof (gst_launch_remote_set_pipeline env self (some line)).1 ∧
      (env.g_output_stream_write_all "OK\n".toList = true →
        out.self = (gst_launch_remote_set_pipeline env self (some line)).1) ∧
      out.self.pipeline_string = some line ∧
      out.self.pipeline = (env.gst_parse_launch line).1 ∧
      (∀ message, (env.gst_parse_launch line).2 = some message →
        self.app_context.set_message = true →
        Effect.set_message ("Unable to build pipeline '".toList ++ line ++ "': ".toList
          ++ message) ∈ out.effects) := by
  refine ⟨acknowledge env ⟨true, g, (gst_launch_remote_set_pipeline env self (some line)).1,
          (gst_launch_remote_set_pipeline env self (some line)).2⟩, ?_, ?_, ?_, ?_, ?_, ?_, ?_, ?_, ?_⟩
  · simp only [read_line_cb, dispatch_description env g self line hplus hminus]
  · rw [acknowledge_globals]
  · rw [writes_acknowledge, writes_set_pipeline]; rfl
  · exact acknowledge_effects env _
  · exact acknowledge_self_eof env _
  · intro hw
    exact acknowledge_self_written env _ hw
  · rcases acknowledge_self_cases env ⟨true, g,
      (gst_launch_remote_set_pipeline env self (some line)).1,
      (gst_launch_remote_set_pipeline env self (some line)).2⟩ with h | h <;>
      (rw [h]; dsimp only; rw [set_pipeline_some]; try rfl)
  · rcases acknowledge_self_cases env ⟨true, g,
      (gst_launch_remote_set_pipeline env self (some line)).1,
      (gst_launch_remote_set_pipeline env self (some line)).2⟩ with h | h <;>
      (rw [h]; dsimp only; rw [set_pipeline_some]; try rfl)
  · intro message hm hcb
    obtain ⟨tail, ht⟩ := acknowledge_effects env ⟨true, g,
      (gst_launch_remote_set_pipeline env self (some line)).1,
      (gst_launch_remote_set_pipeline env self (some line)).2⟩
    rw [ht]
    exact List.mem_append_left _ (set_pipeline_reports_failure env self line message hm hcb)

/-- C2 at a description the sample engine cannot build: the answer is still `OK\n`
and the failure goes to the message callback. -/
theorem description_line_sets_pipeline_witness :
    ("bad".toList.head? ≠ some '+' ∧ "bad".toList.head? ≠ some '-') ∧
    ∃ out, read_line_cb sample_engine sample_globals sample_session (some "bad".toList)
        = .ok out ∧
      writes out.effects = ["OK\n".toList] ∧
      out.self.pipeline_string = some "bad".toList ∧
      out.self.pipeline = none ∧
      Effect.set_message "Unable to build pipeline 'bad': no element".toList ∈ out.effects := by
  refine ⟨⟨by decide, by decide⟩, ?_⟩
  obtain ⟨out, h1, _, h3, _, _, _, h7, h8, h9⟩ :=
    description_line_sets_pipeline sample_engine sample_globals sample_session "bad".toList
      (by decide) (by decide)
  exact ⟨out, h1, h3, h7, h8, h9 "no element".toList rfl rfl⟩

/-- A line that starts with `+` or `-` and has none of the recognised prefixes reaches
the last `else` of the dispatch. -/
theorem dispatch_unrecognised (env : Engine) (g : Globals) (self : GstLaunchRemote)
    (line : List Char) (hsign : line.head? = some '+' ∨ line.head? = some '-')
    (hnot : ∀ p ∈ recognised_prefixes, g_str_has_prefix line p = false) :
    read_line_cb_dispatch env g self line = .ok ⟨false, g, self, []⟩ := by
  have h1 := hnot "+DEBUG ".toList (by simp [recognised_prefixes])
  have h2 := hnot "-DEBUG".toList (by simp [recognised_prefixes])
  have h3 := hnot "+PLAY".toList (by simp [recognised_prefixes])
  have h4 := hnot "+PAUSE".toList (by simp [recognised_prefixes])
  have h5 := hnot "+SEEK ".toList (by simp [recognised_prefixes])
  have h6 := hnot "+NETCLOCK ".toList (by simp [recognised_prefixes])
  have h7 := hnot "+BASETIME ".toList (by simp [recognised_prefixes])
  have h8 := hnot "+STAT".toList (by simp [recognised_prefixes])
  have h9 : (! g_str_has_prefix line "+".toList && ! g_str_has_prefix line "-".toList) = false := by
    cases line with
    | nil => simp at hsign
    | cons c cs =>
      simp at hsign
      rcases hsign with h | h <;> subst h <;> simp [ g_str_has_prefix, List.isPrefixOf]
  unfold read_line_cb_dispatch
  rw [h1, h2, h3, h4, h5, h6, h7, h8, h9]
  rfl

/-- C3: for every line that starts with `+` or `-` and matches none of the prefixes
the dispatch recognises (the match is case-sensitive), `read_line_cb` returns, writes
`NOK\n` and nothing else, asks nothing of the engine, and leaves the registry and the
whole session unchanged; the connection stays open unless the write of the answer
itself fails (the I/O error path, which releases it). -/
theorem unrecognised_command_nok (env : Engine) (g : Globals) (self : GstLaunchRemote)
    (line : List Char) (hsign : line.head? = some '+' ∨ line.head? = some '-')
    (hnot : ∀ p ∈ recognised_prefixes, g_str_has_prefix line p = false) :
    ∃ out, read_line_cb env g self (some line) = .ok out ∧
      writes out.effects = ["NOK\n".toList] ∧
      (∀ e ∈ out.effects, e = .write "NOK\n".toList ∨ e = .read_line_async) ∧
      out.globals = g ∧
      { out.self with connection := self.connection } = self ∧
      (env.g_output_stream_write_all "NOK\n".toList = true → out.self = self) := by
  refine ⟨acknowledge env ⟨false, g, self, []⟩, ?_, ?_, ?_, ?_, ?_, ?_⟩
  · simp only [read_line_cb, dispatch_unrecognised env g self line hsign hnot]
  · rw [writes_acknowledge]; rfl
  · simp only [acknowledge, Bool.false_eq_true, if_false]
    split <;> simp
  · rw [acknowledge_globals]
  · rcases acknowledge_self_cases env ⟨false, g, self, []⟩ with h | h <;> (rw [h]; try rfl)
  · intro hw
    exact acknowledge_self_written env _ hw

/-- C3 at the line `+play`: the match is case-sensitive. -/
theorem unrecognised_command_nok_witness :
    ("+play".toList.head? = some '+' ∨ "+play".toList.head? = some '-') ∧
    (∀ p ∈ recognised_prefixes, g_str_has_prefix "+play".toList p = false) ∧
    ∃ out, read_line_cb sample_engine sample_globals sample_session (some "+play".toList)
        = .ok out ∧
      writes out.effects = ["NOK\n".toList] ∧
      out.globals = sample_globals ∧ out.self = sample_session := by
  refine ⟨by decide, by decide, ?_⟩
  obtain ⟨out, h1, h2, _, h4, _, h6⟩ :=
    unrecognised_command_nok sample_engine sample_globals sample_session "+play".toList
      (by decide) (by decide)
  exact ⟨out, h1, h2, h4, h6 rfl⟩

/-! ## Number parsing -/

theorem isDigit_not_space (c : Char) (h : c.isDigit = true) : ISSPACE c = false := by
  cases hs : ISSPACE c with
  | false => rfl
  | true =>
    simp only [ISSPACE, Bool.or_eq_true, beq_iff_eq] at hs
    rcases hs with ((((hs | hs) | hs) | hs) | hs) | hs <;> subst hs <;> exact absurd h (by decide)

theorem isDigit_not_minus (c : Char) (h : c.isDigit = true) : (c == '-') = false := by
  cases hs : c == '-' with
  | false => rfl
  | true => rw [beq_iff_eq] at hs; subst hs; exact absurd h (by decide)

theorem isDigit_not_plus (c : Char) (h : c.isDigit = true) : (c == '+') = false := by
  cases hs : c == '+' with
  | false => rfl
  | true => rw [beq_iff_eq] at hs; subst hs; exact absurd h (by decide)

theorem scan_digits_snd (acc : Nat) (s : List Char) :
    (scan_digits acc s).2 = s.dropWhile Char.isDigit := by
  induction s generalizing acc with
  | nil => rfl
  | cons c cs ih =>
    unfold scan_digits
    cases hc : c.isDigit <;> simp [hc, List.dropWhile, ih]

theorem scan_digits_fst (acc : Nat) (ds rest : List Char) (hds : ∀ c ∈ ds, c.isDigit = true)
    (hrest : ∀ c, rest.head? = some c → c.isDigit = false) :
    scan_digits acc (ds ++ rest)
      = (ds.foldl (fun a c => a * 10 + (c.toNat - '0'.toNat)) acc, rest) := by
  induction ds generalizing acc with
  | nil =>
    cases rest with
    | nil => rfl
    | cons r rs =>
      simp only [List.nil_append, List.foldl_nil]
      unfold scan_digits
      simp [hrest r rfl]
  | cons d ds ih =>
    simp only [List.cons_append, List.foldl_cons]
    unfold scan_digits
    rw [if_pos (hds d (List.mem_cons_self _ _))]
    exact ih _ (fun c hc => hds c (List.mem_cons_of_mem _ hc))

theorem dropWhile_space (ws rest : List Char) (hws : ∀ c ∈ ws, ISSPACE c = true)
    (hrest : ∀ c, rest.head? = some c → ISSPACE c = false) :
    (ws ++ rest).dropWhile ISSPACE = rest := by
  induction ws with
  | nil =>
    cases rest with
    | nil => rfl
    | cons r rs => simp [List.dropWhile, hrest r rfl]
  | cons w ws ih =>
    simp only [List.cons_append, List.dropWhile, hws w (List.mem_cons_self _ _)]
    exact ih (fun c hc => hws c (List.mem_cons_of_mem _ hc))

/-- What the parsers read from white space, an optional sign, at least one digit and
a rest that does not go on with a digit: the sign, the value of the digits, the rest. -/
theorem parse_long_long_form (ws sign ds rest : List Char)
    (hws : ∀ c ∈ ws, ISSPACE c = true) (hsign : sign = [] ∨ sign = ['+'] ∨ sign = ['-'])
    (hds : well_formed_unsigned ds) (hrest : ∀ c, rest.head? = some c → c.isDigit = false) :
    parse_long_long (ws ++ sign ++ ds ++ rest)
      = (decide (sign = ['-']), digits_value ds, rest) := by
  obtain ⟨hne, hall⟩ := hds
  obtain ⟨d, ds1, rfl⟩ := List.exists_cons_of_ne_nil hne
  have hd : d.isDigit = true := hall d (List.mem_cons_self _ _)
  have hlen : ∀ acc, ((scan_digits acc (d :: ds1 ++ rest)).2.length
      == (d :: ds1 ++ rest).length) = false := by
    intro acc
    rw [scan_digits_fst acc (d :: ds1) rest hall hrest]
    simp
    omega
  have hval : ∀ acc, scan_digits acc (d :: ds1 ++ rest)
      = ((d :: ds1).foldl (fun a c => a * 10 + (c.toNat - '0'.toNat)) acc, rest) :=
    fun acc => scan_digits_fst acc (d :: ds1) rest hall hrest
  unfold parse_long_long
  rcases hsign with rfl | rfl | rfl
  · rw [List.append_nil, List.append_assoc,
      dropWhile_space ws (d :: ds1 ++ rest) hws
        (by intro c hc; simp at hc; subst hc; exact isDigit_not_space _ hd)]
    simp only [List.cons_append, isDigit_not_minus d hd, isDigit_not_plus d hd, Bool.or_self,
      Bool.false_eq_true, if_false]
    have h1 := hlen 0
    have h2 := hval 0
    simp only [List.cons_append] at h1 h2
    rw [h1, h2]
    simp [digits_value]
  · rw [List.append_assoc, List.append_assoc,
      dropWhile_space ws (['+'] ++ (d :: ds1 ++ rest)) hws
        (by intro c hc; simp at hc; subst hc; decide)]
    have h1 := hlen 0
    have h2 := hval 0
    simp only [List.cons_append] at h1 h2
    simp only [List.cons_append, List.nil_append, List.singleton_append]
    simp [h1, h2, digits_value]
    intro h
    omega
  · rw [List.append_assoc, List.append_assoc,
      dropWhile_space ws (['-'] ++ (d :: ds1 ++ rest)) hws
        (by intro c hc; simp at hc; subst hc; decide)]
    have h1 := hlen 0
    have h2 := hval 0
    simp only [List.cons_append] at h1 h2
    simp only [List.cons_append, List.nil_append, List.singleton_append]
    simp [h1, h2, digits_value]
    omega

/-- The parsers read their argument to its end exactly when it is empty or is white
space, an optional sign and at least one digit. -/
theorem parse_rest_nil_iff (arg : List Char) :
    (parse_long_long arg).2.2 = [] ↔ read_to_end arg := by
  constructor
  · intro h
    unfold parse_long_long at h
    dsimp only at h
    split at h
    · exact Or.inl h
    · rename_i c cs hs
      have harg : arg = arg.takeWhile ISSPACE ++ c :: cs := by
        rw [← hs]; exact (List.takeWhile_append_dropWhile ISSPACE arg).symm
      have hws : ∀ x ∈ arg.takeWhile ISSPACE, ISSPACE x = true :=
        fun x hx => (List.mem_takeWhile_imp hx)
      right
      by_cases hc : (c == '-' || c == '+') = true
      · rw [if_pos hc] at h
        split at h
        · have h0 : arg = [] := h
          rw [h0] at hs
          cases hs
        · rename_i hlen
          rw [scan_digits_snd] at h hlen
          refine ⟨arg.takeWhile ISSPACE, [c], cs, ?_, hws, ?_, ?_,
            List.dropWhile_eq_nil_iff.mp h⟩
          · rw [List.append_assoc]; exact harg
          · simp only [Bool.or_eq_true, beq_iff_eq] at hc
            rcases hc with hc | hc <;> simp [hc]
          · intro hnil
            subst hnil
            simp at hlen
      · rw [if_neg hc] at h
        split at h
        · have h0 : arg = [] := h
          rw [h0] at hs
          cases hs
        · rw [scan_digits_snd] at h
          refine ⟨arg.takeWhile ISSPACE, [], c :: cs, ?_, hws, Or.inl rfl, ?_,
            List.dropWhile_eq_nil_iff.mp h⟩
          · rw [List.append_nil]; exact harg
          · exact List.cons_ne_nil _ _
  · rintro (rfl | ⟨ws, sign, ds, rfl, hws, hsign, hds⟩)
    · rfl
    · have := parse_long_long_form ws sign ds [] hws hsign hds (by simp)
      rw [List.append_nil] at this
      rw [this]

theorem strtoull_rest_nil_iff (arg : List Char) :
    (g_ascii_strtoull arg).2 = [] ↔ read_to_end arg :=
  parse_rest_nil_iff arg

/-- An unsigned decimal integer below 2^31 is read as its value, to its end, and
survives the conversion to `gint`. -/
theorem strtoull_unsigned (ds : List Char) (hds : well_formed_unsigned ds)
    (hv : digits_value ds < 2 ^ 31) :
    g_ascii_strtoull ds = (digits_value ds, []) ∧
      to_gint ((g_ascii_strtoull ds).1 : Int) = (digits_value ds : Int) := by
  have h := parse_long_long_form [] [] ds [] (by simp) (Or.inl rfl) hds (by simp)
  simp only [List.nil_append, List.append_nil] at h
  have h1 : g_ascii_strtoull ds = (digits_value ds, []) := by
    unfold g_ascii_strtoull
    rw [h]
    have : ¬ digits_value ds > G_MAXUINT64 := by unfold G_MAXUINT64; omega
    simp [this]
  refine ⟨h1, ?_⟩
  rw [h1]
  unfold to_gint
  dsimp only
  omega

/-! ## `+SEEK` (C4) -/

theorem read_to_end_of_unsigned (arg : List Char) (h : well_formed_unsigned arg) :
    read_to_end arg :=
  Or.inr ⟨[], [], arg, rfl, by simp, Or.inl rfl, h⟩

theorem seek_self (env : Engine) (self : GstLaunchRemote) (ms : Int) :
    (gst_launch_remote_seek env self ms).1 = self := by
  unfold gst_launch_remote_seek
  cases self.pipeline <;> rfl

theorem dispatch_seek (env : Engine) (g : Globals) (self : GstLaunchRemote)
    (arg : List Char) :
    read_line_cb_dispatch env g self ("+SEEK ".toList ++ arg)
      = .ok (if (g_ascii_strtoull arg).2 = [] then
          ⟨true, g, self, (gst_launch_remote_seek env self (to_gint (g_ascii_strtoull arg).1)).2⟩
        else ⟨false, g, self, []⟩) := by
  have hd : ("+SEEK ".toList ++ arg).drop 6 = arg := rfl
  simp only [read_line_cb_dispatch, command_seek, hd, seek_self]
  simp [ g_str_has_prefix, List.isPrefixOf]

/-- C4 (as stated, refuted): the empty argument, a signed argument and an argument
with a leading blank are none of them non-empty strings of decimal digits, yet for
each the handler answers `OK\n` and requests a seek; and for the well-formed
argument 3000000000 the seek is not requested at that value (the `gint` parameter of
`gst_launch_remote_seek` cannot hold it). -/
theorem seek_argument_counterexample :
    (¬ well_formed_unsigned "".toList ∧
      read_line_cb sample_engine sample_globals { sample_session with pipeline := some 4 }
          (some "+SEEK ".toList)
        = .ok ⟨sample_globals, { sample_session with pipeline := some 4 },
            [.seek_simple 4 0, .write "OK\n".toList, .read_line_async]⟩) ∧
    (¬ well_formed_unsigned "-5".toList ∧
      read_line_cb sample_engine sample_globals { sample_session with pipeline := some 4 }
          (some "+SEEK -5".toList)
        = .ok ⟨sample_globals, { sample_session with pipeline := some 4 },
            [.seek_simple 4 G_MAXUINT64, .write "OK\n".toList, .read_line_async]⟩) ∧
    (¬ well_formed_unsigned " 5".toList ∧
      read_line_cb sample_engine sample_globals { sample_session with pipeline := some 4 }
          (some "+SEEK  5".toList)
        = .ok ⟨sample_globals, { sample_session with pipeline := some 4 },
            [.seek_simple 4 5000000, .write "OK\n".toList, .read_line_async]⟩) ∧
    (well_formed_unsigned "3000000000".toList ∧
      read_line_cb sample_engine sample_globals { sample_session with pipeline := some 4 }
          (some "+SEEK 3000000000".toList)
        = .ok ⟨sample_globals, { sample_session with pipeline := some 4 },
            [.seek_simple 4 G_MAXUINT64, .write "OK\n".toList, .read_line_async]⟩) := by
  refine ⟨⟨?_, rfl⟩, ⟨?_, rfl⟩, ⟨?_, rfl⟩, ⟨?_, rfl⟩⟩
  · simp [well_formed_unsigned]
  · simp [well_formed_unsigned]
  · simp [well_formed_unsigned]
  · exact ⟨by simp, by decide⟩

/-- C4 (amended): for every `+SEEK <arg>` line the handler returns and
(1) when `<arg>` is a non-empty string of decimal digits with a value below 2^31, it
invokes `gst_launch_remote_seek` with that value and answers `OK\n`;
(2) when `<arg>` is read to its end by `g_ascii_strtoull` (it is empty, or white space,
an optional sign and at least one digit), it invokes `gst_launch_remote_seek` with the
value read, converted to `gint`, and answers `OK\n`;
(3) for every other `<arg>` it answers `NOK\n`, writes nothing else and asks nothing of
the engine (no seek).
In every case the registry and the session (but for the connection, when the write of
the answer fails) are unchanged. -/
theorem seek_command_parses_strtoull (env : Engine) (g : Globals) (self : GstLaunchRemote)
    (arg : List Char) :
    (well_formed_unsigned arg → digits_value arg < 2 ^ 31 →
      ∃ out, read_line_cb env g self (some ("+SEEK ".toList ++ arg)) = .ok out ∧
        writes out.effects = ["OK\n".toList] ∧
        ∃ tail, out.effects
          = (gst_launch_remote_seek env self (digits_value arg : Int)).2 ++ tail) ∧
    (read_to_end arg →
      ∃ out, read_line_cb env g self (some ("+SEEK ".toList ++ arg)) = .ok out ∧
        writes out.effects = ["OK\n".toList] ∧
        (∃ tail, out.effects
          = (gst_launch_remote_seek env self (to_gint (g_ascii_strtoull arg).1)).2 ++ tail) ∧
        out.globals = g ∧ { out.self with connection := self.connection } = self) ∧
    (¬ read_to_end arg →
      ∃ out, read_line_cb env g self (some ("+SEEK ".toList ++ arg)) = .ok out ∧
        writes out.effects = ["NOK\n".toList] ∧
        (∀ e ∈ out.effects, e = .write "NOK\n".toList ∨ e = .read_line_async) ∧
        out.globals = g ∧ { out.self with connection := self.connection } = self) := by
  have hok : read_to_end arg →
      ∃ out, read_line_cb env g self (some ("+SEEK ".toList ++ arg)) = .ok out ∧
        writes out.effects = ["OK\n".toList] ∧
        (∃ tail, out.effects
          = (gst_launch_remote_seek env self (to_gint (g_ascii_strtoull arg).1)).2 ++ tail) ∧
        out.globals = g ∧ { out.self with connection := self.connection } = self := by
    intro h
    have hnil := (strtoull_rest_nil_iff arg).mpr h
    refine ⟨acknowledge env ⟨true, g, self,
      (gst_launch_remote_seek env self (to_gint (g_ascii_strtoull arg).1)).2⟩, ?_, ?_, ?_, ?_, ?_⟩
    · simp only [read_line_cb, dispatch_seek, hnil, if_true]
    · rw [writes_acknowledge, writes_seek]; rfl
    · exact acknowledge_effects env _
    · rw [acknowledge_globals]
    · rcases acknowledge_self_cases env ⟨true, g, self,
        (gst_launch_remote_seek env self (to_gint (g_ascii_strtoull arg).1)).2⟩ with h | h <;>
        (rw [h]; try rfl)
  refine ⟨?_, hok, ?_⟩
  · intro hwf hv
    obtain ⟨out, h1, h2, h3, _⟩ := hok (read_to_end_of_unsigned arg hwf)
    rw [(strtoull_unsigned arg hwf hv).2] at h3
    exact ⟨out, h1, h2, h3⟩
  · intro h
    have hnil : ¬ (g_ascii_strtoull arg).2 = [] := fun hn => h ((strtoull_rest_nil_iff arg).mp hn)
    refine ⟨acknowledge env ⟨false, g, self, []⟩, ?_, ?_, ?_, ?_, ?_⟩
    · simp only [read_line_cb, dispatch_seek, hnil, if_false]
    · rw [writes_acknowledge]; rfl
    · simp only [acknowledge, Bool.false_eq_true, if_false]
      split <;> simp
    · rw [acknowledge_globals]
    · rcases acknowledge_self_cases env ⟨false, g, self, []⟩ with h | h <;> (rw [h]; try rfl)

/-! ## `+BASETIME` (C5) -/

theorem dispatch_basetime (env : Engine) (g : Globals) (self : GstLaunchRemote)
    (arg : List Char) :
    read_line_cb_dispatch env g self ("+BASETIME ".toList ++ arg)
      = .ok (command_basetime g self ("+BASETIME ".toList ++ arg)) := by
  simp [read_line_cb_dispatch, g_str_has_prefix, List.isPrefixOf]

/-- C5 (as stated, refuted): for the malformed argument `x` the handler answers
`NOK\n` but the stored base time, 5 before, is `GST_CLOCK_TIME_NONE` after; and the
empty argument, which is no well-formed unsigned integer, is answered `OK\n` and sets
the base time 0 on the session and on the pipeline. -/
theorem basetime_counterexample :
    (¬ well_formed_unsigned "x".toList ∧ sample_session.base_time = 5 ∧
      read_line_cb sample_engine sample_globals sample_session (some "+BASETIME x".toList)
        = .ok ⟨sample_globals, { sample_session with base_time := GST_CLOCK_TIME_NONE },
            [.write "NOK\n".toList, .read_line_async]⟩) ∧
    (¬ well_formed_unsigned "".toList ∧
      read_line_cb sample_engine sample_globals { sample_session with pipeline := some 4 }
          (some "+BASETIME ".toList)
        = .ok ⟨sample_globals, { sample_session with pipeline := some 4, base_time := 0 },
            [.set_base_time 4 0, .set_start_time 4 GST_CLOCK_TIME_NONE,
             .write "OK\n".toList, .read_line_async]⟩) := by
  refine ⟨⟨?_, rfl, rfl⟩, ⟨?_, rfl⟩⟩
  · simp [well_formed_unsigned]
  · simp [well_formed_unsigned]

/-- C5 (amended): for every `+BASETIME <arg>` line whose `<arg>` `g_ascii_strtoull` does
not read to its end (it is not empty and is not white space, an optional sign and
digits), the handler answers `NOK\n`, writes nothing else and asks nothing of the engine
(the base time of an existing pipeline is not touched), the registry is unchanged, and
the session is unchanged but for its stored base time, which is reset to
`GST_CLOCK_TIME_NONE` (and the connection, when the write of the answer fails). -/
theorem basetime_malformed_resets (env : Engine) (g : Globals) (self : GstLaunchRemote)
    (arg : List Char) (h : ¬ read_to_end arg) :
    ∃ out, read_line_cb env g self (some ("+BASETIME ".toList ++ arg)) = .ok out ∧
      writes out.effects = ["NOK\n".toList] ∧
      (∀ e ∈ out.effects, e = .write "NOK\n".toList ∨ e = .read_line_async) ∧
      out.globals = g ∧
      out.self.base_time = GST_CLOCK_TIME_NONE ∧
      out.self.pipeline = self.pipeline ∧
      { out.self with connection := self.connection }
        = { self with base_time := GST_CLOCK_TIME_NONE } := by
  have hnil : (g_ascii_strtoull arg).2 ≠ [] := fun hn => h ((strtoull_rest_nil_iff arg).mp hn)
  have hd : ("+BASETIME ".toList ++ arg).drop 10 = arg := rfl
  have hc : command_basetime g self ("+BASETIME ".toList ++ arg)
      = ⟨false, g, { self with base_time := GST_CLOCK_TIME_NONE }, []⟩ := by
    simp only [command_basetime, hd, if_pos hnil]
  refine ⟨acknowledge env ⟨false, g, { self with base_time := GST_CLOCK_TIME_NONE }, []⟩,
    ?_, ?_, ?_, ?_, ?_, ?_, ?_⟩
  · simp only [read_line_cb, dispatch_basetime, hc]
  · rw [writes_acknowledge]; rfl
  · simp only [acknowledge, Bool.false_eq_true, if_false]
    split <;> simp
  · rw [acknowledge_globals]
  · rcases acknowledge_self_cases env
      ⟨false, g, { self with base_time := GST_CLOCK_TIME_NONE }, []⟩ with h | h <;>
      (rw [h]; try rfl)
  · rcases acknowledge_self_cases env
      ⟨false, g, { self with base_time := GST_CLOCK_TIME_NONE }, []⟩ with h | h <;>
      (rw [h]; try rfl)
  · rcases acknowledge_self_cases env
      ⟨false, g, { self with base_time := GST_CLOCK_TIME_NONE }, []⟩ with h | h <;>
      (rw [h]; try rfl)

/-- C5 (amended) at the argument `12x`. -/
theorem basetime_malformed_resets_witness :
    ¬ read_to_end "12x".toList ∧
    ∃ out, read_line_cb sample_engine sample_globals sample_session
        (some "+BASETIME 12x".toList) = .ok out ∧
      writes out.effects = ["NOK\n".toList] ∧
      out.self.base_time = GST_CLOCK_TIME_NONE := by
  have h : ¬ read_to_end "12x".toList :=
    fun hr => absurd ((strtoull_rest_nil_iff _).mpr hr) (by decide)
  obtain ⟨out, h1, h2, _, _, h5, _⟩ :=
    basetime_malformed_resets sample_engine sample_globals sample_session "12x".toList h
  exact ⟨h, out, h1, h2, h5⟩

/-! ## `+NETCLOCK` (C6) -/

theorem strchr_append (c : Char) (before after : List Char) (h : c ∉ before) :
    strchr c (before ++ c :: after) = some (before, after) := by
  induction before with
  | nil => simp [strchr]
  | cons x xs ih =>
    have hx : x ≠ c := fun e => h (e ▸ List.mem_cons_self _ _)
    have hxs : c ∉ xs := fun e => h (List.mem_cons_of_mem _ e)
    simp [strchr, hx, ih hxs]

theorem strchr_none (c : Char) (s : List Char) (h : c ∉ s) : strchr c s = none := by
  induction s with
  | nil => rfl
  | cons x xs ih =>
    have hx : x ≠ c := fun e => h (e ▸ List.mem_cons_self _ _)
    have hxs : c ∉ xs := fun e => h (List.mem_cons_of_mem _ e)
    simp [strchr, hx, ih hxs]

theorem strchr_some (c : Char) (s before after : List Char)
    (h : strchr c s = some (before, after)) : s = before ++ c :: after ∧ c ∉ before := by
  induction s generalizing before with
  | nil => simp [strchr] at h
  | cons x xs ih =>
    unfold strchr at h
    by_cases hx : x = c
    · rw [if_pos hx] at h
      injection h with h
      injection h with h1 h2
      subst h1 h2 hx
      simp
    · rw [if_neg hx] at h
      cases hr : strchr c xs with
      | none => rw [hr] at h; cases h
      | some p =>
        obtain ⟨b, a⟩ := p
        rw [hr] at h
        injection h with h
        injection h with h1 h2
        subst h1 h2
        obtain ⟨e, hn⟩ := ih b hr
        refine ⟨by rw [e]; rfl, ?_⟩
        intro hm
        rcases List.mem_cons.mp hm with hm | hm
        · exact hx hm.symm
        · exact hn hm

/-- C6 (code defect): the line `+NETCLOCK` without arguments does not have the prefix
`+NETCLOCK ` (with the blank) the dispatch tests for, so the branch that would clear
the clock is not reached (its test for the bare command, line 588, is dead code): the
handler answers `NOK\n` and leaves the session's network clock, and everything else,
as it was. -/
theorem netclock_without_arguments_nok (env : Engine) (g : Globals) (self : GstLaunchRemote) :
    ∃ out, read_line_cb env g self (some "+NETCLOCK".toList) = .ok out ∧
      writes out.effects = ["NOK\n".toList] ∧
      out.self.net_clock = self.net_clock ∧
      out.globals = g ∧ { out.self with connection := self.connection } = self := by
  have hd := dispatch_unrecognised env g self "+NETCLOCK".toList (by decide) (by decide)
  refine ⟨acknowledge env ⟨false, g, self, []⟩, ?_, ?_, ?_, ?_, ?_⟩
  · simp only [read_line_cb, hd]
  · rw [writes_acknowledge]; rfl
  · rcases acknowledge_self_cases env ⟨false, g, self, []⟩ with h | h <;> (rw [h]; try rfl)
  · rw [acknowledge_globals]
  · rcases acknowledge_self_cases env ⟨false, g, self, []⟩ with h | h <;> (rw [h]; try rfl)

theorem dispatch_netclock (env : Engine) (g : Globals) (self : GstLaunchRemote)
    (arg : List Char) :
    read_line_cb_dispatch env g self ("+NETCLOCK ".toList ++ arg)
      = .ok (match g_strsplit arg ' ' 2 with
          | host :: port_string :: _ =>
            ⟨true, g, { self with net_clock :=
              env.gst_net_client_clock_new host (to_gint (g_ascii_strtoll port_string)) }, []⟩
          | _ => ⟨true, g, { self with net_clock := none }, []⟩) := by
  have hd : ("+NETCLOCK ".toList ++ arg).drop 10 = arg := rfl
  have h9 : (("+NETCLOCK ".toList ++ arg).drop 9).head? = some ' ' := rfl
  simp only [read_line_cb_dispatch, command_netclock, hd, h9]
  simp [ g_str_has_prefix, List.isPrefixOf]

theorem strsplit_host_port (host port : List Char) (h : ' ' ∉ host) :
    g_strsplit (host ++ ' ' :: port) ' ' 2 = [host, port] := by
  unfold g_strsplit
  rw [if_neg (by simp)]
  simp [g_strsplit_loop, strchr_append ' ' host port h]

theorem strtoll_unsigned (ds rest : List Char) (hds : well_formed_unsigned ds)
    (hrest : ∀ c, rest.head? = some c → c.isDigit = false) (hv : digits_value ds < 2 ^ 31) :
    to_gint (g_ascii_strtoll (ds ++ rest)) = (digits_value ds : Int) := by
  have h := parse_long_long_form [] [] ds rest (by simp) (Or.inl rfl) hds hrest
  simp only [List.nil_append, List.append_nil] at h
  unfold g_ascii_strtoll
  rw [h]
  simp only [show decide (([] : List Char) = ['-']) = false from by decide, Bool.false_eq_true,
    if_false]
  unfold G_MAXINT64 G_MININT64 to_gint
  split
  · omega
  · split <;> omega

/-- The second half of C6: `+NETCLOCK <host> <port>` with a host without blanks and a
decimal port below 2^31 replaces the session's clock by the engine's clock for that
host and port and is answered `OK\n`. -/
theorem netclock_with_host_and_port (env : Engine) (g : Globals) (self : GstLaunchRemote)
    (host port : List Char) (hhost : ' ' ∉ host) (hport : well_formed_unsigned port)
    (hv : digits_value port < 2 ^ 31) :
    ∃ out, read_line_cb env g self (some ("+NETCLOCK ".toList ++ host ++ ' ' :: port)) = .ok out ∧
      writes out.effects = ["OK\n".toList] ∧
      out.self.net_clock = env.gst_net_client_clock_new host (digits_value port : Int) ∧
      out.globals = g := by
  have hp := strtoll_unsigned port [] hport (by simp) hv
  rw [List.append_nil] at hp
  refine ⟨acknowledge env ⟨true, g, { self with net_clock :=
    (env.gst_net_client_clock_new host (digits_value port : Int)) }, []⟩, ?_, ?_, ?_, ?_⟩
  · rw [List.append_assoc]
    simp only [read_line_cb, dispatch_netclock, strsplit_host_port host port hhost, hp]
  · rw [writes_acknowledge]; rfl
  · rcases acknowledge_self_cases env ⟨true, g, { self with net_clock :=
      (env.gst_net_client_clock_new host (digits_value port : Int)) }, []⟩ with h | h <;>
      (rw [h]; try rfl)
  · rw [acknowledge_globals]

/-- The line `+NETCLOCK ` (with the blank, no arguments) does clear the clock. -/
theorem netclock_blank_clears (env : Engine) (g : Globals) (self : GstLaunchRemote) :
    ∃ out, read_line_cb env g self (some "+NETCLOCK ".toList) = .ok out ∧
      writes out.effects = ["OK\n".toList] ∧ out.self.net_clock = none ∧ out.globals = g := by
  refine ⟨acknowledge env ⟨true, g, { self with net_clock := none }, []⟩, ?_, ?_, ?_, ?_⟩
  · have h := dispatch_netclock env g self []
    rw [List.append_nil] at h
    simp only [read_line_cb, h]
    rfl
  · rw [writes_acknowledge]; rfl
  · rcases acknowledge_self_cases env ⟨true, g, { self with net_clock := none }, []⟩
      with h | h <;> (rw [h]; try rfl)
  · rw [acknowledge_globals]

/-! ## `+DEBUG` (C8) -/

/-- The session has a sink in the registry. -/
theorem arm_none_iff (sock : Option Nat) (addr : GSocketAddress) (l : List DebugSocket) :
    arm_debug_socket sock addr l = none ↔ ¬ ∃ s ∈ l, some s.socket = sock := by
  induction l with
  | nil => simp [arm_debug_socket]
  | cons x xs ih =>
    unfold arm_debug_socket
    by_cases hx : some x.socket = sock
    · simp [hx]
    · rw [if_neg hx]
      cases hr : arm_debug_socket sock addr xs with
      | none =>
        have := ih.mp hr
        simp only [List.mem_cons, not_exists, not_and, true_iff]
        rintro s (rfl | hs) h
        · exact hx h
        · exact this ⟨s, hs, h⟩
      | some l1 =>
        have hne : ¬ arm_debug_socket sock addr xs = none := by rw [hr]; simp
        have := (not_congr ih).mp hne
        simp only [not_not] at this
        obtain ⟨s, hs, h⟩ := this
        constructor
        · intro hc; cases hc
        · intro hc; exact absurd ⟨s, List.mem_cons_of_mem _ hs, h⟩ hc

theorem arm_some_armed (sock : Option Nat) (addr : GSocketAddress) (l l1 : List DebugSocket)
    (h : arm_debug_socket sock addr l = some l1) :
    ∃ s ∈ l1, some s.socket = sock ∧ s.address = some addr := by
  induction l generalizing l1 with
  | nil => simp [arm_debug_socket] at h
  | cons x xs ih =>
    unfold arm_debug_socket at h
    by_cases hx : some x.socket = sock
    · rw [if_pos hx] at h
      injection h with h
      subst h
      exact ⟨_, List.mem_cons_self _ _, hx, rfl⟩
    · rw [if_neg hx] at h
      cases hr : arm_debug_socket sock addr xs with
      | none => rw [hr] at h; cases h
      | some l2 =>
        rw [hr] at h
        injection h with h
        subst h
        obtain ⟨s, hs, h1, h2⟩ := ih l2 hr
        exact ⟨s, List.mem_cons_of_mem _ hs, h1, h2⟩

theorem dispatch_debug_on (env : Engine) (g : Globals) (self : GstLaunchRemote)
    (arg : List Char) :
    read_line_cb_dispatch env g self ("+DEBUG ".toList ++ arg)
      = .ok (match strchr ':' arg with
          | none => ⟨false, g, self, []⟩
          | some (host, after) =>
            if to_gint (strtol after) > 0 then
              match env.g_inet_socket_address_new_from_string host
                  (to_gint (strtol after)).toNat with
              | none => ⟨false, g, self, []⟩
              | some addr =>
                match debug_arm g self.debug_socket addr with
                | none => ⟨false, g, self, []⟩
                | some g1 => ⟨true, g1, self, []⟩
            else ⟨false, g, self, []⟩) := by
  have hd : ("+DEBUG ".toList ++ arg).drop 7 = arg := rfl
  simp only [read_line_cb_dispatch, command_debug_on, hd]
  simp [ g_str_has_prefix, List.isPrefixOf]

/-- The `+DEBUG` branch, case by case. -/
theorem debug_on_dispatch (env : Engine) (g : Globals) (self : GstLaunchRemote)
    (arg : List Char) :
    ∃ d, read_line_cb_dispatch env g self ("+DEBUG ".toList ++ arg) = .ok d ∧
      d.self = self ∧ d.effects = [] ∧
      (d.ok = false → d.globals = g) ∧
      (d.ok = true → d.globals.debug_active = true ∧
        ∃ host after addr, strchr ':' arg = some (host, after) ∧
          env.g_inet_socket_address_new_from_string host (to_gint (strtol after)).toNat
            = some addr ∧
          arm_debug_socket self.debug_socket addr g.debug_sockets
            = some d.globals.debug_sockets) ∧
      (strchr ':' arg = none → d.ok = false) ∧
      (∀ host after, strchr ':' arg = some (host, after) →
        (to_gint (strtol after) ≤ 0 ∨
          env.g_inet_socket_address_new_from_string host (to_gint (strtol after)).toNat = none ∨
          ¬ ∃ s ∈ g.debug_sockets, some s.socket = self.debug_socket) → d.ok = false) ∧
      (∀ host after addr, strchr ':' arg = some (host, after) →
        0 < to_gint (strtol after) →
        env.g_inet_socket_address_new_from_string host (to_gint (strtol after)).toNat
          = some addr →
        (∃ s ∈ g.debug_sockets, some s.socket = self.debug_socket) →
        d.ok = true ∧
          ∃ s ∈ d.globals.debug_sockets, some s.socket = self.debug_socket ∧
            s.address = some addr) := by
  rw [dispatch_debug_on]
  cases hs : strchr ':' arg with
  | none => exact ⟨_, rfl, rfl, rfl, fun _ => rfl, by simp, by simp, by simp, by simp⟩
  | some p =>
    obtain ⟨host, after⟩ := p
    have inj : ∀ {h a : List Char}, some (host, after) = some (h, a) → h = host ∧ a = after := by
      intro h a e
      injection e with e
      injection e with e1 e2
      exact ⟨e1.symm, e2.symm⟩
    by_cases hp : to_gint (strtol after) > 0
    · cases hparse : env.g_inet_socket_address_new_from_string host
          (to_gint (strtol after)).toNat with
      | none =>
        refine ⟨⟨false, g, self, []⟩, ?_, rfl, rfl, fun _ => rfl, ?_, ?_, ?_, ?_⟩
        · simp only [if_pos hp, hparse]
        · intro h; cases h
        · intro _; rfl
        · intro h a _ _; rfl
        · intro h a ad e _ hpa _
          obtain ⟨rfl, rfl⟩ := inj e
          rw [hparse] at hpa
          cases hpa
      | some addr =>
        cases harm : arm_debug_socket self.debug_socket addr g.debug_sockets with
        | none =>
          have hreg := (arm_none_iff _ _ _).mp harm
          refine ⟨⟨false, g, self, []⟩, ?_, rfl, rfl, fun _ => rfl, ?_, ?_, ?_, ?_⟩
          · simp only [if_pos hp, hparse, debug_arm, harm]
          · intro h; cases h
          · intro _; rfl
          · intro h a _ _; rfl
          · intro h a ad e _ _ hr
            exact absurd hr hreg
        | some l1 =>
          have harmed := arm_some_armed _ _ _ _ harm
          refine ⟨⟨true, ⟨l1, true, GST_LEVEL_DEBUG⟩, self, []⟩, ?_, rfl, rfl, ?_, ?_, ?_, ?_, ?_⟩
          · simp only [if_pos hp, hparse, debug_arm, harm]
          · intro h; cases h
          · intro _
            exact ⟨rfl, host, after, addr, rfl, hparse, harm⟩
          · intro h; cases h
          · intro h a e hor
            obtain ⟨rfl, rfl⟩ := inj e
            rcases hor with h1 | h1 | h1
            · omega
            · rw [hparse] at h1; cases h1
            · exact absurd ((arm_none_iff _ addr _).mpr h1) (by rw [harm]; simp)
          · intro h a ad e _ hpa _
            obtain ⟨rfl, rfl⟩ := inj e
            rw [hparse] at hpa
            injection hpa with hpa
            subst hpa
            exact ⟨rfl, harmed⟩
    · refine ⟨⟨false, g, self, []⟩, ?_, rfl, rfl, fun _ => rfl, ?_, ?_, ?_, ?_⟩
      · simp only [if_neg hp]
      · intro h; cases h
      · intro _; rfl
      · intro h a _ _; rfl
      · intro h a ad e hpos
        obtain ⟨rfl, rfl⟩ := inj e
        exact absurd hpos hp

/-- C8 (as stated, refuted): trailing characters after the port are not rejected
(`127.0.0.1:9000xyz` arms the sink toward port 9000 and is answered `OK\n`), a port
above 65535 is not rejected (`127.0.0.1:70000` is answered `OK\n`), a valid host
literal that contains a colon is never accepted (`::1:9000` is answered `NOK\n`), and
a well-formed address is answered `NOK\n` when the session has no sink in the
registry. -/
theorem debug_on_counterexample :
    read_line_cb sample_engine sample_globals sample_session
        (some "+DEBUG 127.0.0.1:9000xyz".toList)
      = .ok ⟨⟨[⟨10, some ⟨"127.0.0.1".toList, 9000⟩⟩, ⟨11, none⟩], true, GST_LEVEL_DEBUG⟩,
          sample_session, [.write "OK\n".toList, .read_line_async]⟩ ∧
    read_line_cb sample_engine sample_globals sample_session
        (some "+DEBUG 127.0.0.1:70000".toList)
      = .ok ⟨⟨[⟨10, some ⟨"127.0.0.1".toList, 70000 % 65536⟩⟩, ⟨11, none⟩], true,
            GST_LEVEL_DEBUG⟩,
          sample_session, [.write "OK\n".toList, .read_line_async]⟩ ∧
    (sample_engine.g_inet_socket_address_new_from_string "::1".toList 9000
        = some ⟨"::1".toList, 9000⟩ ∧
      read_line_cb sample_engine sample_globals sample_session
          (some "+DEBUG ::1:9000".toList)
        = .ok ⟨sample_globals, sample_session, [.write "NOK\n".toList, .read_line_async]⟩) ∧
    read_line_cb sample_engine ⟨[⟨11, none⟩], false, 0⟩ sample_session
        (some "+DEBUG 127.0.0.1:9000".toList)
      = .ok ⟨⟨[⟨11, none⟩], false, 0⟩, sample_session,
          [.write "NOK\n".toList, .read_line_async]⟩ := by
  refine ⟨rfl, rfl, ⟨rfl, rfl⟩, rfl⟩

/-- C8 (amended): for every `+DEBUG <arg>` line the handler returns, leaves the session
as it was (but for the connection, which a failed write of the answer releases) and
answers `OK\n` or `NOK\n`.  It cuts `<arg>` at its first colon and reads
the port from the text behind it with `strtol` into a `gint`, which ignores what
follows the digits.
It answers `NOK\n`, changing no sink and not the switch, when `<arg>` has no colon, when
the port read is not positive, when the host (the text before the first colon) does
not parse, and when the session has no sink in the registry.
It answers `OK\n`, arms the session's sink toward the parsed address and switches
debugging on, whenever the port read is positive, the host parses with it and the
session has a sink in the registry; this holds for every `<host>:<port><rest>` with a
host without colon that parses, a decimal port from 1 to 2147483647, a rest that does
not go on with a digit, and a registered sink.  Whenever it answers `OK\n` it has armed
the sink and debugging is on. -/
theorem debug_on_command (env : Engine) (g : Globals) (self : GstLaunchRemote)
    (arg : List Char) :
    ∃ out, read_line_cb env g self (some ("+DEBUG ".toList ++ arg)) = .ok out ∧
      { out.self with connection := self.connection } = self ∧
      (writes out.effects = ["OK\n".toList] ∨ writes out.effects = ["NOK\n".toList]) ∧
      (writes out.effects = ["NOK\n".toList] → out.globals = g) ∧
      (writes out.effects = ["OK\n".toList] → out.globals.debug_active = true ∧
        ∃ host after addr, strchr ':' arg = some (host, after) ∧
          env.g_inet_socket_address_new_from_string host (to_gint (strtol after)).toNat
            = some addr ∧
          arm_debug_socket self.debug_socket addr g.debug_sockets
            = some out.globals.debug_sockets) ∧
      (':' ∉ arg → writes out.effects = ["NOK\n".toList]) ∧
      (∀ host after, arg = host ++ ':' :: after → ':' ∉ host →
        (to_gint (strtol after) ≤ 0 ∨
          env.g_inet_socket_address_new_from_string host (to_gint (strtol after)).toNat = none ∨
          ¬ ∃ s ∈ g.debug_sockets, some s.socket = self.debug_socket) →
        writes out.effects = ["NOK\n".toList]) ∧
      (∀ host after addr, arg = host ++ ':' :: after → ':' ∉ host →
        0 < to_gint (strtol after) →
        env.g_inet_socket_address_new_from_string host (to_gint (strtol after)).toNat
          = some addr →
        (∃ s ∈ g.debug_sockets, some s.socket = self.debug_socket) →
        writes out.effects = ["OK\n".toList] ∧ out.globals.debug_active = true ∧
          ∃ s ∈ out.globals.debug_sockets, some s.socket = self.debug_socket ∧
            s.address = some addr) ∧
      (∀ host ds rest addr, arg = host ++ ':' :: (ds ++ rest) → ':' ∉ host →
        well_formed_unsigned ds → 0 < digits_value ds → digits_value ds < 2 ^ 31 →
        (∀ c, rest.head? = some c → c.isDigit = false) →
        env.g_inet_socket_address_new_from_string host (digits_value ds) = some addr →
        (∃ s ∈ g.debug_sockets, some s.socket = self.debug_socket) →
        writes out.effects = ["OK\n".toList] ∧
          ∃ s ∈ out.globals.debug_sockets, some s.socket = self.debug_socket ∧
            s.address = some addr) := by
  obtain ⟨d, hd, hself, heff, hnok, hok, hnone, hrej, hacc⟩ := debug_on_dispatch env g self arg
  have hw : writes (acknowledge env d).effects
      = [if d.ok then "OK\n".toList else "NOK\n".toList] := by
    rw [writes_acknowledge, heff]; rfl
  have hwok : writes (acknowledge env d).effects = ["OK\n".toList] → d.ok = true := by
    rw [hw]
    cases d.ok <;> simp
  have hwnok : writes (acknowledge env d).effects = ["NOK\n".toList] → d.ok = false := by
    rw [hw]
    cases d.ok <;> simp
  have hofok : d.ok = true → writes (acknowledge env d).effects = ["OK\n".toList] := by
    intro h; rw [hw, h]; rfl
  have hofnok : d.ok = false → writes (acknowledge env d).effects = ["NOK\n".toList] := by
    intro h; rw [hw, h]; rfl
  refine ⟨acknowledge env d, ?_, ?_, ?_, ?_, ?_, ?_, ?_, ?_, ?_⟩
  · simp only [read_line_cb, hd]
  · rcases acknowledge_self_cases env d with h | h <;> (rw [h, hself]; try rfl)
  · cases h : d.ok
    · exact Or.inr (hofnok h)
    · exact Or.inl (hofok h)
  · intro h
    rw [acknowledge_globals]
    exact hnok (hwnok h)
  · intro h
    rw [acknowledge_globals]
    exact hok (hwok h)
  · intro h
    exact hofnok (hnone (strchr_none ':' arg h))
  · intro host after e hh hor
    subst e
    exact hofnok (hrej host after (strchr_append ':' host after hh) hor)
  · intro host after addr e hh hpos hparse hreg
    subst e
    have h := hacc host after addr (strchr_append ':' host after hh) hpos hparse hreg
    rw [acknowledge_globals]
    exact ⟨hofok h.1, (hok h.1).1, h.2⟩
  · intro host ds rest addr e hh hds hpos hv hrest hparse hreg
    subst e
    have hport : to_gint (strtol (ds ++ rest)) = (digits_value ds : Int) :=
      strtoll_unsigned ds rest hds hrest hv
    have h := hacc host (ds ++ rest) addr (strchr_append ':' host _ hh)
      (by rw [hport]; exact_mod_cast hpos)
      (by rw [hport]; exact hparse) hreg
    rw [acknowledge_globals]
    exact ⟨hofok h.1, h.2⟩

/-! ## `-DEBUG` (C9) and the registry invariant (C10) -/

theorem all_disabled_iff (l : List DebugSocket) : all_disabled l = true ↔ ¬ some_armed l := by
  unfold all_disabled some_armed
  simp only [List.all_eq_true, not_exists, not_and, not_not]
  constructor
  · intro h s hs
    have := h s hs
    cases ha : s.address with
    | none => rfl
    | some a => rw [ha] at this; cases this
  · intro h s hs
    rw [h s hs]
    rfl

theorem send_debug_nil (g : Globals) (pfx message : List Char)
    (h : ¬ some_armed g.debug_sockets) : send_debug g pfx message = [] := by
  unfold send_debug
  have : ∀ l : List DebugSocket, ¬ some_armed l →
      l.filterMap (fun s => match s.address with
        | none => none
        | some a => some (⟨s.socket, a, pfx ++ ": ".toList ++ message ++ "\n".toList⟩ : Datagram))
        = [] := by
    intro l
    induction l with
    | nil => intro _; rfl
    | cons x xs ih =>
      intro hl
      have hx : x.address = none := by
        cases ha : x.address with
        | none => rfl
        | some a => exact absurd ⟨x, List.mem_cons_self _ _, by rw [ha]; simp⟩ hl
      have hxs : ¬ some_armed xs := fun ⟨s, hs, ha⟩ => hl ⟨s, List.mem_cons_of_mem _ hs, ha⟩
      rw [List.filterMap_cons, hx]
      exact ih hxs
  exact this _ h

theorem dispatch_debug_off (env : Engine) (g : Globals) (self : GstLaunchRemote)
    (rest : List Char) :
    read_line_cb_dispatch env g self ("-DEBUG".toList ++ rest)
      = .ok ⟨true, debug_disarm g self.debug_socket, self, []⟩ := by
  simp [read_line_cb_dispatch, command_debug_off, g_str_has_prefix, List.isPrefixOf]

/-- C9: for every registry state and every session, after `read_line_cb` has handled a
`-DEBUG` line (answered `OK\n`) every sink of the session's socket is disarmed and every
other sink of the registry is, position by position, what it was; when no sink is armed
afterwards debugging is switched off and `send_debug` sends no datagram, whatever the
tag and the message (and when a sink is still armed debugging is on). -/
theorem debug_off_command (env : Engine) (g : Globals) (self : GstLaunchRemote)
    (rest : List Char) :
    ∃ out, read_line_cb env g self (some ("-DEBUG".toList ++ rest)) = .ok out ∧
      writes out.effects = ["OK\n".toList] ∧
      out.globals.debug_sockets.length = g.debug_sockets.length ∧
      (∀ (i : Nat) (s : DebugSocket), g.debug_sockets[i]? = some s →
        out.globals.debug_sockets[i]?
          = some (if some s.socket = self.debug_socket then { s with address := none } else s)) ∧
      (∀ s ∈ out.globals.debug_sockets, some s.socket = self.debug_socket → s.address = none) ∧
      (¬ some_armed out.globals.debug_sockets →
        out.globals.debug_active = false ∧
          ∀ tag message, send_debug out.globals tag message = []) ∧
      (some_armed out.globals.debug_sockets → out.globals.debug_active = true) := by
  refine ⟨acknowledge env ⟨true, debug_disarm g self.debug_socket, self, []⟩,
    ?_, ?_, ?_, ?_, ?_, ?_, ?_⟩
  · simp only [read_line_cb, dispatch_debug_off]
  · rw [writes_acknowledge]; rfl
  · rw [acknowledge_globals]
    simp [debug_disarm, disarm_debug_socket]
  · intro i s hs
    rw [acknowledge_globals]
    simp [debug_disarm, disarm_debug_socket, hs]
  · intro s hs hsock
    rw [acknowledge_globals] at hs
    simp only [debug_disarm, disarm_debug_socket, List.mem_map] at hs
    obtain ⟨s0, _, rfl⟩ := hs
    by_cases h0 : some s0.socket = self.debug_socket
    · rw [if_pos h0]
    · rw [if_neg h0] at hsock
      exact absurd hsock h0
  · intro h
    rw [acknowledge_globals] at h ⊢
    refine ⟨?_, fun tag message => send_debug_nil _ tag message h⟩
    have := (all_disabled_iff _).mpr h
    simp only [debug_disarm] at this ⊢
    rw [this]
    rfl
  · intro h
    rw [acknowledge_globals] at h ⊢
    have : all_disabled (debug_disarm g self.debug_socket).debug_sockets = false := by
      cases ha : all_disabled (debug_disarm g self.debug_socket).debug_sockets with
      | false => rfl
      | true => exact absurd h ((all_disabled_iff _).mp ha)
    simp only [debug_disarm] at this ⊢
    rw [this]
    rfl

theorem invariant_init (debug_active : Bool) (default_threshold : Nat) :
    registry_invariant (gst_launch_remote_init ⟨[], debug_active, default_threshold⟩) := by
  simp [registry_invariant, gst_launch_remote_init, some_armed]

theorem invariant_register (g : Globals) (socket : Nat) (h : registry_invariant g) :
    registry_invariant (register_debug_socket g socket) := by
  unfold registry_invariant register_debug_socket at *
  rw [h]
  constructor
  · rintro ⟨s, hs, ha⟩
    exact ⟨s, List.mem_cons_of_mem _ hs, ha⟩
  · rintro ⟨s, hs, ha⟩
    rcases List.mem_cons.mp hs with rfl | hs
    · exact absurd rfl ha
    · exact ⟨s, hs, ha⟩

theorem invariant_arm (g g1 : Globals) (debug_socket : Option Nat) (addr : GSocketAddress)
    (h : debug_arm g debug_socket addr = some g1) : registry_invariant g1 := by
  unfold debug_arm at h
  cases harm : arm_debug_socket debug_socket addr g.debug_sockets with
  | none => rw [harm] at h; cases h
  | some l =>
    rw [harm] at h
    injection h with h
    subst h
    obtain ⟨s, hs, _, ha⟩ := arm_some_armed _ _ _ _ harm
    exact ⟨fun _ => ⟨s, hs, by rw [ha]; simp⟩, fun _ => rfl⟩

theorem invariant_disarm (g : Globals) (debug_socket : Option Nat) :
    registry_invariant (debug_disarm g debug_socket) := by
  unfold registry_invariant debug_disarm
  dsimp only
  cases ha : all_disabled (disarm_debug_socket debug_socket g.debug_sockets) with
  | false =>
    have : ¬ ¬ some_armed (disarm_debug_socket debug_socket g.debug_sockets) := by
      intro hn
      rw [(all_disabled_iff _).mpr hn] at ha
      cases ha
    exact ⟨fun _ => not_not.mp this, fun _ => rfl⟩
  | true =>
    have := (all_disabled_iff _).mp ha
    exact ⟨fun h => (by simp at h), fun h => absurd h this⟩

theorem some_armed_remove (socket : Nat) (l : List DebugSocket)
    (hu : ∀ s ∈ l, s.socket = socket → s.address = none) :
    some_armed (remove_debug_socket socket l) ↔ some_armed l := by
  induction l with
  | nil => rfl
  | cons x xs ih =>
    have hxs : ∀ s ∈ xs, s.socket = socket → s.address = none :=
      fun s hs => hu s (List.mem_cons_of_mem _ hs)
    unfold remove_debug_socket
    by_cases hx : x.socket = socket
    · rw [if_pos hx]
      constructor
      · rintro ⟨s, hs, ha⟩
        exact ⟨s, List.mem_cons_of_mem _ hs, ha⟩
      · rintro ⟨s, hs, ha⟩
        rcases List.mem_cons.mp hs with rfl | hs
        · exact absurd (hu s (List.mem_cons_self _ _) hx) ha
        · exact ⟨s, hs, ha⟩
    · rw [if_neg hx]
      constructor
      · rintro ⟨s, hs, ha⟩
        rcases List.mem_cons.mp hs with rfl | hs
        · exact ⟨s, List.mem_cons_self _ _, ha⟩
        · obtain ⟨t, ht, hta⟩ := (ih hxs).mp ⟨s, hs, ha⟩
          exact ⟨t, List.mem_cons_of_mem _ ht, hta⟩
      · rintro ⟨s, hs, ha⟩
        rcases List.mem_cons.mp hs with rfl | hs
        · exact ⟨s, List.mem_cons_self _ _, ha⟩
        · obtain ⟨t, ht, hta⟩ := (ih hxs).mpr ⟨s, hs, ha⟩
          exact ⟨t, List.mem_cons_of_mem _ ht, hta⟩

/-- The teardown of a session whose sink is not armed keeps the invariant. -/
theorem invariant_unregister_unarmed (g : Globals) (socket : Nat) (h : registry_invariant g)
    (hu : ∀ s ∈ g.debug_sockets, s.socket = socket → s.address = none) :
    registry_invariant (unregister_debug_socket g (some socket)) := by
  unfold registry_invariant unregister_debug_socket at *
  dsimp only
  rw [some_armed_remove socket _ hu]
  exact h

/-- C10 (code defect): from the initial registry, a session registers its sink
(socket 10), arms it with `+DEBUG 127.0.0.1:9000` and is torn down while the sink is
armed.  The teardown (lines 844-862) removes the sink and does not touch the switch:
afterwards the registry is empty, no sink is armed, and debugging is still switched
on, against the invariant, which held up to the teardown. -/
theorem teardown_leaves_debugging_on :
    ∃ out,
      read_line_cb sample_engine
          (register_debug_socket (gst_launch_remote_init ⟨[], false, 0⟩) 10)
          sample_session (some "+DEBUG 127.0.0.1:9000".toList) = .ok out ∧
      registry_invariant out.globals ∧
      out.globals.debug_active = true ∧
      (unregister_debug_socket out.globals sample_session.debug_socket).debug_sockets = [] ∧
      (unregister_debug_socket out.globals sample_session.debug_socket).debug_active = true ∧
      ¬ some_armed (unregister_debug_socket out.globals sample_session.debug_socket).debug_sockets ∧
      ¬ registry_invariant (unregister_debug_socket out.globals sample_session.debug_socket) := by
  refine ⟨⟨⟨[⟨10, some ⟨"127.0.0.1".toList, 9000⟩⟩], true, GST_LEVEL_DEBUG⟩, sample_session,
    [.write "OK\n".toList, .read_line_async]⟩, rfl, ?_, rfl, rfl, rfl, ?_, ?_⟩
  · exact ⟨fun _ => ⟨_, List.mem_singleton.mpr rfl, by simp⟩, fun _ => rfl⟩
  · rintro ⟨s, hs, _⟩
    cases hs
  · intro h
    obtain ⟨s, hs, _⟩ := h.mp rfl
    cases hs

/-! ## Connections (C11) -/

theorem incoming_accepted (self : GstLaunchRemote) (c d o : Nat)
    (h : self.connection = none) :
    incoming_cb self c d o
      = (true, { self with connection := some c, distream := some d, ostream := some o },
          [.read_line_async]) := by
  unfold incoming_cb
  rw [h]

theorem acknowledge_unwritten (env : Engine) (d : Dispatch)
    (hok : env.g_output_stream_write_all "OK\n".toList = false)
    (hnok : env.g_output_stream_write_all "NOK\n".toList = false) :
    (acknowledge env d).self = handle_eof d.self := by
  rw [acknowledge_self]
  cases d.ok
  · simp only [Bool.false_eq_true, if_false, hnok]
  · simp only [if_true, hok, Bool.false_eq_true, if_false]

/-- C11: for every session with an open controller connection, `incoming_cb` refuses a
further connection (it returns FALSE) and leaves the whole session as it is, the
stored connection, its streams and all pipeline state included, and asks for nothing.
After the open connection has ended, at end of stream or on a read error (`read_line_cb`
without a line) or on a failed write of an answer, no connection is stored and the
next `incoming_cb` takes the new connection, stores it with its streams and starts
reading. -/
theorem second_connection_refused (env : Engine) (g : Globals) (self : GstLaunchRemote)
    (c d o : Nat) (h : self.connection ≠ none) :
    incoming_cb self c d o = (false, self, []) ∧
    (∃ out, read_line_cb env g self none = .ok out ∧ out.self.connection = none ∧
      incoming_cb out.self c d o
        = (true, { self with connection := some c, distream := some d, ostream := some o },
            [.read_line_async])) ∧
    (∀ line out, read_line_cb env g self (some line) = .ok out →
      env.g_output_stream_write_all "OK\n".toList = false →
      env.g_output_stream_write_all "NOK\n".toList = false →
      out.self.connection = none ∧
      incoming_cb out.self c d o
        = (true, { out.self with connection := some c, distream := some d, ostream := some o },
            [.read_line_async])) := by
  refine ⟨?_, ?_, ?_⟩
  · unfold incoming_cb
    cases hc : self.connection with
    | none => exact absurd hc h
    | some x => rfl
  · exact ⟨⟨g, handle_eof self, []⟩, rfl, rfl, incoming_accepted _ c d o rfl⟩
  · intro line out hout hok hnok
    unfold read_line_cb at hout
    dsimp only at hout
    split at hout
    · cases hout
    · rename_i dd hd
      injection hout with hout
      subst hout
      have hs := acknowledge_unwritten env dd hok hnok
      have hnone : (acknowledge env dd).self.connection = none := by rw [hs]; rfl
      exact ⟨hnone, incoming_accepted _ c d o hnone⟩

/-- C11 at the sample session, whose connection is open. -/
theorem second_connection_refused_witness :
    sample_session.connection ≠ none ∧
    incoming_cb sample_session 5 6 7 = (false, sample_session, []) ∧
    ∃ out, read_line_cb sample_engine sample_globals sample_session none = .ok out ∧
      (incoming_cb out.self 5 6 7).1 = true := by
  have h : sample_session.connection ≠ none := by decide
  obtain ⟨h1, ⟨out, h2, _, h4⟩, _⟩ :=
    second_connection_refused sample_engine sample_globals sample_session 5 6 7 h
  exact ⟨h, h1, out, h2, by rw [h4]⟩

/-! ## The window handle (C12, C13, C14) -/

theorem check_initialization_fields (self : GstLaunchRemote) :
    (check_initialization_complete self).1
      = { self with initialized := (check_initialization_complete self).1.initialized } := by
  unfold check_initialization_complete
  split <;> rfl

/-- The session after `gst_launch_remote_set_window_handle` with the null handle, but
for the ready flag. -/
theorem set_window_handle_null (env : Engine) (self : GstLaunchRemote) :
    (gst_launch_remote_set_window_handle env self 0).1
      = { self with
          window_handle := 0
          pipeline := if self.video_sink = none then self.pipeline else none
          video_sink := none
          initialized := (gst_launch_remote_set_window_handle env self 0).1.initialized } := by
  unfold gst_launch_remote_set_window_handle
  have hc : ¬ (self.window_handle ≠ 0 ∧ self.window_handle = 0) := fun h => h.1 h.2
  rw [if_neg hc]
  dsimp only
  rw [check_initialization_fields]
  cases hv : self.video_sink <;> by_cases hw : self.window_handle = 0 <;> simp [hv, hw]

/-- C12 (as stated, refuted): a session with a pipeline that has not announced a video
sink keeps its pipeline handle through `gst_launch_remote_set_window_handle` with the
null handle, when the stored handle was null and when it was not. -/
theorem window_handle_null_counterexample :
    fresh_session.pipeline = some 4 ∧ fresh_session.video_sink = none ∧
    (gst_launch_remote_set_window_handle sample_engine fresh_session 0).1.pipeline = some 4 ∧
    (gst_launch_remote_set_window_handle sample_engine
      { fresh_session with window_handle := 1 } 0).1.pipeline = some 4 := by
  exact ⟨rfl, rfl, rfl, rfl⟩

/-- C12 (amended): for every session state, after
`gst_launch_remote_set_window_handle` with the null handle the stored handle is null
and the session has no video sink; it has no pipeline handle either when it had a video
sink (the sink's window is reset and the pipeline is set to NULL and dropped), and its
pipeline handle is the one it had when no video sink had been announced.  Nothing else
but the ready flag changes. -/
theorem window_handle_null_tears_down_surface (env : Engine) (self : GstLaunchRemote) :
    (gst_launch_remote_set_window_handle env self 0).1.window_handle = 0 ∧
    (gst_launch_remote_set_window_handle env self 0).1.video_sink = none ∧
    (self.video_sink ≠ none →
      (gst_launch_remote_set_window_handle env self 0).1.pipeline = none) ∧
    (self.video_sink = none →
      (gst_launch_remote_set_window_handle env self 0).1.pipeline = self.pipeline) ∧
    (∀ v, self.video_sink = some v →
      (gst_launch_remote_set_window_handle env self 0).2
        = [.overlay_set_window_handle v 0] ++ (gst_element_set_state env self.pipeline .NULL).2) ∧
    { (gst_launch_remote_set_window_handle env self 0).1 with
        initialized := self.initialized }
      = { self with
          window_handle := 0
          pipeline := if self.video_sink = none then self.pipeline else none
          video_sink := none } := by
  have h := set_window_handle_null env self
  refine ⟨?_, ?_, ?_, ?_, ?_, ?_⟩
  · rw [h]
  · rw [h]
  · intro hv; rw [h]; simp [hv]
  · intro hv; rw [h]; simp [hv]
  · intro v hv
    unfold gst_launch_remote_set_window_handle
    have hc : ¬ (self.window_handle ≠ 0 ∧ self.window_handle = 0) := fun h => h.1 h.2
    rw [if_neg hc]
    by_cases hw : self.window_handle = 0 <;>
      simp [hv, hw, check_initialization_complete]
  · rw [h]

theorem check_initialization_window (self : GstLaunchRemote) :
    (check_initialization_complete self).1.window_handle = self.window_handle := by
  rw [check_initialization_fields]

theorem set_window_handle_stored (env : Engine) (self : GstLaunchRemote) (handle : Nat) :
    (gst_launch_remote_set_window_handle env self handle).1.window_handle = handle := by
  unfold gst_launch_remote_set_window_handle
  by_cases hc : self.window_handle ≠ 0 ∧ self.window_handle = handle
  · rw [if_pos hc]
    exact hc.2
  · rw [if_neg hc]
    dsimp only
    rw [check_initialization_window]
    split
    · split <;> rfl
    · rfl

/-- C13: for every session state and every non-null handle `h`, a second
`gst_launch_remote_set_window_handle` with `h` directly after a first one leaves the
whole session as the first call left it (the ready flag, the stored handle, the
pipeline handle and the video sink included), whatever the engine answers, and all it
asks for is a redraw of the video sink, when there is one. -/
theorem same_window_handle_twice (env1 env2 : Engine) (self : GstLaunchRemote) (h : Nat)
    (hh : h ≠ 0) :
    (gst_launch_remote_set_window_handle env2
        (gst_launch_remote_set_window_handle env1 self h).1 h).1
      = (gst_launch_remote_set_window_handle env1 self h).1 ∧
    (gst_launch_remote_set_window_handle env2
        (gst_launch_remote_set_window_handle env1 self h).1 h).2
      = (match (gst_launch_remote_set_window_handle env1 self h).1.video_sink with
          | some v => [.overlay_expose v]
          | none => []) := by
  have hs := set_window_handle_stored env1 self h
  have hc : (gst_launch_remote_set_window_handle env1 self h).1.window_handle ≠ 0 ∧
      (gst_launch_remote_set_window_handle env1 self h).1.window_handle = h := by
    rw [hs]; exact ⟨hh, rfl⟩
  generalize gst_launch_remote_set_window_handle env1 self h = r at hc ⊢
  constructor
  · unfold gst_launch_remote_set_window_handle
    rw [if_pos hc]
  · unfold gst_launch_remote_set_window_handle
    rw [if_pos hc]

/-- C13 at the sample session and the handle 1. -/
theorem same_window_handle_twice_witness :
    (1 : Nat) ≠ 0 ∧
    (gst_launch_remote_set_window_handle failing_engine
        (gst_launch_remote_set_window_handle sample_engine sample_session 1).1 1).1
      = (gst_launch_remote_set_window_handle sample_engine sample_session 1).1 :=
  ⟨by decide, (same_window_handle_twice sample_engine failing_engine sample_session 1
    (by decide)).1⟩

theorem ready_calls_append (a b : List Effect) :
    ready_calls (a ++ b) = ready_calls a + ready_calls b := by
  induction a with
  | nil => simp [ready_calls]
  | cons e es ih =>
    cases e <;> simp [ready_calls, ih]
    omega

theorem ready_calls_set_message (self : GstLaunchRemote) (m : List Char) :
    ready_calls (set_message self m) = 0 := by
  unfold set_message
  split <;> rfl

theorem ready_calls_element_set_state (env : Engine) (p : Option Nat) (s : GstState) :
    ready_calls (gst_element_set_state env p s).2 = 0 := by
  cases p <;> rfl

theorem ready_untouched_refl (self : GstLaunchRemote) : ready_untouched self self [] :=
  ⟨rfl, rfl, rfl⟩

theorem ready_untouched_trans (a b c : GstLaunchRemote) (e1 e2 : List Effect)
    (h1 : ready_untouched a b e1) (h2 : ready_untouched b c e2) :
    ready_untouched a c (e1 ++ e2) :=
  ⟨h2.1.trans h1.1, h2.2.1.trans h1.2.1, by rw [ready_calls_append, h1.2.2, h2.2.2]⟩

theorem ready_calls_set_pipeline (env : Engine) (self : GstLaunchRemote)
    (ps : Option (List Char)) :
    ready_calls (gst_launch_remote_set_pipeline env self ps).2 = 0 := by
  unfold gst_launch_remote_set_pipeline
  cases self.pipeline <;> cases ps <;> simp only [] <;> try rfl
  all_goals
    split
    · simp [ready_calls_append, ready_calls_set_message, ready_calls]
    · split
      · simp [ready_calls_append, ready_calls]
      · split <;> split <;> simp [ready_calls_append, ready_calls]

theorem set_pipeline_none (env : Engine) (self : GstLaunchRemote) :
    (gst_launch_remote_set_pipeline env self none).1
      = { self with
          pipeline_string := none
          pipeline := none
          video_sink := if self.pipeline = none then self.video_sink else none
          target_state := .NULL } := by
  unfold gst_launch_remote_set_pipeline
  cases hp : self.pipeline <;> simp_all

theorem ready_set_pipeline (env : Engine) (self : GstLaunchRemote)
    (ps : Option (List Char)) :
    ready_untouched self (gst_launch_remote_set_pipeline env self ps).1
      (gst_launch_remote_set_pipeline env self ps).2 := by
  refine ⟨?_, ?_, ready_calls_set_pipeline env self ps⟩
  · cases ps with
    | none => rw [set_pipeline_none]
    | some l => rw [set_pipeline_some]
  · cases ps with
    | none => rw [set_pipeline_none]
    | some l => rw [set_pipeline_some]

theorem ready_set_target_state (env : Engine) (self : GstLaunchRemote) (t : GstState)
    (name : List Char) :
    ready_untouched self (set_target_state env self t name).1
      (set_target_state env self t name).2 := by
  unfold set_target_state
  cases self.pipeline_string with
  | none => exact ready_untouched_refl self
  | some str =>
    dsimp only
    cases self.pipeline with
    | none =>
      obtain ⟨h1, h2, h3⟩ := ready_set_pipeline env self (some str)
      refine ⟨h1, h2, ?_⟩
      simp only [ready_calls_append, h3, ready_calls_element_set_state]
      split
      · simp [ready_calls_set_message]
      · rfl
    | some p =>
      refine ⟨rfl, rfl, ?_⟩
      simp only [ready_calls_append, ready_calls_element_set_state]
      split
      · simp [ready_calls_set_message, ready_calls]
      · rfl

theorem ready_seek (env : Engine) (self : GstLaunchRemote) (ms : Int) :
    ready_untouched self (gst_launch_remote_seek env self ms).1
      (gst_launch_remote_seek env self ms).2 := by
  refine ⟨by rw [seek_self], by rw [seek_self], ?_⟩
  unfold gst_launch_remote_seek
  cases self.pipeline with
  | none => rfl
  | some p => simp only [ready_calls_append]; split <;> simp [ready_calls_set_message, ready_calls]

theorem ready_command_debug_on (env : Engine) (g : Globals) (self : GstLaunchRemote)
    (line : List Char) :
    ready_untouched self (command_debug_on env g self line).self
      (command_debug_on env g self line).effects := by
  unfold command_debug_on
  dsimp only
  split
  · exact ready_untouched_refl self
  · split
    · split
      · exact ready_untouched_refl self
      · split <;> exact ready_untouched_refl self
    · exact ready_untouched_refl self

theorem ready_command_seek (env : Engine) (g : Globals) (self : GstLaunchRemote)
    (line : List Char) :
    ready_untouched self (command_seek env g self line).self
      (command_seek env g self line).effects := by
  unfold command_seek
  dsimp only
  split
  · exact ready_seek env self _
  · exact ready_untouched_refl self

theorem ready_command_netclock (env : Engine) (g : Globals) (self : GstLaunchRemote)
    (line : List Char) :
    ready_untouched self (command_netclock env g self line).self
      (command_netclock env g self line).effects := by
  unfold command_netclock
  dsimp only
  split <;> exact ⟨rfl, rfl, rfl⟩

theorem ready_command_basetime (g : Globals) (self : GstLaunchRemote) (line : List Char) :
    ready_untouched self (command_basetime g self line).self
      (command_basetime g self line).effects := by
  unfold command_basetime
  dsimp only
  split
  · exact ⟨rfl, rfl, rfl⟩
  · refine ⟨rfl, rfl, ?_⟩
    cases self.pipeline <;> rfl

theorem ready_dispatch (env : Engine) (g : Globals) (self : GstLaunchRemote)
    (line : List Char) (d : Dispatch) (h : read_line_cb_dispatch env g self line = .ok d) :
    ready_untouched self d.self d.effects := by
  unfold read_line_cb_dispatch at h
  split at h
  · injection h with h; subst h; exact ready_command_debug_on env g self line
  split at h
  · injection h with h; subst h; exact ready_untouched_refl self
  split at h
  · injection h with h; subst h; exact ready_set_target_state env self _ _
  split at h
  · injection h with h; subst h; exact ready_set_target_state env self _ _
  split at h
  · injection h with h; subst h; exact ready_command_seek env g self line
  split at h
  · injection h with h; subst h; exact ready_command_netclock env g self line
  split at h
  · injection h with h; subst h; exact ready_command_basetime g self line
  split at h
  · unfold command_stat at h
    split at h
    · cases h
    · injection h with h; subst h; exact ⟨rfl, rfl, rfl⟩
  split at h
  · injection h with h; subst h; exact ready_set_pipeline env self _
  · injection h with h; subst h; exact ready_untouched_refl self

theorem ready_acknowledge (env : Engine) (d : Dispatch) :
    ready_untouched d.self (acknowledge env d).self
      ((acknowledge env d).effects.drop d.effects.length) := by
  unfold acknowledge
  dsimp only
  split <;> split <;> simp [ready_untouched, ready_calls, handle_eof]

theorem ready_read_line_cb (env : Engine) (g : Globals) (self : GstLaunchRemote)
    (line : Option (List Char)) (out : Outcome) (h : read_line_cb env g self line = .ok out) :
    ready_untouched self out.self out.effects := by
  unfold read_line_cb at h
  cases line with
  | none =>
    injection h with h
    subst h
    exact ⟨rfl, rfl, rfl⟩
  | some l =>
    dsimp only at h
    split at h
    · cases h
    · rename_i d hd
      injection h with h
      subst h
      obtain ⟨tail, ht⟩ := acknowledge_effects env d
      have h2 := ready_acknowledge env d
      rw [ht, List.drop_left] at h2
      rw [ht]
      exact ready_untouched_trans _ _ _ _ _ (ready_dispatch env g self l d hd) h2

theorem ready_buffering (env : Engine) (self : GstLaunchRemote) (p : Int) :
    ready_untouched self (buffering_cb env self p).1 (buffering_cb env self p).2 := by
  unfold buffering_cb
  split
  · exact ready_untouched_refl self
  · split
    · exact ⟨rfl, rfl, by
        simp [ready_calls_append, ready_calls_element_set_state, ready_calls_set_message]⟩
    · split
      · exact ⟨rfl, rfl, ready_calls_element_set_state _ _ _⟩
      · split
        · exact ⟨rfl, rfl, ready_calls_set_message _ _⟩
        · exact ready_untouched_refl self

theorem ready_clock_lost (env : Engine) (self : GstLaunchRemote) :
    ready_untouched self (clock_lost_cb env self).1 (clock_lost_cb env self).2 := by
  unfold clock_lost_cb
  split
  · exact ⟨rfl, rfl, by simp [ready_calls_append, ready_calls_element_set_state]⟩
  · exact ready_untouched_refl self

theorem ready_sync_message (self : GstLaunchRemote) (w : Bool) (e : Nat) (p : Bool) :
    ready_untouched self (sync_message_cb self w e p).1 (sync_message_cb self w e p).2 := by
  unfold sync_message_cb
  cases w <;> cases p <;> exact ⟨rfl, rfl, rfl⟩

theorem ready_update_position (env : Engine) (self : GstLaunchRemote) :
    ready_untouched self (update_position_cb env self).2.1 (update_position_cb env self).2.2 := by
  unfold update_position_cb
  split <;> exact ⟨rfl, rfl, rfl⟩

theorem ready_incoming (self : GstLaunchRemote) (c d o : Nat) :
    ready_untouched self (incoming_cb self c d o).2.1 (incoming_cb self c d o).2.2 := by
  unfold incoming_cb
  cases self.connection <;> exact ⟨rfl, rfl, rfl⟩

/-- Every operation but `set_window_handle` leaves the ready flag and the stored handle
alone and does not invoke the `initialized` callback. -/
theorem ready_step (env : Engine) (g : Globals) (self : GstLaunchRemote) (op : SessionOp)
    (out : Outcome) (hop : ∀ h, op ≠ .set_window_handle h)
    (hs : session_step env g self op = .ok out) :
    ready_untouched self out.self out.effects := by
  cases op with
  | set_window_handle h => exact absurd rfl (hop h)
  | line l => exact ready_read_line_cb env g self l out hs
  | play => injection hs with hs; subst hs; exact ready_set_target_state env self _ _
  | pause => injection hs with hs; subst hs; exact ready_set_target_state env self _ _
  | seek ms => injection hs with hs; subst hs; exact ready_seek env self ms
  | incoming c d o => injection hs with hs; subst hs; exact ready_incoming self c d o
  | error src m =>
    injection hs with hs
    subst hs
    exact ⟨rfl, rfl, by
      simp [error_cb, ready_calls_append, ready_calls_element_set_state,
        ready_calls_set_message]⟩
  | eos =>
    injection hs with hs
    subst hs
    exact ⟨rfl, rfl, ready_calls_element_set_state _ _ _⟩
  | buffering p => injection hs with hs; subst hs; exact ready_buffering env self p
  | clock_lost => injection hs with hs; subst hs; exact ready_clock_lost env self
  | sync_message w e p => injection hs with hs; subst hs; exact ready_sync_message self w e p
  | position_tick => injection hs with hs; subst hs; exact ready_update_position env self

/-- What `gst_launch_remote_set_window_handle` does to the ready flag: it keeps the
invariant, invokes the callback at most once, and after a change from a non-null
handle to another handle the flag tells whether the new handle is non-null and the
loop runs. -/
theorem ready_set_window_handle (env : Engine) (self : GstLaunchRemote) (h : Nat) :
    (ready_invariant self →
      ready_invariant (gst_launch_remote_set_window_handle env self h).1) ∧
    ready_calls (gst_launch_remote_set_window_handle env self h).2 ≤ 1 ∧
    (self.window_handle ≠ 0 → self.window_handle ≠ h →
      (gst_launch_remote_set_window_handle env self h).1.initialized
        = (decide (h ≠ 0) && self.main_loop.isSome)) := by
  unfold gst_launch_remote_set_window_handle ready_invariant
  by_cases hc : self.window_handle ≠ 0 ∧ self.window_handle = h
  · rw [if_pos hc]
    refine ⟨fun hi => hi, ?_, fun h1 h2 => absurd hc.2 h2⟩
    cases self.video_sink <;> simp [ready_calls]
  · rw [if_neg hc]
    refine ⟨?_, ?_, ?_⟩
    · intro hinv
      by_cases hw : self.window_handle = 0 <;> by_cases hh : h = 0 <;>
        cases hv : self.video_sink <;> cases hm : self.main_loop <;>
        cases hi : self.initialized <;>
        simp_all [check_initialization_complete]
    · by_cases hw : self.window_handle = 0 <;> by_cases hh : h = 0 <;>
        cases hv : self.video_sink <;> cases hm : self.main_loop <;>
        cases hi : self.initialized <;> cases ha : self.app_context.initialized <;>
        simp_all [check_initialization_complete, ready_calls, ready_calls_append,
          ready_calls_element_set_state]
    · intro h1 h2
      by_cases hh : h = 0 <;>
        cases hv : self.video_sink <;> cases hm : self.main_loop <;>
        simp_all [check_initialization_complete]

theorem ready_run (g : Globals) (self : GstLaunchRemote) (ops : List (Engine × SessionOp))
    (out : Outcome) (hinv : ready_invariant self) (hrun : session_run g self ops = .ok out) :
    ready_invariant out.self ∧ ready_calls out.effects ≤ window_changes ops := by
  induction ops generalizing g self out with
  | nil =>
    injection hrun with hrun
    subst hrun
    exact ⟨hinv, Nat.le_refl _⟩
  | cons eo ops ih =>
    obtain ⟨env, op⟩ := eo
    unfold session_run at hrun
    split at hrun
    · cases hrun
    · rename_i o1 h1
      split at hrun
      · cases hrun
      · rename_i o2 h2
        injection hrun with hrun
        subst hrun
        dsimp only
        rw [ready_calls_append]
        by_cases hop : ∃ h, op = .set_window_handle h
        · obtain ⟨h, rfl⟩ := hop
          injection h1 with h1
          subst h1
          obtain ⟨hk, hc, _⟩ := ready_set_window_handle env self h
          obtain ⟨hi, hn⟩ := ih g _ o2 (hk hinv) h2
          refine ⟨hi, ?_⟩
          simp only [window_changes]
          omega
        · have hop2 : ∀ h, op ≠ .set_window_handle h := fun h e => hop ⟨h, e⟩
          obtain ⟨ha, hb, hc⟩ := ready_step env g self op o1 hop2 h1
          have hinv1 : ready_invariant o1.self := by
            unfold ready_invariant
            rw [ha, hb]
            exact hinv
          obtain ⟨hi, hn⟩ := ih o1.globals o1.self o2 hinv1 h2
          refine ⟨hi, ?_⟩
          have hw : window_changes ((env, op) :: ops) = window_changes ops := by
            cases op <;> first
              | rfl
              | exact absurd rfl (hop2 _)
          rw [hw, hc]
          omega

theorem loop_set_pipeline (env : Engine) (self : GstLaunchRemote) (ps : Option (List Char)) :
    (gst_launch_remote_set_pipeline env self ps).1.main_loop = self.main_loop ∧
    (gst_launch_remote_set_pipeline env self ps).1.app_context = self.app_context := by
  cases ps with
  | none => rw [set_pipeline_none]; exact ⟨rfl, rfl⟩
  | some l => rw [set_pipeline_some]; exact ⟨rfl, rfl⟩

theorem loop_set_target_state (env : Engine) (self : GstLaunchRemote) (t : GstState)
    (name : List Char) :
    (set_target_state env self t name).1.main_loop = self.main_loop ∧
    (set_target_state env self t name).1.app_context = self.app_context := by
  unfold set_target_state
  cases self.pipeline_string with
  | none => exact ⟨rfl, rfl⟩
  | some str =>
    dsimp only
    cases self.pipeline with
    | none => exact loop_set_pipeline env self (some str)
    | some p => exact ⟨rfl, rfl⟩

theorem loop_dispatch (env : Engine) (g : Globals) (self : GstLaunchRemote)
    (line : List Char) (d : Dispatch) (h : read_line_cb_dispatch env g self line = .ok d) :
    d.self.main_loop = self.main_loop ∧ d.self.app_context = self.app_context := by
  unfold read_line_cb_dispatch at h
  split at h
  · injection h with h; subst h
    unfold command_debug_on
    dsimp only
    split
    · exact ⟨rfl, rfl⟩
    · split
      · split
        · exact ⟨rfl, rfl⟩
        · split <;> exact ⟨rfl, rfl⟩
      · exact ⟨rfl, rfl⟩
  split at h
  · injection h with h; subst h; exact ⟨rfl, rfl⟩
  split at h
  · injection h with h; subst h; exact loop_set_target_state env self _ _
  split at h
  · injection h with h; subst h; exact loop_set_target_state env self _ _
  split at h
  · injection h with h; subst h
    unfold command_seek
    dsimp only
    split
    · rw [seek_self]; exact ⟨rfl, rfl⟩
    · exact ⟨rfl, rfl⟩
  split at h
  · injection h with h; subst h
    unfold command_netclock
    dsimp only
    split <;> exact ⟨rfl, rfl⟩
  split at h
  · injection h with h; subst h
    unfold command_basetime
    dsimp only
    split <;> exact ⟨rfl, rfl⟩
  split at h
  · unfold command_stat at h
    split at h
    · cases h
    · injection h with h; subst h; exact ⟨rfl, rfl⟩
  split at h
  · injection h with h; subst h; exact loop_set_pipeline env self _
  · injection h with h; subst h; exact ⟨rfl, rfl⟩

theorem loop_read_line_cb (env : Engine) (g : Globals) (self : GstLaunchRemote)
    (line : Option (List Char)) (out : Outcome) (h : read_line_cb env g self line = .ok out) :
    out.self.main_loop = self.main_loop ∧ out.self.app_context = self.app_context := by
  unfold read_line_cb at h
  cases line with
  | none =>
    injection h with h
    subst h
    exact ⟨rfl, rfl⟩
  | some l =>
    dsimp only at h
    split at h
    · cases h
    · rename_i d hd
      injection h with h
      subst h
      obtain ⟨h1, h2⟩ := loop_dispatch env g self l d hd
      rcases acknowledge_self_cases env d with e | e
      · rw [e]; exact ⟨h1, h2⟩
      · rw [e]; exact ⟨h1, h2⟩

/-- No operation changes the main loop or the application callbacks of a session. -/
theorem loop_step (env : Engine) (g : Globals) (self : GstLaunchRemote) (op : SessionOp)
    (out : Outcome) (hs : session_step env g self op = .ok out) :
    out.self.main_loop = self.main_loop ∧ out.self.app_context = self.app_context := by
  cases op with
  | set_window_handle h =>
    injection hs with hs
    subst hs
    unfold gst_launch_remote_set_window_handle check_initialization_complete
    dsimp only
    split
    · exact ⟨rfl, rfl⟩
    · split <;> split <;> (try split) <;> (try split) <;> exact ⟨rfl, rfl⟩
  | line l => exact loop_read_line_cb env g self l out hs
  | play => injection hs with hs; subst hs; exact loop_set_target_state env self _ _
  | pause => injection hs with hs; subst hs; exact loop_set_target_state env self _ _
  | seek ms => injection hs with hs; subst hs; dsimp only; rw [seek_self]; exact ⟨rfl, rfl⟩
  | incoming c d o =>
    injection hs with hs
    subst hs
    unfold incoming_cb
    cases self.connection <;> exact ⟨rfl, rfl⟩
  | error src m => injection hs with hs; subst hs; exact ⟨rfl, rfl⟩
  | eos => injection hs with hs; subst hs; exact ⟨rfl, rfl⟩
  | buffering p =>
    injection hs with hs
    subst hs
    unfold buffering_cb
    split
    · exact ⟨rfl, rfl⟩
    · split
      · exact ⟨rfl, rfl⟩
      · split
        · exact ⟨rfl, rfl⟩
        · split <;> exact ⟨rfl, rfl⟩
  | clock_lost =>
    injection hs with hs
    subst hs
    unfold clock_lost_cb
    split <;> exact ⟨rfl, rfl⟩
  | sync_message w e p =>
    injection hs with hs
    subst hs
    unfold sync_message_cb
    cases w <;> exact ⟨rfl, rfl⟩
  | position_tick =>
    injection hs with hs
    subst hs
    unfold update_position_cb
    split <;> exact ⟨rfl, rfl⟩

/-- What `gst_launch_remote_set_window_handle` does to the stored handle, to the ready
flag and to the callback, exactly. -/
theorem set_window_handle_exact (env : Engine) (self : GstLaunchRemote) (h : Nat) :
    (gst_launch_remote_set_window_handle env self h).1.window_handle = h ∧
    (gst_launch_remote_set_window_handle env self h).1.initialized
      = (if self.window_handle ≠ 0 ∧ self.window_handle = h then self.initialized
         else ((if self.window_handle ≠ 0 then false else self.initialized) ||
           (decide (h ≠ 0) && self.main_loop.isSome))) ∧
    ready_calls (gst_launch_remote_set_window_handle env self h).2
      = (if self.window_handle ≠ 0 ∧ self.window_handle = h then 0
         else if h ≠ 0 ∧ self.main_loop.isSome = true ∧ self.app_context.initialized = true ∧
             (self.window_handle ≠ 0 ∨ self.initialized = false) then 1
         else 0) := by
  unfold gst_launch_remote_set_window_handle
  by_cases hc : self.window_handle ≠ 0 ∧ self.window_handle = h
  · rw [if_pos hc, if_pos hc, if_pos hc]
    refine ⟨hc.2, rfl, ?_⟩
    cases self.video_sink <;> simp [ready_calls]
  · rw [if_neg hc, if_neg hc, if_neg hc]
    refine ⟨?_, ?_, ?_⟩
    · by_cases hw : self.window_handle = 0 <;> by_cases hh : h = 0 <;>
        cases hv : self.video_sink <;> cases hm : self.main_loop <;>
        cases hi : self.initialized <;>
        simp_all [check_initialization_complete]
    · by_cases hw : self.window_handle = 0 <;> by_cases hh : h = 0 <;>
        cases hv : self.video_sink <;> cases hm : self.main_loop <;>
        cases hi : self.initialized <;>
        simp_all [check_initialization_complete]
    · by_cases hw : self.window_handle = 0 <;> by_cases hh : h = 0 <;>
        cases hv : self.video_sink <;> cases hm : self.main_loop <;>
        cases hi : self.initialized <;> cases ha : self.app_context.initialized <;>
        simp_all [check_initialization_complete, ready_calls, ready_calls_append,
          ready_calls_element_set_state]

/-- With a running loop and a callback, the callback is invoked once for every
`set_window_handle` with a non-null handle other than the stored one, and never
otherwise. -/
theorem ready_run_exact (g : Globals) (self : GstLaunchRemote)
    (ops : List (Engine × SessionOp)) (out : Outcome) (hinv : ready_invariant self)
    (hloop : self.main_loop.isSome = true) (hcb : self.app_context.initialized = true)
    (hrun : session_run g self ops = .ok out) :
    ready_calls out.effects = announcements self.window_handle ops := by
  induction ops generalizing g self out with
  | nil =>
    injection hrun with hrun
    subst hrun
    rfl
  | cons eo ops ih =>
    obtain ⟨env, op⟩ := eo
    unfold session_run at hrun
    split at hrun
    · cases hrun
    · rename_i o1 h1
      split at hrun
      · cases hrun
      · rename_i o2 h2
        injection hrun with hrun
        subst hrun
        dsimp only
        rw [ready_calls_append]
        obtain ⟨hl1, hl2⟩ := loop_step env g self op o1 h1
        by_cases hop : ∃ h, op = .set_window_handle h
        · obtain ⟨h, rfl⟩ := hop
          injection h1 with h1
          subst h1
          obtain ⟨hk, _, _⟩ := ready_set_window_handle env self h
          obtain ⟨e1, _, e3⟩ := set_window_handle_exact env self h
          have hn := ih g _ o2 (hk hinv) (by rw [hl1]; exact hloop) (by rw [hl2]; exact hcb) h2
          rw [hn]
          dsimp only
          rw [e1, e3]
          simp only [announcements]
          have hi : self.window_handle = 0 → self.initialized = false := by
            intro hw
            cases hini : self.initialized with
            | false => rfl
            | true => exact absurd hw (hinv hini)
          congr 1
          by_cases hc : self.window_handle ≠ 0 ∧ self.window_handle = h
          · rw [if_pos hc, if_neg (by intro hx; exact hx.2 hc.2.symm)]
          · rw [if_neg hc]
            by_cases hh : h ≠ 0 ∧ h ≠ self.window_handle
            · rw [if_pos hh, if_pos]
              refine ⟨hh.1, hloop, hcb, ?_⟩
              by_cases hw : self.window_handle = 0
              · exact Or.inr (hi hw)
              · exact Or.inl hw
            · rw [if_neg hh, if_neg]
              intro hx
              apply hh
              refine ⟨hx.1, fun e => ?_⟩
              apply hc
              refine ⟨?_, e.symm⟩
              rw [← e]; exact hx.1
        · have hop2 : ∀ h, op ≠ .set_window_handle h := fun h e => hop ⟨h, e⟩
          obtain ⟨ha, hb, hc⟩ := ready_step env g self op o1 hop2 h1
          have hinv1 : ready_invariant o1.self := by
            unfold ready_invariant
            rw [ha, hb]
            exact hinv
          have hn := ih o1.globals o1.self o2 hinv1 (by rw [hl1]; exact hloop)
            (by rw [hl2]; exact hcb) h2
          have hw : announcements self.window_handle ((env, op) :: ops)
              = announcements self.window_handle ops := by
            cases op <;> first
              | rfl
              | exact absurd rfl (hop2 _)
          rw [hw, hc, hn, hb, Nat.zero_add]

/-- C14 (as stated, refuted): on a session with a running loop, two
`set_window_handle` calls with different non-null handles invoke the `initialized`
callback twice, and a call with the null handle after a call with a non-null handle
takes the ready flag from true back to false. -/
theorem ready_flag_counterexample :
    fresh_session.main_loop ≠ none ∧
    (∃ out, session_run sample_globals fresh_session
        [(sample_engine, .set_window_handle 1), (sample_engine, .set_window_handle 2)]
          = .ok out ∧
      out.self.initialized = true ∧ ready_calls out.effects = 2) ∧
    (∃ out, session_run sample_globals fresh_session [(sample_engine, .set_window_handle 1)]
          = .ok out ∧
      out.self.initialized = true) ∧
    (∃ out, session_run sample_globals fresh_session
        [(sample_engine, .set_window_handle 1), (sample_engine, .set_window_handle 0)]
          = .ok out ∧
      out.self.initialized = false) := by
  refine ⟨by decide, ⟨_, rfl, rfl, rfl⟩, ⟨_, rfl, rfl⟩, ⟨_, rfl, rfl⟩⟩

/-- C14 (amended): over every sequence of session operations, whatever the engine
answers at each, from a session whose ready flag is set only with a window handle
stored: the ready flag is still set only while the stored handle is non-null, and the
`initialized` callback has been invoked at most once for each `set_window_handle`
operation of the sequence; with a running loop and a callback it has been invoked
exactly once for every `set_window_handle` whose handle is non-null and differs from the
handle stored before it, and for nothing else.  Only `set_window_handle` touches the
flag, the handle or the callback.  One call invokes the callback at most once; a call
that replaces a non-null handle by another handle leaves the flag telling whether the
new handle is non-null and the loop runs; a call with a non-null handle other than the
stored one, with a running loop, stores the handle, sets the flag and invokes the
callback exactly once when there is one; a call with the null handle or with the
stored handle invokes nothing.  The last part gives the stored handle, the flag and
the number of invocations after any call. -/
theorem ready_flag_follows_window_handle (g : Globals) (self : GstLaunchRemote)
    (ops : List (Engine × SessionOp)) (out : Outcome) (hinv : ready_invariant self)
    (hrun : session_run g self ops = .ok out) :
    ready_invariant out.self ∧
    ready_calls out.effects ≤ window_changes ops ∧
    (self.main_loop.isSome = true → self.app_context.initialized = true →
      ready_calls out.effects = announcements self.window_handle ops) ∧
    (∀ env g1 s op o, (∀ h, op ≠ .set_window_handle h) → session_step env g1 s op = .ok o →
      o.self.initialized = s.initialized ∧ o.self.window_handle = s.window_handle ∧
        ready_calls o.effects = 0) ∧
    (∀ env s h, ready_calls (gst_launch_remote_set_window_handle env s h).2 ≤ 1 ∧
      (s.window_handle ≠ 0 → s.window_handle ≠ h →
        (gst_launch_remote_set_window_handle env s h).1.initialized
          = (decide (h ≠ 0) && s.main_loop.isSome))) ∧
    (∀ env s h, ready_invariant s → h ≠ 0 → h ≠ s.window_handle →
      s.main_loop.isSome = true →
      (gst_launch_remote_set_window_handle env s h).1.window_handle = h ∧
      (gst_launch_remote_set_window_handle env s h).1.initialized = true ∧
      ready_calls (gst_launch_remote_set_window_handle env s h).2
        = (if s.app_context.initialized = true then 1 else 0)) ∧
    (∀ env s h, h = 0 ∨ h = s.window_handle →
      ready_calls (gst_launch_remote_set_window_handle env s h).2 = 0) ∧
    (∀ env s h,
      (gst_launch_remote_set_window_handle env s h).1.window_handle = h ∧
      (gst_launch_remote_set_window_handle env s h).1.initialized
        = (if s.window_handle ≠ 0 ∧ s.window_handle = h then s.initialized
           else ((if s.window_handle ≠ 0 then false else s.initialized) ||
             (decide (h ≠ 0) && s.main_loop.isSome))) ∧
      ready_calls (gst_launch_remote_set_window_handle env s h).2
        = (if s.window_handle ≠ 0 ∧ s.window_handle = h then 0
           else if h ≠ 0 ∧ s.main_loop.isSome = true ∧ s.app_context.initialized = true ∧
               (s.window_handle ≠ 0 ∨ s.initialized = false) then 1
           else 0)) := by
  obtain ⟨h1, h2⟩ := ready_run g self ops out hinv hrun
  refine ⟨h1, h2, fun hl hc => ready_run_exact g self ops out hinv hl hc hrun,
    fun env g1 s op o hop hs => ready_step env g1 s op o hop hs,
    fun env s h => (ready_set_window_handle env s h).2, ?_, ?_,
    fun env s h => set_window_handle_exact env s h⟩
  · intro env s h hi hh hne hl
    obtain ⟨e1, e2, e3⟩ := set_window_handle_exact env s h
    have hns : ¬ (s.window_handle ≠ 0 ∧ s.window_handle = h) := fun hx => hne hx.2.symm
    have hw : s.window_handle ≠ 0 ∨ s.initialized = false := by
      by_cases hz : s.window_handle = 0
      · right
        cases hini : s.initialized with
        | false => rfl
        | true => exact absurd hz (hi hini)
      · exact Or.inl hz
    refine ⟨e1, ?_, ?_⟩
    · rw [e2, if_neg hns, hl]
      simp [hh]
    · rw [e3, if_neg hns]
      by_cases hc : s.app_context.initialized = true
      · rw [if_pos ⟨hh, hl, hc, hw⟩, if_pos hc]
      · rw [if_neg (fun hx => hc hx.2.2.1), if_neg hc]
  · intro env s h hor
    obtain ⟨_, _, e3⟩ := set_window_handle_exact env s h
    rw [e3]
    by_cases hs : s.window_handle ≠ 0 ∧ s.window_handle = h
    · rw [if_pos hs]
    · rw [if_neg hs, if_neg]
      intro hx
      rcases hor with h0 | h0
      · exact hx.1 h0
      · apply hs
        refine ⟨?_, h0.symm⟩
        rw [← h0]; exact hx.1

/-- C14 (amended) at a run of a window handle, a command, an end of stream and a second
window handle: the callback is invoked twice. -/
theorem ready_flag_follows_window_handle_witness :
    ready_invariant fresh_session ∧
    ∃ out, session_run sample_globals fresh_session
        [(sample_engine, .set_window_handle 1), (sample_engine, .line (some "+PLAY".toList)),
         (sample_engine, .eos), (sample_engine, .set_window_handle 2)] = .ok out ∧
      ready_invariant out.self ∧ ready_calls out.effects = 2 := by
  have hinv : ready_invariant fresh_session := by
    intro h
    cases h
  refine ⟨hinv, _, rfl, ?_⟩
  have h := ready_flag_follows_window_handle sample_globals fresh_session
    [(sample_engine, .set_window_handle 1), (sample_engine, .line (some "+PLAY".toList)),
     (sample_engine, .eos), (sample_engine, .set_window_handle 2)] _ hinv rfl
  exact ⟨h.1, (h.2.2.1 rfl rfl).trans (by decide)⟩

/-! ## The pipeline and its video sink (C15) -/

theorem surface_of_same (s t : GstLaunchRemote) (hp : t.pipeline = s.pipeline)
    (hv : t.video_sink = s.video_sink) (h : surface_invariant s) : surface_invariant t := by
  unfold surface_invariant at *
  rw [hp, hv]
  exact h

/-- The common body of play and pause when the engine fails the state change. -/
theorem set_target_state_failure (env : Engine) (self : GstLaunchRemote) (t : GstState)
    (name str : List Char) (hs : self.pipeline_string = some str) :
    (∀ p, self.pipeline = some p → env.gst_element_set_state p t = .FAILURE →
      set_target_state env self t name
        = ({ self with target_state := t, is_live := false },
            [.element_set_state p t]
              ++ set_message self ("Failed to set pipeline to ".toList ++ name))) ∧
    (self.pipeline = none →
      (gst_element_set_state env
          (gst_launch_remote_set_pipeline env self (some str)).1.pipeline t).1 = .FAILURE →
      set_target_state env self t name
        = ({ (gst_launch_remote_set_pipeline env self (some str)).1 with
              target_state := t, is_live := false },
            (gst_launch_remote_set_pipeline env self (some str)).2
              ++ (gst_element_set_state env
                  (gst_launch_remote_set_pipeline env self (some str)).1.pipeline t).2
              ++ set_message self ("Failed to set pipeline to ".toList ++ name))) := by
  constructor
  · intro p hp hf
    unfold set_target_state
    simp [hs, hp, gst_element_set_state, hf, set_message]
  · intro hp hf
    unfold set_target_state
    rw [hs]
    simp only [hp]
    rw [hf]
    simp [set_message, set_pipeline_some]

/-- C16 (as stated, refuted): with a pipeline description set, a pipeline and the
target state NULL, a play (a pause) whose state change the engine fails reports the
failure and leaves the target state PLAYING (PAUSED), not NULL. -/
theorem play_failure_counterexample :
    fresh_session.pipeline_string ≠ none ∧ fresh_session.target_state = .NULL ∧
    gst_launch_remote_play failing_engine fresh_session
      = ({ fresh_session with target_state := .PLAYING },
          [.element_set_state 4 .PLAYING,
           .set_message "Failed to set pipeline to PLAYING".toList]) ∧
    gst_launch_remote_pause failing_engine fresh_session
      = ({ fresh_session with target_state := .PAUSED },
          [.element_set_state 4 .PAUSED,
           .set_message "Failed to set pipeline to PAUSED".toList]) := by
  exact ⟨by decide, rfl, rfl, rfl⟩

/-- C16 (amended): for every session with a pipeline description and a pipeline handle,
when the engine fails the state change requested by `gst_launch_remote_play`
(`gst_launch_remote_pause`), the change is requested once, the failure text goes to the
message callback (when there is one), and the session is left as it was but for the
target state, which is the requested state PLAYING (PAUSED), and the live flag, which
is cleared.  Without a pipeline handle the pipeline is first built again from the
description, and the same holds from there. -/
theorem play_failure_keeps_request (env : Engine) (self : GstLaunchRemote)
    (str : List Char) (hs : self.pipeline_string = some str) :
    (∀ p, self.pipeline = some p → env.gst_element_set_state p .PLAYING = .FAILURE →
      gst_launch_remote_play env self
        = ({ self with target_state := .PLAYING, is_live := false },
            [.element_set_state p .PLAYING]
              ++ set_message self "Failed to set pipeline to PLAYING".toList)) ∧
    (∀ p, self.pipeline = some p → env.gst_element_set_state p .PAUSED = .FAILURE →
      gst_launch_remote_pause env self
        = ({ self with target_state := .PAUSED, is_live := false },
            [.element_set_state p .PAUSED]
              ++ set_message self "Failed to set pipeline to PAUSED".toList)) ∧
    (self.pipeline = none →
      (gst_element_set_state env
          (gst_launch_remote_set_pipeline env self (some str)).1.pipeline .PLAYING).1
        = .FAILURE →
      (gst_launch_remote_play env self).1
        = { (gst_launch_remote_set_pipeline env self (some str)).1 with
              target_state := .PLAYING, is_live := false } ∧
      ∀ e ∈ set_message self "Failed to set pipeline to PLAYING".toList,
        e ∈ (gst_launch_remote_play env self).2) ∧
    (self.pipeline = none →
      (gst_element_set_state env
          (gst_launch_remote_set_pipeline env self (some str)).1.pipeline .PAUSED).1
        = .FAILURE →
      (gst_launch_remote_pause env self).1
        = { (gst_launch_remote_set_pipeline env self (some str)).1 with
              target_state := .PAUSED, is_live := false } ∧
      ∀ e ∈ set_message self "Failed to set pipeline to PAUSED".toList,
        e ∈ (gst_launch_remote_pause env self).2) ∧
    (self.app_context.set_message = true →
      ∀ m, set_message self m = [.set_message m]) := by
  have hplay := set_target_state_failure env self .PLAYING "PLAYING".toList str hs
  have hpause := set_target_state_failure env self .PAUSED "PAUSED".toList str hs
  refine ⟨hplay.1, hpause.1, ?_, ?_, ?_⟩
  · intro hp hf
    have h := hplay.2 hp hf
    unfold gst_launch_remote_play
    rw [h]
    exact ⟨rfl, fun e he => List.mem_append_right _ he⟩
  · intro hp hf
    have h := hpause.2 hp hf
    unfold gst_launch_remote_pause
    rw [h]
    exact ⟨rfl, fun e he => List.mem_append_right _ he⟩
  · intro hcb m
    simp [set_message, hcb]

/-- C16 (amended) at the sample session with a pipeline and the failing engine. -/
theorem play_failure_keeps_request_witness :
    fresh_session.pipeline_string = some "fakesrc ! fakesink".toList ∧
    (gst_launch_remote_play failing_engine fresh_session).1.target_state = .PLAYING ∧
    Effect.set_message "Failed to set pipeline to PLAYING".toList
      ∈ (gst_launch_remote_play failing_engine fresh_session).2 := by
  have h := (play_failure_keeps_request failing_engine fresh_session
    "fakesrc ! fakesink".toList rfl).1 4 rfl rfl
  refine ⟨rfl, ?_, ?_⟩
  · rw [h]
  · rw [h]
    decide

/-! ## Buffering (C17) -/

/-- C17: for every buffering percentage, every session (every target state, live or
not) and every engine, `buffering_cb` does exactly what the specification's case
table (`buffering_reaction`) says: it requests from the engine the state the table
names, if any, then reports the text the table names, if any, and nothing else; the
session, its target state included, is unchanged.  With a pipeline handle and a
message callback the request is one `gst_element_set_state` and the report one
`set_message`. -/
theorem buffering_follows_table (env : Engine) (self : GstLaunchRemote) (percent : Int) :
    buffering_cb env self percent
      = (self,
          (match (buffering_reaction self.is_live percent self.target_state).1 with
            | some s => (gst_element_set_state env self.pipeline s).2
            | none => [])
          ++ (match (buffering_reaction self.is_live percent self.target_state).2 with
            | some m => set_message self m
            | none => [])) ∧
    (buffering_cb env self percent).1.target_state = self.target_state ∧
    (∀ p s, self.pipeline = some p →
      (gst_element_set_state env self.pipeline s).2 = [.element_set_state p s]) ∧
    (self.app_context.set_message = true → ∀ m, set_message self m = [.set_message m]) := by
  have h1 : buffering_cb env self percent
      = (self,
          (match (buffering_reaction self.is_live percent self.target_state).1 with
            | some s => (gst_element_set_state env self.pipeline s).2
            | none => [])
          ++ (match (buffering_reaction self.is_live percent self.target_state).2 with
            | some m => set_message self m
            | none => [])) := by
    unfold buffering_cb buffering_reaction
    cases self.is_live <;> by_cases hp : percent < 100 <;>
      cases self.target_state <;>
      simp [GstState.toNat, hp]
    all_goals
      have hge : 100 ≤ percent := by omega
      simp [hge]
  refine ⟨h1, by rw [h1], ?_, ?_⟩
  · intro p s hp
    rw [hp]
    rfl
  · intro hcb m
    simp [set_message, hcb]

/-! ## The seek position (C18) -/

theorem seek_with_pipeline (env : Engine) (self : GstLaunchRemote) (p n : Nat)
    (hp : self.pipeline = some p) (hn : n < 2 ^ 31) :
    (gst_launch_remote_seek env self (n : Int)).2
      = .seek_simple p (n * 1000000)
          :: (if env.gst_element_seek_simple p (n * 1000000) then []
              else set_message self "Seeking failed".toList) := by
  have h1 : to_guint64 (n : Int) = n := by
    unfold to_guint64
    omega
  have h2 : gst_util_uint64_scale n GST_MSECOND = n * 1000000 := by
    unfold gst_util_uint64_scale GST_MSECOND G_MAXUINT64
    rw [if_neg (by omega)]
  unfold gst_launch_remote_seek
  rw [hp]
  simp only [h1, h2]
  rfl

theorem not_seek_of_set_message (self : GstLaunchRemote) (m : List Char) (q pos : Nat) :
    Effect.seek_simple q pos ∉ set_message self m := by
  unfold set_message
  split <;> simp

theorem not_seek_of_acknowledge (env : Engine) (d : Dispatch) (q pos : Nat) :
    Effect.seek_simple q pos ∉ (acknowledge env d).effects.drop d.effects.length := by
  unfold acknowledge
  dsimp only
  split <;> split <;> simp

/-- C18 (as stated, refuted): the parser accepts 3000000000, a number of milliseconds
not below 2^31, and with a pipeline handle the flushing seek is requested at
18446744073709551615 nanoseconds, not at 3000000000 * 1000000. -/
theorem seek_position_counterexample :
    well_formed_unsigned "3000000000".toList ∧
    digits_value "3000000000".toList = 3000000000 ∧
    read_line_cb sample_engine sample_globals fresh_session (some "+SEEK 3000000000".toList)
      = .ok ⟨sample_globals, fresh_session,
          [.seek_simple 4 18446744073709551615, .write "OK\n".toList, .read_line_async]⟩ ∧
    (18446744073709551615 : Nat) ≠ 3000000000 * 1000000 := by
  refine ⟨⟨by simp, by decide⟩, rfl, rfl, by decide⟩

/-- C18 (amended): for every unsigned decimal number n of milliseconds below 2^31 that
`+SEEK` receives: while a pipeline handle exists, the handler answers `OK\n` and
requests exactly one flushing seek, at n * 1000000 nanoseconds, as the first thing it
does; when no pipeline handle exists it answers `OK\n` and requests no seek. -/
theorem seek_position_in_nanoseconds (env : Engine) (g : Globals) (self : GstLaunchRemote)
    (ds : List Char) (hds : well_formed_unsigned ds) (hv : digits_value ds < 2 ^ 31) :
    (∀ p, self.pipeline = some p →
      ∃ out, read_line_cb env g self (some ("+SEEK ".toList ++ ds)) = .ok out ∧
        writes out.effects = ["OK\n".toList] ∧
        ∃ tail, out.effects = .seek_simple p (digits_value ds * 1000000) :: tail ∧
          ∀ q pos, Effect.seek_simple q pos ∉ tail) ∧
    (self.pipeline = none →
      ∃ out, read_line_cb env g self (some ("+SEEK ".toList ++ ds)) = .ok out ∧
        writes out.effects = ["OK\n".toList] ∧
        ∀ q pos, Effect.seek_simple q pos ∉ out.effects) := by
  obtain ⟨hparse, hgint⟩ := strtoull_unsigned ds hds hv
  have hnil : (g_ascii_strtoull ds).2 = [] := by rw [hparse]
  have hdisp : read_line_cb_dispatch env g self ("+SEEK ".toList ++ ds)
      = .ok ⟨true, g, self, (gst_launch_remote_seek env self (digits_value ds : Int)).2⟩ := by
    rw [dispatch_seek, if_pos hnil, hgint]
  have hrun : read_line_cb env g self (some ("+SEEK ".toList ++ ds))
      = .ok (acknowledge env
          ⟨true, g, self, (gst_launch_remote_seek env self (digits_value ds : Int)).2⟩) := by
    simp only [read_line_cb, hdisp]
  constructor
  · intro p hp
    refine ⟨_, hrun, ?_, ?_⟩
    · rw [writes_acknowledge, writes_seek]; rfl
    · obtain ⟨tail, ht⟩ := acknowledge_effects env
        ⟨true, g, self, (gst_launch_remote_seek env self (digits_value ds : Int)).2⟩
      have hna := not_seek_of_acknowledge env
        ⟨true, g, self, (gst_launch_remote_seek env self (digits_value ds : Int)).2⟩
      rw [ht, List.drop_left] at hna
      rw [ht]
      dsimp only
      rw [seek_with_pipeline env self p _ hp hv]
      refine ⟨_, rfl, ?_⟩
      intro q pos hmem
      rcases List.mem_append.mp hmem with hm | hm
      · split at hm
        · cases hm
        · exact not_seek_of_set_message _ _ q pos hm
      · exact hna q pos hm
  · intro hp
    refine ⟨_, hrun, ?_, ?_⟩
    · rw [writes_acknowledge, writes_seek]; rfl
    · obtain ⟨tail, ht⟩ := acknowledge_effects env
        ⟨true, g, self, (gst_launch_remote_seek env self (digits_value ds : Int)).2⟩
      have hna := not_seek_of_acknowledge env
        ⟨true, g, self, (gst_launch_remote_seek env self (digits_value ds : Int)).2⟩
      rw [ht, List.drop_left] at hna
      rw [ht]
      dsimp only
      have hs : (gst_launch_remote_seek env self (digits_value ds : Int)).2 = [] := by
        unfold gst_launch_remote_seek
        rw [hp]
      rw [hs]
      intro q pos hmem
      exact hna q pos (by simpa using hmem)

/-- C18 (amended) at `+SEEK 5000` with a pipeline handle: the seek is requested at
5000000000 nanoseconds. -/
theorem seek_position_in_nanoseconds_witness :
    well_formed_unsigned "5000".toList ∧ digits_value "5000".toList < 2 ^ 31 ∧
    ∃ out, read_line_cb sample_engine sample_globals fresh_session
        (some "+SEEK 5000".toList) = .ok out ∧
      ∃ tail, out.effects = .seek_simple 4 5000000000 :: tail := by
  have hds : well_formed_unsigned "5000".toList := ⟨by simp, by decide⟩
  have hv : digits_value "5000".toList < 2 ^ 31 := by decide
  obtain ⟨out, h1, _, tail, h3, _⟩ :=
    (seek_position_in_nanoseconds sample_engine sample_globals fresh_session
      "5000".toList hds hv).1 4 rfl
  exact ⟨hds, hv, out, h1, tail, h3⟩

/-! ## The position timer (C19) -/

theorem to_gint_of_small (v : Int) (h0 : 0 ≤ v) (h1 : v < 2 ^ 31) : to_gint v = v := by
  unfold to_gint
  omega

theorem answer_as_milliseconds (q : Option Int)
    (h : max (q.getD 0) 0 / 1000000 < 2 ^ 31) :
    to_gint (Int.tdiv (max (q.getD (-1)) 0) (GST_MSECOND : Int)) = max (q.getD 0) 0 / 1000000 ∧
      0 ≤ max (q.getD 0) 0 / 1000000 := by
  have hm : max (q.getD (-1)) 0 = max (q.getD 0) 0 := by
    cases q with
    | none => rfl
    | some v => rfl
  have h0 : (0 : Int) ≤ max (q.getD 0) 0 := le_max_right _ _
  have hd : (0 : Int) ≤ max (q.getD 0) 0 / 1000000 := Int.ediv_nonneg h0 (by decide)
  refine ⟨?_, hd⟩
  rw [hm]
  have hg : (GST_MSECOND : Int) = 1000000 := rfl
  rw [hg, Int.tdiv_eq_ediv h0 (by decide)]
  exact to_gint_of_small _ hd h

/-- C19 (as stated, refuted): with a position callback and a pipeline whose position
the engine answers as 2147483648000000 nanoseconds (2^31 milliseconds), the tick
forwards the position -2147483648, which is negative and is not the quotient
2147483648. -/
theorem position_tick_counterexample :
    fresh_session.app_context.set_current_position = true ∧
    late_engine.gst_element_query_position 4 = some 2147483648000000 ∧
    update_position_cb late_engine fresh_session
      = (true, fresh_session, [.set_current_position (-2147483648) 5000]) ∧
    max (2147483648000000 : Int) 0 / 1000000 = 2147483648 := by
  exact ⟨rfl, rfl, rfl, by decide⟩

/-- C19 (amended): every timer tick returns TRUE (the timer stays armed) and leaves the
session as it is, whether or not a connection is open.  With a position callback
present it forwards exactly one pair: (0, 0) without a pipeline handle, and with a
pipeline handle the pair (floor(max(position, 0) / 1000000),
floor(max(duration, 0) / 1000000)) of the engine's answers in nanoseconds, a failed
query counting as 0, both non-negative, whenever both quotients are below 2^31 (the
callback takes `gint` arguments).  Without a position callback nothing is forwarded. -/
theorem position_tick_forwards_milliseconds (env : Engine) (self : GstLaunchRemote) :
    (update_position_cb env self).1 = true ∧
    (update_position_cb env self).2.1 = self ∧
    (self.app_context.set_current_position = false → (update_position_cb env self).2.2 = []) ∧
    (self.app_context.set_current_position = true → self.pipeline = none →
      (update_position_cb env self).2.2 = [.set_current_position 0 0]) ∧
    (self.app_context.set_current_position = true → ∀ p, self.pipeline = some p →
      max ((env.gst_element_query_position p).getD 0) 0 / 1000000 < 2 ^ 31 →
      max ((env.gst_element_query_duration p).getD 0) 0 / 1000000 < 2 ^ 31 →
      (update_position_cb env self).2.2
        = [.set_current_position
            (max ((env.gst_element_query_position p).getD 0) 0 / 1000000)
            (max ((env.gst_element_query_duration p).getD 0) 0 / 1000000)] ∧
      0 ≤ max ((env.gst_element_query_position p).getD 0) 0 / 1000000 ∧
      0 ≤ max ((env.gst_element_query_duration p).getD 0) 0 / 1000000) := by
  refine ⟨?_, ?_, ?_, ?_, ?_⟩
  · unfold update_position_cb
    split <;> rfl
  · unfold update_position_cb
    split <;> rfl
  · intro hcb
    unfold update_position_cb
    simp [hcb]
  · intro hcb hp
    unfold update_position_cb
    simp [hcb, hp]
    decide
  · intro hcb p hp hpos hdur
    obtain ⟨h1, h2⟩ := answer_as_milliseconds _ hpos
    obtain ⟨h3, h4⟩ := answer_as_milliseconds _ hdur
    refine ⟨?_, h2, h4⟩
    unfold update_position_cb
    simp only [hcb, hp, Bool.not_true, Bool.false_eq_true, if_false]
    rw [h1, h3]

/-! ## The broadcast (C20) -/

theorem send_debug_cons (s : DebugSocket) (l : List DebugSocket) (a : Bool) (t : Nat)
    (pfx message : List Char) :
    send_debug ⟨s :: l, a, t⟩ pfx message
      = (match s.address with
          | none => []
          | some ad => [⟨s.socket, ad, pfx ++ ": ".toList ++ message ++ "\n".toList⟩])
        ++ send_debug ⟨l, a, t⟩ pfx message := by
  unfold send_debug
  cases h : s.address <;> simp [List.filterMap_cons, h]

theorem send_debug_list (l : List DebugSocket) (a : Bool) (t : Nat) (pfx message : List Char)
    (sent : Datagram → Bool) :
    (send_debug ⟨l, a, t⟩ pfx message).map (fun d => (⟨d.socket, some d.address⟩ : DebugSocket))
        = armed_sinks l ∧
    (∀ d ∈ send_debug ⟨l, a, t⟩ pfx message,
      d.payload = pfx ++ ": ".toList ++ message ++ "\n".toList) ∧
    (send_debug_loop sent (pfx ++ ": ".toList ++ message ++ "\n".toList) l).map Prod.fst
        = send_debug ⟨l, a, t⟩ pfx message := by
  induction l with
  | nil => exact ⟨rfl, (fun d hd => by cases hd), rfl⟩
  | cons s l ih =>
    obtain ⟨h1, h2, h3⟩ := ih
    rw [send_debug_cons]
    obtain ⟨sock, addr⟩ := s
    cases addr with
    | none =>
      refine ⟨?_, ?_, ?_⟩
      · simpa [armed_sinks] using h1
      · simpa using h2
      · simpa [send_debug_loop] using h3
    | some ad =>
      refine ⟨?_, ?_, ?_⟩
      · simpa [armed_sinks] using h1
      · intro d hd
        rcases List.mem_append.mp hd with hd | hd
        · simp at hd
          rw [hd]
          simp
        · exact h2 d hd
      · simpa [send_debug_loop] using h3

/-- C20: for every registry state, tag and message, `send_debug` hands over exactly one
datagram for each armed sink of the registry and none for a sink without address, in
registry order (the sockets and addresses of the datagrams are, in order, those of
the armed sinks), each with the payload `tag ++ ": " ++ message ++ "\n"`; the same
datagrams are handed over whatever sends succeed or fail, every result being dropped.
`send_debug` only reads the registry. -/
theorem send_debug_reaches_armed_sinks (g : Globals) (tag message : List Char)
    (sent : Datagram → Bool) :
    (send_debug g tag message).map (fun d => (⟨d.socket, some d.address⟩ : DebugSocket))
        = armed_sinks g.debug_sockets ∧
    (send_debug g tag message).length = (armed_sinks g.debug_sockets).length ∧
    (∀ d ∈ send_debug g tag message,
      d.payload = tag ++ ": ".toList ++ message ++ "\n".toList) ∧
    (∀ s ∈ armed_sinks g.debug_sockets, s ∈ g.debug_sockets ∧ s.address ≠ none) ∧
    (send_debug_loop sent (tag ++ ": ".toList ++ message ++ "\n".toList)
        g.debug_sockets).map Prod.fst
      = send_debug g tag message := by
  obtain ⟨l, a, t⟩ := g
  obtain ⟨h1, h2, h3⟩ := send_debug_list l a t tag message sent
  refine ⟨h1, ?_, h2, ?_, h3⟩
  · rw [← h1, List.length_map]
  · intro s hs
    unfold armed_sinks at hs
    obtain ⟨hm, ha⟩ := List.mem_filter.mp hs
    refine ⟨hm, ?_⟩
    intro hn
    rw [hn] at ha
    cases ha

/-! ## The decoder of GLib and the UTF-8 encoding -/

theorem fmt_0x_two (b : Nat) (hb : b < 256) :
    ascii_bytes ("\\x".toList ++ fmt_0x 2 b) = x_escape b := by
  interval_cases b <;> rfl

theorem fmt_0x_four (c : Nat) (hc : c < 160) :
    ascii_bytes ("\\u".toList ++ fmt_0x 4 c) = u_escape c := by
  interval_cases c <;> rfl

theorem utf8_encode_ne_nil (c : Nat) : utf8_encode c ≠ [] := by
  unfold utf8_encode; split_ifs <;> simp

theorem continuation_loop_ok (p : List Nat) (n i wc : Nat) (h : p.getD i 0 / 64 = 2) :
    continuation_loop p (n + 1) i wc =
      continuation_loop p n (i + 1) (wc * 64 + p.getD i 0 % 64) := by
  rw [continuation_loop, if_neg (by omega)]

theorem continuation_loop_stop (p : List Nat) (n i wc : Nat) (h : p.getD i 0 / 64 ≠ 2) :
    continuation_loop p (n + 1) i wc = malformed_sequence ∨
      continuation_loop p (n + 1) i wc = partial_sequence := by
  rw [continuation_loop, if_pos h]
  by_cases h0 : p.getD i 0 ≠ 0
  · left; rw [if_pos h0]
  · right; rw [if_neg h0]

/-- The continuation loop either leaves early or stays below the bound the number
of bytes gives. -/
theorem continuation_loop_bound (p : List Nat) (n : Nat) : ∀ (i wc B : Nat), wc < B →
    continuation_loop p n i wc = malformed_sequence ∨
      continuation_loop p n i wc = partial_sequence ∨
      continuation_loop p n i wc < B * 64 ^ n := by
  induction n with
  | zero => intro i wc B h; right; right; simpa [continuation_loop] using h
  | succ n ih =>
    intro i wc B h
    by_cases hk : p.getD i 0 / 64 = 2
    · rw [continuation_loop_ok p n i wc hk]
      rcases ih (i + 1) (wc * 64 + p.getD i 0 % 64) (B * 64) (by omega) with h1 | h1 | h1
      · exact Or.inl h1
      · exact Or.inr (Or.inl h1)
      · right; right
        have e : B * 64 * 64 ^ n = B * 64 ^ (n + 1) := by ring
        omega
    · rcases continuation_loop_stop p n i wc hk with h1 | h1
      · exact Or.inl h1
      · exact Or.inr (Or.inl h1)

theorem validated_of_extended (p : List Nat) (wc : Nat) (h : g_utf8_get_char_extended p = wc)
    (h1 : wc < 0x110000) (h2 : wc / 0x800 ≠ 0x1b) : g_utf8_get_char_validated p = wc := by
  unfold g_utf8_get_char_validated
  simp only [h, UNICODE_VALID]
  rw [if_neg (by omega)]
  simp [h1, h2]

theorem validated_special (p : List Nat)
    (h : g_utf8_get_char_extended p = malformed_sequence ∨
      g_utf8_get_char_extended p = partial_sequence) :
    g_utf8_get_char_validated p = malformed_sequence ∨
      g_utf8_get_char_validated p = partial_sequence := by
  unfold g_utf8_get_char_validated
  rcases h with h | h <;> simp [h, malformed_sequence, partial_sequence]

theorem validated_large (p : List Nat) (h : 0x110000 ≤ g_utf8_get_char_extended p)
    (h2 : g_utf8_get_char_extended p < 2 ^ 31) :
    g_utf8_get_char_validated p = malformed_sequence := by
  unfold g_utf8_get_char_validated
  simp only [UNICODE_VALID]
  rw [if_neg (by omega)]
  have : ¬ g_utf8_get_char_extended p < 0x110000 := by omega
  simp [this]

theorem check_min_code_special (wc m : Nat)
    (h : wc = malformed_sequence ∨ wc = partial_sequence) :
    check_min_code wc m = malformed_sequence ∨ check_min_code wc m = partial_sequence := by
  unfold check_min_code
  rw [if_pos h]; exact h

theorem check_min_code_cases (wc m : Nat) :
    check_min_code wc m = malformed_sequence ∨ check_min_code wc m = partial_sequence ∨
      (check_min_code wc m = wc ∧ m ≤ wc) := by
  unfold check_min_code
  by_cases h : wc = malformed_sequence ∨ wc = partial_sequence
  · rw [if_pos h]; rcases h with h | h
    · exact Or.inl h
    · exact Or.inr (Or.inl h)
  · rw [if_neg h]
    by_cases h2 : wc < m
    · rw [if_pos h2]; exact Or.inl rfl
    · rw [if_neg h2]; exact Or.inr (Or.inr ⟨rfl, by omega⟩)

theorem check_min_code_ok (wc m : Nat) (h1 : wc < 2 ^ 31) (h2 : m ≤ wc) :
    check_min_code wc m = wc := by
  unfold check_min_code malformed_sequence partial_sequence
  rw [if_neg (by omega), if_neg (by omega)]


theorem continuation_loop_special (p : List Nat) (n : Nat) : ∀ (i wc j : Nat), i ≤ j →
    j < i + n → p.getD j 0 / 64 ≠ 2 →
    continuation_loop p n i wc = malformed_sequence ∨
      continuation_loop p n i wc = partial_sequence := by
  induction n with
  | zero => intro i wc j h1 h2; omega
  | succ n ih =>
    intro i wc j h1 h2 hbad
    by_cases hk : p.getD i 0 / 64 = 2
    · rw [continuation_loop_ok p n i wc hk]
      have hne : i ≠ j := fun e => hbad (e ▸ hk)
      exact ih (i + 1) _ j (by omega) (by omega) hbad
    · exact continuation_loop_stop p n i wc hk

theorem extended_ascii (p : List Nat) (h : p.getD 0 0 < 0x80) :
    g_utf8_get_char_extended p = p.getD 0 0 := by
  unfold g_utf8_get_char_extended
  dsimp only
  rw [if_pos h]

theorem extended_bad (p : List Nat)
    (h : (0x80 ≤ p.getD 0 0 ∧ p.getD 0 0 < 0xc0) ∨ 0xfe ≤ p.getD 0 0) :
    g_utf8_get_char_extended p = malformed_sequence := by
  unfold g_utf8_get_char_extended
  dsimp only
  rcases h with h | h
  · rw [if_neg (by omega), if_pos (by omega)]
  · rw [if_neg (by omega), if_neg (by omega), if_neg (by omega), if_neg (by omega),
      if_neg (by omega), if_neg (by omega), if_neg (by omega)]

theorem extended_two (p : List Nat) (h : 0xc0 ≤ p.getD 0 0 ∧ p.getD 0 0 < 0xe0) :
    g_utf8_get_char_extended p =
      check_min_code (continuation_loop p 1 1 (p.getD 0 0 % 32)) 0x80 := by
  unfold g_utf8_get_char_extended
  dsimp only
  rw [if_neg (by omega), if_neg (by omega), if_pos (by omega)]

theorem extended_three (p : List Nat) (h : 0xe0 ≤ p.getD 0 0 ∧ p.getD 0 0 < 0xf0) :
    g_utf8_get_char_extended p =
      check_min_code (continuation_loop p 2 1 (p.getD 0 0 % 16)) 0x800 := by
  unfold g_utf8_get_char_extended
  dsimp only
  rw [if_neg (by omega), if_neg (by omega), if_neg (by omega), if_pos (by omega)]

theorem extended_four (p : List Nat) (h : 0xf0 ≤ p.getD 0 0 ∧ p.getD 0 0 < 0xf8) :
    g_utf8_get_char_extended p =
      check_min_code (continuation_loop p 3 1 (p.getD 0 0 % 8)) 0x10000 := by
  unfold g_utf8_get_char_extended
  dsimp only
  rw [if_neg (by omega), if_neg (by omega), if_neg (by omega), if_neg (by omega),
    if_pos (by omega)]

theorem extended_five (p : List Nat) (h : 0xf8 ≤ p.getD 0 0 ∧ p.getD 0 0 < 0xfc) :
    g_utf8_get_char_extended p =
      check_min_code (continuation_loop p 4 1 (p.getD 0 0 % 4)) 0x200000 := by
  unfold g_utf8_get_char_extended
  dsimp only
  rw [if_neg (by omega), if_neg (by omega), if_neg (by omega), if_neg (by omega),
    if_neg (by omega), if_pos (by omega)]

theorem extended_six (p : List Nat) (h : 0xfc ≤ p.getD 0 0 ∧ p.getD 0 0 < 0xfe) :
    g_utf8_get_char_extended p =
      check_min_code (continuation_loop p 5 1 (p.getD 0 0 % 2)) 0x4000000 := by
  unfold g_utf8_get_char_extended
  dsimp only
  rw [if_neg (by omega), if_neg (by omega), if_neg (by omega), if_neg (by omega),
    if_neg (by omega), if_neg (by omega), if_pos (by omega)]

/-- A five or six byte form is never accepted. -/
theorem validated_long_form (p : List Nat) (n w m : Nat) (hw : w * 64 ^ n ≤ 2 ^ 31)
    (hm : 0x110000 ≤ m) (w0 : Nat) (h0 : w0 < w)
    (h : g_utf8_get_char_extended p = check_min_code (continuation_loop p n 1 w0) m) :
    g_utf8_get_char_validated p = malformed_sequence ∨
      g_utf8_get_char_validated p = partial_sequence := by
  rcases check_min_code_cases (continuation_loop p n 1 w0) m with c | c | ⟨c, c2⟩
  · exact validated_special p (Or.inl (h.trans c))
  · exact validated_special p (Or.inr (h.trans c))
  · rcases continuation_loop_bound p n 1 w0 w h0 with b | b | b
    · exact validated_special p (Or.inl (h.trans (c.trans b)))
    · exact validated_special p (Or.inr (h.trans (c.trans b)))
    · left
      apply validated_large
      · rw [h, c]; omega
      · rw [h, c]; omega


theorem decode_encode (c : Nat) (rest : List Nat) (hc : unicode_scalar c) :
    g_utf8_get_char_validated (utf8_encode c ++ rest) = c := by
  obtain ⟨h1, h2⟩ := hc
  apply validated_of_extended _ _ _ h1 (by omega)
  unfold utf8_encode
  by_cases c1 : c < 0x80
  · rw [if_pos c1]; exact extended_ascii _ c1
  · rw [if_neg c1]
    by_cases c2 : c < 0x800
    · rw [if_pos c2]
      rw [extended_two _ (by show 0xc0 ≤ 0xC0 + c / 64 ∧ 0xC0 + c / 64 < 0xe0; omega)]
      rw [continuation_loop_ok _ _ _ _ (by show (0x80 + c % 64) / 64 = 2; omega)]
      show check_min_code ((0xC0 + c / 64) % 32 * 64 + (0x80 + c % 64) % 64) 0x80 = c
      rw [check_min_code_ok _ _ (by omega) (by omega)]; omega
    · rw [if_neg c2]
      by_cases c3 : c < 0x10000
      · rw [if_pos c3]
        rw [extended_three _ (by show 0xe0 ≤ 0xE0 + c / 4096 ∧ 0xE0 + c / 4096 < 0xf0; omega)]
        rw [continuation_loop_ok _ _ _ _ (by show (0x80 + c / 64 % 64) / 64 = 2; omega)]
        rw [continuation_loop_ok _ _ _ _ (by show (0x80 + c % 64) / 64 = 2; omega)]
        show check_min_code (((0xE0 + c / 4096) % 16 * 64 + (0x80 + c / 64 % 64) % 64) * 64 +
          (0x80 + c % 64) % 64) 0x800 = c
        rw [check_min_code_ok _ _ (by omega) (by omega)]; omega
      · rw [if_neg c3]
        rw [extended_four _
          (by show 0xf0 ≤ 0xF0 + c / 262144 ∧ 0xF0 + c / 262144 < 0xf8; omega)]
        rw [continuation_loop_ok _ _ _ _ (by show (0x80 + c / 4096 % 64) / 64 = 2; omega)]
        rw [continuation_loop_ok _ _ _ _ (by show (0x80 + c / 64 % 64) / 64 = 2; omega)]
        rw [continuation_loop_ok _ _ _ _ (by show (0x80 + c % 64) / 64 = 2; omega)]
        show check_min_code ((((0xF0 + c / 262144) % 8 * 64 + (0x80 + c / 4096 % 64) % 64) * 64 +
          (0x80 + c / 64 % 64) % 64) * 64 + (0x80 + c % 64) % 64) 0x10000 = c
        rw [check_min_code_ok _ _ (by omega) (by omega)]; omega

theorem skip_encode (c : Nat) (rest : List Nat) (hc : unicode_scalar c) :
    g_utf8_skip ((utf8_encode c ++ rest).getD 0 0) = (utf8_encode c).length := by
  obtain ⟨h1, h2⟩ := hc
  unfold utf8_encode
  by_cases c1 : c < 0x80
  · rw [if_pos c1]
    show g_utf8_skip c = 1
    unfold g_utf8_skip; rw [if_pos (by omega)]
  · rw [if_neg c1]
    by_cases c2 : c < 0x800
    · rw [if_pos c2]
      show g_utf8_skip (0xC0 + c / 64) = 2
      unfold g_utf8_skip; rw [if_neg (by omega), if_pos (by omega)]
    · rw [if_neg c2]
      by_cases c3 : c < 0x10000
      · rw [if_pos c3]
        show g_utf8_skip (0xE0 + c / 4096) = 3
        unfold g_utf8_skip; rw [if_neg (by omega), if_neg (by omega), if_pos (by omega)]
      · rw [if_neg c3]
        show g_utf8_skip (0xF0 + c / 262144) = 4
        unfold g_utf8_skip
        rw [if_neg (by omega), if_neg (by omega), if_neg (by omega), if_pos (by omega)]

theorem validated_special_of_loop (p : List Nat) (n w0 m j : Nat)
    (h : g_utf8_get_char_extended p = check_min_code (continuation_loop p n 1 w0) m)
    (h1 : 1 ≤ j) (h2 : j < 1 + n) (hbad : p.getD j 0 / 64 ≠ 2) :
    g_utf8_get_char_validated p = malformed_sequence ∨
      g_utf8_get_char_validated p = partial_sequence := by
  apply validated_special
  rw [h]
  exact check_min_code_special _ _ (continuation_loop_special p n 1 w0 j h1 h2 hbad)

theorem validated_special_of_check (p : List Nat) (w m : Nat)
    (h : g_utf8_get_char_extended p = check_min_code w m)
    (hc : check_min_code w m = malformed_sequence ∨ check_min_code w m = partial_sequence) :
    g_utf8_get_char_validated p = malformed_sequence ∨
      g_utf8_get_char_validated p = partial_sequence := by
  apply validated_special
  rw [h]; exact hc

theorem decode_sound_two (b : Nat) (rest : List Nat) (h : 0xc0 ≤ b ∧ b < 0xe0)
    (hs : ¬ (g_utf8_get_char_validated (b :: rest) = malformed_sequence ∨
      g_utf8_get_char_validated (b :: rest) = partial_sequence)) :
    unicode_scalar (g_utf8_get_char_validated (b :: rest)) ∧
      ∃ r, b :: rest = utf8_encode (g_utf8_get_char_validated (b :: rest)) ++ r := by
  have hx := extended_two (b :: rest) h
  by_cases k1 : (b :: rest).getD 1 0 / 64 = 2
  · rcases rest with _ | ⟨b1, r⟩
    · exact absurd (show (0 : Nat) / 64 = 2 from k1) (by decide)
    · have k1b : b1 / 64 = 2 := k1
      rw [continuation_loop_ok _ _ _ _ k1] at hx
      have hx2 : g_utf8_get_char_extended (b :: b1 :: r) =
          check_min_code (b % 32 * 64 + b1 % 64) 0x80 := hx
      rcases check_min_code_cases (b % 32 * 64 + b1 % 64) 0x80 with c | c | ⟨c, c2⟩
      · exact absurd (validated_special_of_check _ _ _ hx2 (Or.inl c)) hs
      · exact absurd (validated_special_of_check _ _ _ hx2 (Or.inr c)) hs
      · have hv : g_utf8_get_char_validated (b :: b1 :: r) = b % 32 * 64 + b1 % 64 :=
          validated_of_extended _ _ (hx2.trans c) (by omega) (by omega)
        rw [hv]
        refine ⟨⟨by omega, by omega⟩, r, ?_⟩
        unfold utf8_encode
        rw [if_neg (by omega), if_pos (by omega)]
        have e1 : 0xC0 + (b % 32 * 64 + b1 % 64) / 64 = b := by omega
        have e2 : 0x80 + (b % 32 * 64 + b1 % 64) % 64 = b1 := by omega
        rw [e1, e2]; rfl
  · exact absurd (validated_special_of_loop _ _ _ _ 1 hx (le_refl 1) (by omega) k1) hs

theorem decode_sound_three (b : Nat) (rest : List Nat) (h : 0xe0 ≤ b ∧ b < 0xf0)
    (hs : ¬ (g_utf8_get_char_validated (b :: rest) = malformed_sequence ∨
      g_utf8_get_char_validated (b :: rest) = partial_sequence)) :
    unicode_scalar (g_utf8_get_char_validated (b :: rest)) ∧
      ∃ r, b :: rest = utf8_encode (g_utf8_get_char_validated (b :: rest)) ++ r := by
  have hx := extended_three (b :: rest) h
  by_cases k1 : (b :: rest).getD 1 0 / 64 = 2
  · by_cases k2 : (b :: rest).getD 2 0 / 64 = 2
    · rcases rest with _ | ⟨b1, _ | ⟨b2, r⟩⟩
      · exact absurd (show (0 : Nat) / 64 = 2 from k1) (by decide)
      · exact absurd (show (0 : Nat) / 64 = 2 from k2) (by decide)
      · have k1b : b1 / 64 = 2 := k1
        have k2b : b2 / 64 = 2 := k2
        rw [continuation_loop_ok _ _ _ _ k1, continuation_loop_ok _ _ _ _ k2] at hx
        have hx2 : g_utf8_get_char_extended (b :: b1 :: b2 :: r) =
            check_min_code ((b % 16 * 64 + b1 % 64) * 64 + b2 % 64) 0x800 := hx
        rcases check_min_code_cases ((b % 16 * 64 + b1 % 64) * 64 + b2 % 64) 0x800 with
          c | c | ⟨c, c2⟩
        · exact absurd (validated_special_of_check _ _ _ hx2 (Or.inl c)) hs
        · exact absurd (validated_special_of_check _ _ _ hx2 (Or.inr c)) hs
        · by_cases hsur : ((b % 16 * 64 + b1 % 64) * 64 + b2 % 64) / 0x800 = 0x1b
          · exfalso
            apply hs; left
            unfold g_utf8_get_char_validated
            simp only [UNICODE_VALID]
            rw [hx2, c, if_neg (by omega)]
            simp [hsur]
          · have hv : g_utf8_get_char_validated (b :: b1 :: b2 :: r) =
                (b % 16 * 64 + b1 % 64) * 64 + b2 % 64 :=
              validated_of_extended _ _ (hx2.trans c) (by omega) hsur
            rw [hv]
            refine ⟨⟨by omega, by omega⟩, r, ?_⟩
            unfold utf8_encode
            rw [if_neg (by omega), if_neg (by omega), if_pos (by omega)]
            have e1 : 0xE0 + ((b % 16 * 64 + b1 % 64) * 64 + b2 % 64) / 4096 = b := by omega
            have e2 : 0x80 + ((b % 16 * 64 + b1 % 64) * 64 + b2 % 64) / 64 % 64 = b1 := by
              omega
            have e3 : 0x80 + ((b % 16 * 64 + b1 % 64) * 64 + b2 % 64) % 64 = b2 := by omega
            rw [e1, e2, e3]; rfl
    · exact absurd (validated_special_of_loop _ _ _ _ 2 hx (by omega) (by omega) k2) hs
  · exact absurd (validated_special_of_loop _ _ _ _ 1 hx (le_refl 1) (by omega) k1) hs

theorem decode_sound_four (b : Nat) (rest : List Nat) (h : 0xf0 ≤ b ∧ b < 0xf8)
    (hs : ¬ (g_utf8_get_char_validated (b :: rest) = malformed_sequence ∨
      g_utf8_get_char_validated (b :: rest) = partial_sequence)) :
    unicode_scalar (g_utf8_get_char_validated (b :: rest)) ∧
      ∃ r, b :: rest = utf8_encode (g_utf8_get_char_validated (b :: rest)) ++ r := by
  have hx := extended_four (b :: rest) h
  by_cases k1 : (b :: rest).getD 1 0 / 64 = 2
  · by_cases k2 : (b :: rest).getD 2 0 / 64 = 2
    · by_cases k3 : (b :: rest).getD 3 0 / 64 = 2
      · rcases rest with _ | ⟨b1, _ | ⟨b2, _ | ⟨b3, r⟩⟩⟩
        · exact absurd (show (0 : Nat) / 64 = 2 from k1) (by decide)
        · exact absurd (show (0 : Nat) / 64 = 2 from k2) (by decide)
        · exact absurd (show (0 : Nat) / 64 = 2 from k3) (by decide)
        · have k1b : b1 / 64 = 2 := k1
          have k2b : b2 / 64 = 2 := k2
          have k3b : b3 / 64 = 2 := k3
          rw [continuation_loop_ok _ _ _ _ k1, continuation_loop_ok _ _ _ _ k2,
            continuation_loop_ok _ _ _ _ k3] at hx
          have hx2 : g_utf8_get_char_extended (b :: b1 :: b2 :: b3 :: r) =
              check_min_code (((b % 8 * 64 + b1 % 64) * 64 + b2 % 64) * 64 + b3 % 64)
                0x10000 := hx
          generalize hw : ((b % 8 * 64 + b1 % 64) * 64 + b2 % 64) * 64 + b3 % 64 = w at hx2
          rcases check_min_code_cases w 0x10000 with c | c | ⟨c, c2⟩
          · exact absurd (validated_special_of_check _ _ _ hx2 (Or.inl c)) hs
          · exact absurd (validated_special_of_check _ _ _ hx2 (Or.inr c)) hs
          · by_cases hbig : 0x110000 ≤ w
            · exfalso
              apply hs; left
              apply validated_large
              · rw [hx2, c]; exact hbig
              · rw [hx2, c]; omega
            · have hv : g_utf8_get_char_validated (b :: b1 :: b2 :: b3 :: r) = w :=
                validated_of_extended _ _ (hx2.trans c) (by omega) (by omega)
              rw [hv]
              refine ⟨⟨by omega, by omega⟩, r, ?_⟩
              unfold utf8_encode
              rw [if_neg (by omega), if_neg (by omega), if_neg (by omega)]
              have e1 : 0xF0 + w / 262144 = b := by omega
              have e2 : 0x80 + w / 4096 % 64 = b1 := by omega
              have e3 : 0x80 + w / 64 % 64 = b2 := by omega
              have e4 : 0x80 + w % 64 = b3 := by omega
              rw [e1, e2, e3, e4]; rfl
      · exact absurd (validated_special_of_loop _ _ _ _ 3 hx (by omega) (by omega) k3) hs
    · exact absurd (validated_special_of_loop _ _ _ _ 2 hx (by omega) (by omega) k2) hs
  · exact absurd (validated_special_of_loop _ _ _ _ 1 hx (le_refl 1) (by omega) k1) hs

/-- What the decoder accepts is the encoding of a Unicode scalar value. -/
theorem decode_sound (b : Nat) (rest : List Nat)
    (hs : ¬ (g_utf8_get_char_validated (b :: rest) = malformed_sequence ∨
      g_utf8_get_char_validated (b :: rest) = partial_sequence)) :
    unicode_scalar (g_utf8_get_char_validated (b :: rest)) ∧
      ∃ r, b :: rest = utf8_encode (g_utf8_get_char_validated (b :: rest)) ++ r := by
  by_cases c1 : b < 0x80
  · have hv : g_utf8_get_char_validated (b :: rest) = b :=
      validated_of_extended _ _ (extended_ascii (b :: rest) c1) (by omega) (by omega)
    rw [hv]
    refine ⟨⟨by omega, by omega⟩, rest, ?_⟩
    unfold utf8_encode
    rw [if_pos c1]; rfl
  · by_cases c2 : b < 0xc0
    · exact absurd (validated_special _ (Or.inl (extended_bad (b :: rest)
        (Or.inl ⟨by show 0x80 ≤ b; omega, c2⟩)))) hs
    · by_cases c3 : b < 0xe0
      · exact decode_sound_two b rest ⟨by omega, c3⟩ hs
      · by_cases c4 : b < 0xf0
        · exact decode_sound_three b rest ⟨by omega, c4⟩ hs
        · by_cases c5 : b < 0xf8
          · exact decode_sound_four b rest ⟨by omega, c5⟩ hs
          · by_cases c6 : b < 0xfc
            · exact absurd (validated_long_form (b :: rest) 4 4 0x200000 (by norm_num)
                (by norm_num) (b % 4) (by omega)
                (extended_five (b :: rest) ⟨by show 0xf8 ≤ b; omega, c6⟩)) hs
            · by_cases c7 : b < 0xfe
              · exact absurd (validated_long_form (b :: rest) 5 2 0x4000000 (by norm_num)
                  (by norm_num) (b % 2) (by omega)
                  (extended_six (b :: rest) ⟨by show 0xfc ≤ b; omega, c7⟩)) hs
              · exact absurd (validated_special _ (Or.inl (extended_bad (b :: rest)
                  (Or.inr (by show 0xfe ≤ b; omega))))) hs

/-- A byte that begins no encoding of a scalar value is rejected by the decoder. -/
theorem decode_complete (b : Nat) (rest : List Nat) (h : ¬ starts_with_character (b :: rest)) :
    g_utf8_get_char_validated (b :: rest) = malformed_sequence ∨
      g_utf8_get_char_validated (b :: rest) = partial_sequence := by
  by_contra hs
  obtain ⟨h1, r, h2⟩ := decode_sound b rest hs
  exact h ⟨_, r, h1, h2⟩

theorem scalar_not_special (c : Nat) (hc : unicode_scalar c) :
    ¬ (c = malformed_sequence ∨ c = partial_sequence) := by
  obtain ⟨h1, _⟩ := hc
  unfold malformed_sequence partial_sequence
  omega

theorem getD_after (done rest : List Nat) (i : Nat) :
    (done ++ rest).getD (done.length + i) 0 = rest.getD i 0 := by
  simp [List.getD_eq_getElem?_getD, List.getElem?_append_right]

theorem getD_at (done rest : List Nat) :
    (done ++ rest).getD done.length 0 = rest.getD 0 0 := by
  simpa using getD_after done rest 0

theorem drop_after (done rest : List Nat) (k : Nat) :
    (done ++ rest).drop (done.length + k) = rest.drop k := by
  rw [← List.drop_drop, List.drop_left]

theorem erase_after (done rest : List Nat) (k : Nat) (hk : k ≤ rest.length) :
    g_string_erase (done ++ rest) done.length k = done ++ rest.drop k := by
  unfold g_string_erase
  rw [if_pos (by simp; omega), List.take_left, drop_after]

theorem insert_after (done rest val : List Nat) :
    g_string_insert (done ++ rest) done.length val = (done ++ val) ++ rest := by
  unfold g_string_insert
  rw [if_pos (by simp), List.take_left, List.drop_left]

theorem loop_end (fuel : Nat) (done : List Nat) :
    escape_string_loop (fuel + 1) done done.length = some done := by
  rw [escape_string_loop, if_neg (by omega)]

theorem x_escape_length (b : Nat) : (x_escape b).length = 4 := rfl

theorem u_escape_length (c : Nat) : (u_escape c).length = 6 := rfl

theorem loop_invalid (fuel : Nat) (done : List Nat) (b : Nat) (rest : List Nat)
    (hb : b < 256)
    (h : g_utf8_get_char_validated (b :: rest) = malformed_sequence ∨
      g_utf8_get_char_validated (b :: rest) = partial_sequence) :
    escape_string_loop (fuel + 1) (done ++ b :: rest) done.length =
      escape_string_loop fuel ((done ++ x_escape b) ++ rest) (done ++ x_escape b).length := by
  rw [escape_string_loop, if_pos (by simp)]
  dsimp only
  rw [List.drop_left, if_pos h, getD_at]
  have e : (b :: rest).getD 0 0 = b := rfl
  rw [e, fmt_0x_two b hb, erase_after done (b :: rest) 1 (by simp)]
  have e2 : (b :: rest).drop 1 = rest := rfl
  rw [e2, insert_after, List.length_append, x_escape_length]

theorem char_is_safe_iff (c : Nat) : CHAR_IS_SAFE c = true ↔ ¬ unsafe_code_point c := by
  unfold CHAR_IS_SAFE unsafe_code_point
  simp only [Bool.not_eq_true', Bool.or_eq_false_iff, Bool.and_eq_false_imp, Bool.and_eq_true,
    decide_eq_true_eq, bne_iff_ne, ne_eq, beq_eq_false_iff_ne, decide_eq_false_iff_not,
    bne_eq_false_iff_eq]
  constructor
  · intro h; omega
  · intro h; omega

theorem utf8_encode_ascii (c : Nat) (h : c < 0x80) : utf8_encode c = [c] := by
  unfold utf8_encode; rw [if_pos h]

theorem getD_zero_eq (rest : List Nat) (v : Nat) (hv : v ≠ 0) :
    rest.getD 0 0 = v ↔ rest.head? = some v := by
  cases rest with
  | nil => simp; exact fun h => hv h.symm
  | cons a r => simp

/-- The flag `safe` of the loop is the negation of `replaced_by_code`. -/
theorem safe_flag (c : Nat) (done rest : List Nat) :
    (if c = 13 then decide ((done ++ (utf8_encode c ++ rest)).getD (done.length + 1) 0 = 10)
      else CHAR_IS_SAFE c) = true ↔ ¬ replaced_by_code c rest := by
  unfold replaced_by_code
  by_cases h : c = 13
  · subst h
    rw [if_pos rfl, getD_after, utf8_encode_ascii 13 (by norm_num)]
    have e : ([13] ++ rest).getD 1 0 = rest.getD 0 0 := rfl
    rw [e, decide_eq_true_eq, getD_zero_eq rest 10 (by norm_num)]
    unfold unsafe_code_point
    constructor
    · intro h1 h2
      rcases h2 with h2 | ⟨_, h2⟩
      · omega
      · exact h2 h1
    · intro h1
      by_contra h2
      exact h1 (Or.inr ⟨rfl, h2⟩)
  · rw [if_neg h, char_is_safe_iff]
    constructor
    · intro h1 h2
      rcases h2 with h2 | ⟨h2, _⟩
      · exact h1 h2
      · exact h h2
    · intro h1 h2
      exact h1 (Or.inl h2)

theorem loop_keep (fuel : Nat) (done : List Nat) (c : Nat) (rest : List Nat)
    (hc : unicode_scalar c) (hr : ¬ replaced_by_code c rest) :
    escape_string_loop (fuel + 1) (done ++ (utf8_encode c ++ rest)) done.length =
      escape_string_loop fuel ((done ++ utf8_encode c) ++ rest)
        (done ++ utf8_encode c).length := by
  have hne := utf8_encode_ne_nil c
  have hpos : 0 < (utf8_encode c).length := List.length_pos.mpr hne
  rw [escape_string_loop, if_pos (by simp; omega)]
  dsimp only
  rw [List.drop_left, decode_encode c rest hc, if_neg (scalar_not_special c hc)]
  have hs := (safe_flag c done rest).mpr hr
  rw [hs]
  simp only [Bool.not_true, Bool.false_eq_true, if_false]
  rw [getD_at, skip_encode c rest hc, List.append_assoc, List.length_append]

theorem replaced_small (c : Nat) (rest : List Nat) (h : replaced_by_code c rest) : c < 160 := by
  unfold replaced_by_code unsafe_code_point at h
  omega

theorem loop_replaced (fuel : Nat) (done : List Nat) (c : Nat) (rest : List Nat)
    (hc : unicode_scalar c) (hr : replaced_by_code c rest) :
    escape_string_loop (fuel + 1) (done ++ (utf8_encode c ++ rest)) done.length =
      escape_string_loop fuel ((done ++ u_escape c) ++ rest) (done ++ u_escape c).length := by
  have hne := utf8_encode_ne_nil c
  have hpos : 0 < (utf8_encode c).length := List.length_pos.mpr hne
  rw [escape_string_loop, if_pos (by simp; omega)]
  dsimp only
  rw [List.drop_left, decode_encode c rest hc, if_neg (scalar_not_special c hc)]
  have hs : (if c = 13 then
      decide ((done ++ (utf8_encode c ++ rest)).getD (done.length + 1) 0 = 10)
      else CHAR_IS_SAFE c) = false := by
    rw [← Bool.not_eq_true]
    exact fun h => (safe_flag c done rest).mp h hr
  rw [hs]
  simp only [Bool.not_false, if_true]
  rw [getD_at, skip_encode c rest hc, fmt_0x_four c (replaced_small c rest hr),
    erase_after done _ _ (by simp), List.drop_left, insert_after, List.length_append,
    u_escape_length]

theorem is_bytes_cons (b : Nat) (rest : List Nat) (h : is_bytes (b :: rest)) :
    b < 256 ∧ is_bytes rest :=
  ⟨h b (List.mem_cons_self b rest), fun x hx => h x (List.mem_cons_of_mem b hx)⟩

theorem is_bytes_append_right (a b : List Nat) (h : is_bytes (a ++ b)) : is_bytes b :=
  fun x hx => h x (List.mem_append_right a hx)

theorem is_bytes_append_left (a b : List Nat) (h : is_bytes (a ++ b)) : is_bytes a :=
  fun x hx => h x (List.mem_append_left b hx)

theorem is_bytes_append (a b : List Nat) (ha : is_bytes a) (hb : is_bytes b) :
    is_bytes (a ++ b) := by
  intro x hx
  rcases List.mem_append.mp hx with h | h
  · exact ha x h
  · exact hb x h

theorem utf8_encode_length_pos (c : Nat) : 0 < (utf8_encode c).length :=
  List.length_pos.mpr (utf8_encode_ne_nil c)

/-- The loop, started behind the bytes `done`, appends the escaping of the rest. -/
theorem loop_escape (s out : List Nat) (h : EscapeOf replaced_by_code s out) :
    ∀ (fuel : Nat) (done : List Nat), is_bytes s → s.length < fuel →
      escape_string_loop fuel (done ++ s) done.length = some (done ++ out) := by
  induction h with
  | nil =>
    intro fuel done _ hl
    obtain ⟨f, rfl⟩ : ∃ f, fuel = f + 1 := ⟨fuel - 1, by omega⟩
    rw [List.append_nil]
    exact loop_end f done
  | keep c rest out hc hr _ ih =>
    intro fuel done hb hl
    obtain ⟨f, rfl⟩ : ∃ f, fuel = f + 1 := ⟨fuel - 1, by omega⟩
    have hpos := utf8_encode_length_pos c
    rw [List.length_append] at hl
    rw [loop_keep f done c rest hc hr,
      ih f (done ++ utf8_encode c) (is_bytes_append_right _ _ hb) (by omega),
      List.append_assoc]
  | code_point c rest out hc hr _ ih =>
    intro fuel done hb hl
    obtain ⟨f, rfl⟩ : ∃ f, fuel = f + 1 := ⟨fuel - 1, by omega⟩
    have hpos := utf8_encode_length_pos c
    rw [List.length_append] at hl
    rw [loop_replaced f done c rest hc hr,
      ih f (done ++ u_escape c) (is_bytes_append_right _ _ hb) (by omega),
      List.append_assoc]
  | byte b rest out hn _ ih =>
    intro fuel done hb hl
    obtain ⟨f, rfl⟩ : ∃ f, fuel = f + 1 := ⟨fuel - 1, by omega⟩
    obtain ⟨hb1, hb2⟩ := is_bytes_cons b rest hb
    rw [List.length_cons] at hl
    rw [loop_invalid f done b rest hb1 (decode_complete b rest hn),
      ih f (done ++ x_escape b) hb2 (by omega), List.append_assoc]

/-- The function `escape_string` returns the escaping of its argument. -/
theorem escape_string_of_escape (s out : List Nat) (hb : is_bytes s)
    (h : EscapeOf replaced_by_code s out) : escape_string s = some out := by
  have := loop_escape s out h (s.length + 1) [] hb (by omega)
  simpa [escape_string] using this

/-- Every string has an escaping. -/
theorem escape_exists (replaced : Nat → List Nat → Prop) :
    ∀ (n : Nat) (s : List Nat), s.length ≤ n → ∃ out, EscapeOf replaced s out := by
  intro n
  induction n with
  | zero =>
    intro s hs
    have : s = [] := List.length_eq_zero.mp (by omega)
    subst this
    exact ⟨[], EscapeOf.nil⟩
  | succ n ih =>
    intro s hs
    cases s with
    | nil => exact ⟨[], EscapeOf.nil⟩
    | cons b rest =>
      by_cases hsw : starts_with_character (b :: rest)
      · obtain ⟨c, r, hc, he⟩ := hsw
        have hpos := utf8_encode_length_pos c
        have hlen : (b :: rest).length = (utf8_encode c).length + r.length := by
          rw [he, List.length_append]
        obtain ⟨out, ho⟩ := ih r (by rw [hlen] at hs; omega)
        rw [he]
        by_cases hr : replaced c r
        · exact ⟨_, EscapeOf.code_point c r out hc hr ho⟩
        · exact ⟨_, EscapeOf.keep c r out hc hr ho⟩
      · obtain ⟨out, ho⟩ := ih rest (by simp at hs; omega)
        exact ⟨_, EscapeOf.byte b rest out hsw ho⟩

/-- The function `escape_string` returns, and what it returns is the escaping of its
argument. -/
theorem escape_string_total (s : List Nat) (hb : is_bytes s) :
    ∃ out, escape_string s = some out ∧ EscapeOf replaced_by_code s out := by
  obtain ⟨out, ho⟩ := escape_exists replaced_by_code s.length s (le_refl _)
  exact ⟨out, escape_string_of_escape s out hb ho, ho⟩

theorem hex_digit_range (d : Nat) (h : d < 16) : 32 ≤ hex_digit d ∧ hex_digit d < 127 := by
  unfold hex_digit
  split_ifs <;> omega

theorem printable_scalar (a : Nat) (h : 32 ≤ a ∧ a < 127) : unicode_scalar a := by
  unfold unicode_scalar; omega

theorem printable_is_safe (a : Nat) (h : 32 ≤ a ∧ a < 127) : ¬ unsafe_code_point a := by
  unfold unsafe_code_point; omega

theorem printable_not_replaced (a : Nat) (t : List Nat) (h : 32 ≤ a ∧ a < 127) :
    ¬ replaced_by_code a t := by
  unfold replaced_by_code unsafe_code_point; omega

/-- A printable ASCII character in front of a string is kept. -/
theorem escape_printable (a : Nat) (t out : List Nat) (h : 32 ≤ a ∧ a < 127)
    (ht : EscapeOf replaced_by_code t out) : EscapeOf replaced_by_code (a :: t) (a :: out) := by
  have := EscapeOf.keep a t out (printable_scalar a h) (printable_not_replaced a t h) ht
  rwa [utf8_encode_ascii a (by omega)] at this

theorem escape_x_escape (b : Nat) (t out : List Nat) (hb : b < 256)
    (ht : EscapeOf replaced_by_code t out) :
    EscapeOf replaced_by_code (x_escape b ++ t) (x_escape b ++ out) := by
  unfold x_escape
  exact escape_printable _ _ _ (by norm_num) (escape_printable _ _ _ (by norm_num)
    (escape_printable _ _ _ (hex_digit_range _ (by omega))
      (escape_printable _ _ _ (hex_digit_range _ (by omega)) ht)))

theorem escape_u_escape (c : Nat) (t out : List Nat) (hc : c < 65536)
    (ht : EscapeOf replaced_by_code t out) :
    EscapeOf replaced_by_code (u_escape c ++ t) (u_escape c ++ out) := by
  unfold u_escape
  exact escape_printable _ _ _ (by norm_num) (escape_printable _ _ _ (by norm_num)
    (escape_printable _ _ _ (hex_digit_range _ (by omega))
      (escape_printable _ _ _ (hex_digit_range _ (by omega))
        (escape_printable _ _ _ (hex_digit_range _ (by omega))
          (escape_printable _ _ _ (hex_digit_range _ (by omega)) ht)))))

/-- The first byte of an encoding is below 0x80 only for the code point it is. -/
theorem utf8_encode_head (c v : Nat) (t : List Nat) (hv : v < 0x80)
    (h : (utf8_encode c ++ t).head? = some v) : c = v := by
  unfold utf8_encode at h
  split_ifs at h <;> simp at h <;> omega

theorem head_append_encode (c : Nat) (t u : List Nat) :
    (utf8_encode c ++ t).head? = (utf8_encode c ++ u).head? := by
  have hne := utf8_encode_ne_nil c
  cases he : utf8_encode c with
  | nil => exact absurd he hne
  | cons a l => rfl

/-- A newline at the head of the input is at the head of its escaping. -/
theorem escape_head_newline (s out : List Nat) (h : EscapeOf replaced_by_code s out)
    (hs : s.head? = some 10) : out.head? = some 10 := by
  cases h with
  | nil => simp at hs
  | keep c rest out hc hr ho =>
    rw [head_append_encode c out rest]; exact hs
  | code_point c rest out hc hr ho =>
    have := utf8_encode_head c 10 rest (by norm_num) hs
    subst this
    exact absurd hr (by unfold replaced_by_code unsafe_code_point; omega)
  | byte b rest out hn ho =>
    have hb : b = 10 := by simpa using hs
    subst hb
    exact absurd ⟨10, rest, by unfold unicode_scalar; omega, by
      rw [utf8_encode_ascii 10 (by norm_num)]; rfl⟩ hn

/-- The escaping keeps a kept code point kept. -/
theorem not_replaced_of_escape (c : Nat) (rest out : List Nat)
    (hr : ¬ replaced_by_code c rest) (ho : EscapeOf replaced_by_code rest out) :
    ¬ replaced_by_code c out := by
  unfold replaced_by_code at hr ⊢
  intro h
  rcases h with h | ⟨h1, h2⟩
  · exact hr (Or.inl h)
  · apply h2
    apply escape_head_newline rest out ho
    by_contra h3
    exact hr (Or.inr ⟨h1, h3⟩)

/-- An escaping is its own escaping. -/
theorem escape_fixed (s out : List Nat) (h : EscapeOf replaced_by_code s out)
    (hb : is_bytes s) : EscapeOf replaced_by_code out out := by
  induction h with
  | nil => exact EscapeOf.nil
  | keep c rest out hc hr ho ih =>
    exact EscapeOf.keep c out out hc (not_replaced_of_escape c rest out hr ho)
      (ih (is_bytes_append_right _ _ hb))
  | code_point c rest out hc hr _ ih =>
    have := replaced_small c rest hr
    exact escape_u_escape c out out (by omega) (ih (is_bytes_append_right _ _ hb))
  | byte b rest out _ _ ih =>
    obtain ⟨hb1, hb2⟩ := is_bytes_cons b rest hb
    exact escape_x_escape b out out hb1 (ih hb2)

theorem safe_text_nil : safe_text [] :=
  ⟨[], fun _ h => absurd h (List.not_mem_nil _), rfl⟩

theorem safe_text_encode (c : Nat) (t : List Nat) (hc : unicode_scalar c)
    (hn : ¬ unsafe_code_point c) (ht : safe_text t) : safe_text (utf8_encode c ++ t) := by
  obtain ⟨cs, h1, h2⟩ := ht
  refine ⟨c :: cs, ?_, ?_⟩
  · intro x hx
    rcases List.mem_cons.mp hx with h | h
    · subst h; exact ⟨hc, hn⟩
    · exact h1 x h
  · rw [h2]; rfl

theorem safe_text_printable (a : Nat) (t : List Nat) (h : 32 ≤ a ∧ a < 127)
    (ht : safe_text t) : safe_text (a :: t) := by
  have := safe_text_encode a t (printable_scalar a h) (printable_is_safe a h) ht
  rwa [utf8_encode_ascii a (by omega)] at this

theorem safe_text_x_escape (b : Nat) (t : List Nat) (hb : b < 256) (ht : safe_text t) :
    safe_text (x_escape b ++ t) := by
  unfold x_escape
  exact safe_text_printable _ _ (by norm_num) (safe_text_printable _ _ (by norm_num)
    (safe_text_printable _ _ (hex_digit_range _ (by omega))
      (safe_text_printable _ _ (hex_digit_range _ (by omega)) ht)))

theorem safe_text_u_escape (c : Nat) (t : List Nat) (hc : c < 65536) (ht : safe_text t) :
    safe_text (u_escape c ++ t) := by
  unfold u_escape
  exact safe_text_printable _ _ (by norm_num) (safe_text_printable _ _ (by norm_num)
    (safe_text_printable _ _ (hex_digit_range _ (by omega))
      (safe_text_printable _ _ (hex_digit_range _ (by omega))
        (safe_text_printable _ _ (hex_digit_range _ (by omega))
          (safe_text_printable _ _ (hex_digit_range _ (by omega)) ht)))))

/-- An escaping is valid UTF-8 with safe code points only. -/
theorem escape_safe (s out : List Nat) (h : EscapeOf replaced_by_code s out)
    (hb : is_bytes s) : safe_text out := by
  induction h with
  | nil => exact safe_text_nil
  | keep c rest out hc hr _ ih =>
    exact safe_text_encode c out hc (fun hu => hr (Or.inl hu))
      (ih (is_bytes_append_right _ _ hb))
  | code_point c rest out hc hr _ ih =>
    have := replaced_small c rest hr
    exact safe_text_u_escape c out (by omega) (ih (is_bytes_append_right _ _ hb))
  | byte b rest out _ _ ih =>
    obtain ⟨hb1, hb2⟩ := is_bytes_cons b rest hb
    exact safe_text_x_escape b out hb1 (ih hb2)

theorem utf8_encode_bytes (c : Nat) (hc : unicode_scalar c) : is_bytes (utf8_encode c) := by
  obtain ⟨h1, h2⟩ := hc
  unfold utf8_encode is_bytes
  split_ifs <;> simp <;> omega

theorem utf8_string_bytes (cs : List Nat) (h : ∀ c ∈ cs, unicode_scalar c) :
    is_bytes (utf8_string cs) := by
  induction cs with
  | nil => intro b hb; exact absurd hb (List.not_mem_nil _)
  | cons c cs ih =>
    exact is_bytes_append _ _ (utf8_encode_bytes c (h c (List.mem_cons_self c cs)))
      (ih (fun x hx => h x (List.mem_cons_of_mem c hx)))

theorem utf8_string_head_newline (cs : List Nat) (h : cs.head? = some 10) :
    (utf8_string cs).head? = some 10 := by
  cases cs with
  | nil => simp at h
  | cons c cs =>
    have hc : c = 10 := by simpa using h
    subst hc
    show (utf8_encode 10 ++ utf8_string cs).head? = some 10
    rw [utf8_encode_ascii 10 (by norm_num)]; rfl

/-- Clean text is its own escaping. -/
theorem escape_clean (cs : List Nat) (h1 : safe_code_points cs) (h2 : cr_before_lf cs) :
    EscapeOf replaced_by_code (utf8_string cs) (utf8_string cs) := by
  induction cs with
  | nil => exact EscapeOf.nil
  | cons c cs ih =>
    obtain ⟨hcr, h2b⟩ := h2
    obtain ⟨hc, hn⟩ := h1 c (List.mem_cons_self c cs)
    refine EscapeOf.keep c (utf8_string cs) (utf8_string cs) hc ?_
      (ih (fun x hx => h1 x (List.mem_cons_of_mem c hx)) h2b)
    intro hr
    rcases hr with hr | ⟨hr1, hr2⟩
    · exact hn hr
    · exact hr2 (utf8_string_head_newline cs (hcr hr1))

theorem clean_text_bytes (s : List Nat) (h : clean_text s) : is_bytes s := by
  obtain ⟨cs, h1, _, h3⟩ := h
  rw [h3]
  exact utf8_string_bytes cs (fun c hc => (h1 c hc).1)

theorem escape_string_clean (s : List Nat) (h : clean_text s) : escape_string s = some s := by
  have hb := clean_text_bytes s h
  obtain ⟨cs, h1, h2, h3⟩ := h
  subst h3
  exact escape_string_of_escape _ _ hb (escape_clean cs h1 h2)

/-- Behind its first byte an encoding has continuation bytes only. -/
theorem utf8_encode_tail (c k : Nat) (r : List Nat) (hk1 : 1 ≤ k)
    (hk2 : k < (utf8_encode c).length) : 0x80 ≤ (utf8_encode c ++ r).getD k 0 := by
  unfold utf8_encode at hk2 ⊢
  split_ifs at hk2 ⊢
  · simp at hk2; omega
  · simp at hk2
    obtain rfl : k = 1 := by omega
    show 0x80 ≤ 0x80 + c % 64
    omega
  · simp at hk2
    obtain rfl | rfl : k = 1 ∨ k = 2 := by omega
    · show 0x80 ≤ 0x80 + c / 64 % 64
      omega
    · show 0x80 ≤ 0x80 + c % 64
      omega
  · simp at hk2
    obtain rfl | rfl | rfl : k = 1 ∨ k = 2 ∨ k = 3 := by omega
    · show 0x80 ≤ 0x80 + c / 4096 % 64
      omega
    · show 0x80 ≤ 0x80 + c / 64 % 64
      omega
    · show 0x80 ≤ 0x80 + c % 64
      omega

/-- A byte that begins no character begins none when ASCII text follows the string. -/
theorem not_starts_append (b0 : Nat) (rest t : List Nat)
    (h : ¬ starts_with_character (b0 :: rest)) (ht : ∀ v, t.head? = some v → v < 0x80) :
    ¬ starts_with_character (b0 :: (rest ++ t)) := by
  rintro ⟨c, r, hc, he⟩
  have he2 : (b0 :: rest) ++ t = utf8_encode c ++ r := he
  by_cases hl : (utf8_encode c).length ≤ (b0 :: rest).length
  · have p1 : utf8_encode c <+: (b0 :: rest) ++ t := ⟨r, he2.symm⟩
    have p2 : (b0 :: rest) <+: (b0 :: rest) ++ t := List.prefix_append _ _
    obtain ⟨r2, hr2⟩ := List.prefix_of_prefix_length_le p1 p2 hl
    exact h ⟨c, r2, hc, hr2.symm⟩
  · have hlen : (b0 :: rest).length + t.length = (utf8_encode c).length + r.length := by
      rw [← List.length_append, ← List.length_append, he2]
    cases t with
    | nil => simp at hlen hl; omega
    | cons v t2 =>
      have hv := ht v rfl
      have g1 : ((b0 :: rest) ++ v :: t2).getD (b0 :: rest).length 0 = v := by
        rw [getD_at]; rfl
      have g2 := utf8_encode_tail c (b0 :: rest).length r (by simp) (by omega)
      rw [← he2, g1] at g2
      omega

/-- The escaping of a string followed by ASCII text is the escaping of the string
followed by the escaping of the text, unless a carriage return and a newline meet at the
joint. -/
theorem escape_append (a ra : List Nat) (h : EscapeOf replaced_by_code a ra) :
    ∀ (t rt : List Nat), EscapeOf replaced_by_code t rt →
      (∀ v, t.head? = some v → v < 0x80 ∧ (v = 10 → a.getLast? ≠ some 13)) →
      EscapeOf replaced_by_code (a ++ t) (ra ++ rt) := by
  induction h with
  | nil => intro t rt ht _; exact ht
  | keep c rest out hc hr _ ih =>
    intro t rt ht hd
    rw [List.append_assoc, List.append_assoc]
    refine EscapeOf.keep c (rest ++ t) (out ++ rt) hc ?_ (ih t rt ht ?_)
    · intro hr2
      rcases hr2 with hr2 | ⟨h1, h2⟩
      · exact hr (Or.inl hr2)
      · apply h2
        have : rest.head? = some 10 := by
          by_contra h3
          exact hr (Or.inr ⟨h1, h3⟩)
        cases rest with
        | nil => simp at this
        | cons x xs => simpa using this
    · intro v hv
      refine ⟨(hd v hv).1, fun h10 hlast => (hd v hv).2 h10 ?_⟩
      rw [List.getLast?_append, hlast]; rfl
  | code_point c rest out hc hr _ ih =>
    intro t rt ht hd
    rw [List.append_assoc, List.append_assoc]
    refine EscapeOf.code_point c (rest ++ t) (out ++ rt) hc ?_ (ih t rt ht ?_)
    · rcases hr with hr | ⟨h1, h2⟩
      · exact Or.inl hr
      · refine Or.inr ⟨h1, ?_⟩
        cases rest with
        | nil =>
          intro h3
          have h4 := (hd 10 (by simpa using h3)).2 rfl
          apply h4
          subst h1
          rw [utf8_encode_ascii 13 (by norm_num)]; rfl
        | cons x xs => simpa using h2
    · intro v hv
      refine ⟨(hd v hv).1, fun h10 hlast => (hd v hv).2 h10 ?_⟩
      rw [List.getLast?_append, hlast]; rfl
  | byte b rest out hn _ ih =>
    intro t rt ht hd
    rw [List.append_assoc]
    refine EscapeOf.byte b (rest ++ t) (out ++ rt)
      (not_starts_append b rest t hn (fun v hv => (hd v hv).1)) (ih t rt ht ?_)
    intro v hv
    refine ⟨(hd v hv).1, fun h10 hlast => (hd v hv).2 h10 ?_⟩
    have e : b :: rest = [b] ++ rest := rfl
    rw [e, List.getLast?_append, hlast]; rfl

/-- A byte string begins with the encoding of at most one scalar value. -/
theorem utf8_encode_unique (c d : Nat) (r u : List Nat) (hc : unicode_scalar c)
    (hd : unicode_scalar d) (h : utf8_encode c ++ r = utf8_encode d ++ u) : c = d ∧ r = u := by
  have e : c = d := by
    rw [← decode_encode c r hc, ← decode_encode d u hd, h]
  subst e
  exact ⟨rfl, List.append_cancel_left h⟩

theorem escape_inversion (replaced : Nat → List Nat → Prop) (s o : List Nat)
    (h : EscapeOf replaced s o) :
    (s = [] ∧ o = []) ∨
    (∃ c rest out, unicode_scalar c ∧ s = utf8_encode c ++ rest ∧ ¬ replaced c rest ∧
      o = utf8_encode c ++ out ∧ EscapeOf replaced rest out) ∨
    (∃ c rest out, unicode_scalar c ∧ s = utf8_encode c ++ rest ∧ replaced c rest ∧
      o = u_escape c ++ out ∧ EscapeOf replaced rest out) ∨
    (∃ b rest out, s = b :: rest ∧ ¬ starts_with_character (b :: rest) ∧
      o = x_escape b ++ out ∧ EscapeOf replaced rest out) := by
  cases h with
  | nil => exact Or.inl ⟨rfl, rfl⟩
  | keep c rest out hc hr ho => exact Or.inr (Or.inl ⟨c, rest, out, hc, rfl, hr, rfl, ho⟩)
  | code_point c rest out hc hr ho =>
    exact Or.inr (Or.inr (Or.inl ⟨c, rest, out, hc, rfl, hr, rfl, ho⟩))
  | byte b rest out hn ho => exact Or.inr (Or.inr (Or.inr ⟨b, rest, out, rfl, hn, rfl, ho⟩))

/-- A description of this form prescribes one result. -/
theorem escape_unique (replaced : Nat → List Nat → Prop) (s o1 : List Nat)
    (h1 : EscapeOf replaced s o1) : ∀ o2, EscapeOf replaced s o2 → o1 = o2 := by
  induction h1 with
  | nil =>
    intro o2 h2
    rcases escape_inversion replaced _ _ h2 with ⟨_, e⟩ | ⟨c, rest, out, _, e, _⟩ |
      ⟨c, rest, out, _, e, _⟩ | ⟨b, rest, out, e, _⟩
    · exact e.symm
    · exact absurd e.symm (by simp [utf8_encode_ne_nil])
    · exact absurd e.symm (by simp [utf8_encode_ne_nil])
    · exact absurd e (by simp)
  | keep c rest out hc hr _ ih =>
    intro o2 h2
    rcases escape_inversion replaced _ _ h2 with ⟨e, _⟩ | ⟨d, r2, out2, hd, e, hr2, eo, ho⟩ |
      ⟨d, r2, out2, hd, e, hr2, eo, ho⟩ | ⟨b, r2, out2, e, hn, eo, ho⟩
    · exact absurd e (by simp [utf8_encode_ne_nil])
    · obtain ⟨e1, e2⟩ := utf8_encode_unique c d rest r2 hc hd e
      subst e1; subst e2
      rw [eo, ih out2 ho]
    · obtain ⟨e1, e2⟩ := utf8_encode_unique c d rest r2 hc hd e
      subst e1; subst e2
      exact absurd hr2 hr
    · exact absurd ⟨c, rest, hc, e.symm⟩ hn
  | code_point c rest out hc hr _ ih =>
    intro o2 h2
    rcases escape_inversion replaced _ _ h2 with ⟨e, _⟩ | ⟨d, r2, out2, hd, e, hr2, eo, ho⟩ |
      ⟨d, r2, out2, hd, e, hr2, eo, ho⟩ | ⟨b, r2, out2, e, hn, eo, ho⟩
    · exact absurd e (by simp [utf8_encode_ne_nil])
    · obtain ⟨e1, e2⟩ := utf8_encode_unique c d rest r2 hc hd e
      subst e1; subst e2
      exact absurd hr hr2
    · obtain ⟨e1, e2⟩ := utf8_encode_unique c d rest r2 hc hd e
      subst e1; subst e2
      rw [eo, ih out2 ho]
    · exact absurd ⟨c, rest, hc, e.symm⟩ hn
  | byte b rest out hn _ ih =>
    intro o2 h2
    rcases escape_inversion replaced _ _ h2 with ⟨e, _⟩ | ⟨d, r2, out2, hd, e, hr2, eo, ho⟩ |
      ⟨d, r2, out2, hd, e, hr2, eo, ho⟩ | ⟨b2, r2, out2, e, hn2, eo, ho⟩
    · exact absurd e (by simp)
    · exact absurd ⟨d, r2, hd, e⟩ hn
    · exact absurd ⟨d, r2, hd, e⟩ hn
    · obtain ⟨e1, e2⟩ := List.cons.inj e
      subst e1; subst e2
      rw [eo, ih out2 ho]

/-! ## Escaped messages (C21) -/

/-- An ASCII character that is not to be replaced stays. -/
theorem escape_keep_ascii (replaced : Nat → List Nat → Prop) (a : Nat) (t out : List Nat)
    (ha : a < 0x80) (hr : ¬ replaced a t) (h : EscapeOf replaced t out) :
    EscapeOf replaced (a :: t) (a :: out) := by
  have := EscapeOf.keep a t out (by unfold unicode_scalar; omega) hr h
  rw [utf8_encode_ascii a ha] at this
  exact this

theorem safe_text_bytes (s : List Nat) (h : safe_text s) : is_bytes s := by
  obtain ⟨cs, h1, h2⟩ := h
  rw [h2]
  exact utf8_string_bytes cs (fun c hc => (h1 c hc).1)

/-- C21 (as stated, refuted): the two bytes 'A', carriage return are valid UTF-8 whose
code points are both safe, so the description that replaces invalid bytes and unsafe
code points only prescribes the input itself, and nothing else, as the result; the code
returns 'A' followed by the six characters \u000d. -/
theorem escape_kept_characters_counterexample :
    safe_code_points [65, 13] ∧ utf8_string [65, 13] = [65, 13] ∧
    EscapeOf replaced_as_stated [65, 13] [65, 13] ∧
    (∀ out, EscapeOf replaced_as_stated [65, 13] out → out = [65, 13]) ∧
    escape_string [65, 13] = some [65, 92, 117, 48, 48, 48, 100] := by
  have hu : ∀ (c : Nat) (t : List Nat), c = 65 ∨ c = 13 → ¬ replaced_as_stated c t := by
    intro c t hc
    unfold replaced_as_stated unsafe_code_point
    omega
  have k : EscapeOf replaced_as_stated [65, 13] [65, 13] :=
    escape_keep_ascii _ 65 [13] [13] (by norm_num) (hu 65 _ (Or.inl rfl))
      (escape_keep_ascii _ 13 [] [] (by norm_num) (hu 13 _ (Or.inr rfl)) EscapeOf.nil)
  refine ⟨?_, rfl, k, fun out ho => (escape_unique _ _ _ k out ho).symm, rfl⟩
  intro c hc
  have hc2 : c = 65 ∨ c = 13 := by simpa using hc
  unfold unicode_scalar unsafe_code_point
  omega

/-- C21 (amended): for every byte string, with or without an embedded NUL,
`escape_string` returns, and its result is valid UTF-8 containing no unsafe code point
(no C0 control other than tab, newline and carriage return, no DEL, no C1 control).
Reading the input from left to right, every byte that begins no UTF-8 encoding of a
Unicode scalar value has been replaced by the four characters \xNN (two lowercase
hexadecimal digits of the byte), every unsafe code point and every carriage return that
no newline directly follows by the six characters \uNNNN, and every other character is
kept, all in order. -/
theorem escape_string_result (s : List Nat) (hs : is_bytes s) :
    ∃ r, escape_string s = some r ∧ safe_text r ∧ EscapeOf replaced_by_code s r := by
  obtain ⟨r, h1, h2⟩ := escape_string_total s hs
  exact ⟨r, h1, escape_safe s r h2 hs, h2⟩

theorem escape_string_result_witness :
    is_bytes [65, 255, 1, 13, 10, 195, 169, 13] ∧
    ∃ r, escape_string [65, 255, 1, 13, 10, 195, 169, 13] = some r ∧ safe_text r ∧
      EscapeOf replaced_by_code [65, 255, 1, 13, 10, 195, 169, 13] r :=
  ⟨by intro b hb; simp at hb; omega,
    escape_string_result [65, 255, 1, 13, 10, 195, 169, 13]
      (by intro b hb; simp at hb; omega)⟩

/-! ## Tab, newline and carriage return (C22) -/

/-- C22 (as stated, refuted): in the input carriage return, 'A' the carriage return is
followed by 'A'; the result is the six characters \u000d and 'A', which holds no
carriage return. -/
theorem carriage_return_counterexample :
    escape_string [13, 65] = some [92, 117, 48, 48, 48, 100, 65] ∧
    13 ∉ [92, 117, 48, 48, 48, 100, 65] := by
  exact ⟨rfl, by decide⟩

/-- C22 (amended): let `a` and `b` be byte strings with the results `ra` and `rb`.  A
tab between them is passed through: the result of `a`, tab, `b` is `ra`, tab, `rb`.  So
is a newline (when `a` ends in a carriage return, as the pair carriage return, newline
of the third part).  A carriage return that a newline follows is passed through with
it; a carriage return that no newline follows is replaced by the six characters
\u000d. -/
theorem tab_newline_pass_through (a b : List Nat) (ha : is_bytes a) (hb : is_bytes b) :
    ∃ ra rb, escape_string a = some ra ∧ escape_string b = some rb ∧
      escape_string (a ++ 9 :: b) = some (ra ++ 9 :: rb) ∧
      (a.getLast? ≠ some 13 → escape_string (a ++ 10 :: b) = some (ra ++ 10 :: rb)) ∧
      escape_string (a ++ 13 :: 10 :: b) = some (ra ++ 13 :: 10 :: rb) ∧
      (b.head? ≠ some 10 →
        escape_string (a ++ 13 :: b) = some (ra ++ [92, 117, 48, 48, 48, 100] ++ rb)) := by
  obtain ⟨ra, ea, ka⟩ := escape_string_total a ha
  obtain ⟨rb, eb, kb⟩ := escape_string_total b hb
  have bytes_cons : ∀ (v : Nat) (t : List Nat), v < 256 → is_bytes t → is_bytes (v :: t) := by
    intro v t hv ht x hx
    rcases List.mem_cons.mp hx with h | h
    · subst h; exact hv
    · exact ht x h
  have k9 : EscapeOf replaced_by_code (9 :: b) (9 :: rb) :=
    escape_keep_ascii _ 9 b rb (by norm_num)
      (by unfold replaced_by_code unsafe_code_point; omega) kb
  have k10 : EscapeOf replaced_by_code (10 :: b) (10 :: rb) :=
    escape_keep_ascii _ 10 b rb (by norm_num)
      (by unfold replaced_by_code unsafe_code_point; omega) kb
  have k13 : EscapeOf replaced_by_code (13 :: 10 :: b) (13 :: 10 :: rb) :=
    escape_keep_ascii _ 13 (10 :: b) (10 :: rb) (by norm_num)
      (by unfold replaced_by_code unsafe_code_point; simp) k10
  refine ⟨ra, rb, ea, eb, ?_, ?_, ?_, ?_⟩
  · apply escape_string_of_escape _ _ (is_bytes_append _ _ ha (bytes_cons 9 b (by norm_num) hb))
    apply escape_append a ra ka _ _ k9
    intro v hv
    have : v = 9 := by simpa using hv.symm
    omega
  · intro hlast
    apply escape_string_of_escape _ _
      (is_bytes_append _ _ ha (bytes_cons 10 b (by norm_num) hb))
    apply escape_append a ra ka _ _ k10
    intro v hv
    have : v = 10 := by simpa using hv.symm
    exact ⟨by omega, fun _ => hlast⟩
  · apply escape_string_of_escape _ _
      (is_bytes_append _ _ ha (bytes_cons 13 _ (by norm_num) (bytes_cons 10 b (by norm_num) hb)))
    apply escape_append a ra ka _ _ k13
    intro v hv
    have : v = 13 := by simpa using hv.symm
    omega
  · intro hhead
    have kcr : EscapeOf replaced_by_code (13 :: b) ([92, 117, 48, 48, 48, 100] ++ rb) := by
      have := @EscapeOf.code_point replaced_by_code 13 b rb
        (by unfold unicode_scalar; omega) (Or.inr ⟨rfl, hhead⟩) kb
      rw [utf8_encode_ascii 13 (by norm_num)] at this
      exact this
    rw [List.append_assoc]
    apply escape_string_of_escape _ _
      (is_bytes_append _ _ ha (bytes_cons 13 b (by norm_num) hb))
    apply escape_append a ra ka _ _ kcr
    intro v hv
    have : v = 13 := by simpa using hv.symm
    omega

theorem tab_newline_pass_through_witness :
    is_bytes [65, 13] ∧ is_bytes [10, 255] ∧
    ∃ ra rb, escape_string [65, 13] = some ra ∧ escape_string [10, 255] = some rb ∧
      escape_string ([65, 13] ++ 9 :: [10, 255]) = some (ra ++ 9 :: rb) ∧
      (([65, 13] : List Nat).getLast? ≠ some 13 →
        escape_string ([65, 13] ++ 10 :: [10, 255]) = some (ra ++ 10 :: rb)) ∧
      escape_string ([65, 13] ++ 13 :: 10 :: [10, 255]) = some (ra ++ 13 :: 10 :: rb) ∧
      (([10, 255] : List Nat).head? ≠ some 10 →
        escape_string ([65, 13] ++ 13 :: [10, 255])
          = some (ra ++ [92, 117, 48, 48, 48, 100] ++ rb)) :=
  ⟨by intro b hb; simp at hb; omega, by intro b hb; simp at hb; omega,
    tab_newline_pass_through [65, 13] [10, 255] (by intro b hb; simp at hb; omega)
      (by intro b hb; simp at hb; omega)⟩

/-! ## Escaping twice (C23) -/

/-- C23: for every byte string `s`, `escape_string` returns a result `r` and returns
`r` again on `r`; and when `s` is valid UTF-8 with safe code points only, in which a
newline follows every carriage return, it returns `s`. -/
theorem escape_string_idempotent (s : List Nat) (hs : is_bytes s) :
    (∃ r, escape_string s = some r ∧ escape_string r = some r) ∧
    (clean_text s → escape_string s = some s) := by
  refine ⟨?_, escape_string_clean s⟩
  obtain ⟨r, h1, h2⟩ := escape_string_total s hs
  exact ⟨r, h1, escape_string_of_escape r r (safe_text_bytes r (escape_safe s r h2 hs))
    (escape_fixed s r h2 hs)⟩

theorem escape_string_idempotent_witness :
    is_bytes [9, 195, 169, 13, 10, 65] ∧
    clean_text [9, 195, 169, 13, 10, 65] ∧
    ((∃ r, escape_string [9, 195, 169, 13, 10, 65] = some r ∧ escape_string r = some r) ∧
      (clean_text [9, 195, 169, 13, 10, 65] →
        escape_string [9, 195, 169, 13, 10, 65] = some [9, 195, 169, 13, 10, 65])) := by
  refine ⟨by intro b hb; simp at hb; omega, ⟨[9, 233, 13, 10, 65], ?_, ?_, rfl⟩,
    escape_string_idempotent [9, 195, 169, 13, 10, 65] (by intro b hb; simp at hb; omega)⟩
  · intro c hc
    have hc2 : c = 9 ∨ c = 233 ∨ c = 13 ∨ c = 10 ∨ c = 65 := by simpa using hc
    unfold unicode_scalar unsafe_code_point
    omega
  · simp [cr_before_lf]

end LaunchRemote
